import Mathlib

/-!
# Storage-provider control plane: manager and executor

A shallow embedding of the scheduling and task-handling code of the storage
provider (`modular/manager/manager.go`, `modular/executor/execute_task.go`,
`base/gnfd/gnfd_service.go`) together with the properties checked against it.

Conventions of the embedding:

* Go `uint64` block heights, object ids and sizes and `uint32` shard counts
  are natural numbers; the sums the embedded code forms on them are reduced
  modulo `2 ^ 64` and `2 ^ 32` as the machine does (`addUint64`,
  `addUint32`), and conversions between signed and unsigned types are
  explicit (`uint64OfInt64`, `int32OfUint32`).
* Go `int` and `int64` configuration values and counters are integers.
* Calls to external collaborators (chain, metadata service, piece store,
  manager RPC) are answered by oracle functions, indexed by the number of
  the call; every call that matters is recorded in a trace.
* Logging and metrics are not modelled.
-/

namespace Gfsp

/-! ## Errors -/

/-- The registered error values the embedded code refers to, and `other` for
any further error returned by a collaborator. -/
inductive GfSpError where
  | ErrDanglingPointer
  | ErrUnsealed
  | ErrSealTimeout
  | ErrCanceledTask
  | ErrSecondaryMismatch
  | ErrReplicateIdsOutOfBounds
  | ErrGfSpDB
  | ErrRecoveryRedundancyType
  | ErrRecoveryPieceNotEnough
  | ErrRecoveryDecode
  | ErrRecoveryPieceChecksum
  | ErrRecoveryPieceLength
  | ErrPrimaryNotFound
  | ErrRecoveryPieceIndex
  | other (code : Nat)
  deriving DecidableEq, Repr

/-! ## Task model (`core/task/task.go`) -/

/-- Modelled from the spec: the shared header of every task (the `Task`
interface of `core/task/task.go`; its implementation is not part of the
sources). `TPriority` is an unsigned number, `Retry`, `MaxRetry`,
`UpdateTime` and `Timeout` are `int64`. -/
structure Task where
  Key : String
  Priority : Nat
  Retry : Int
  MaxRetry : Int
  UpdateTime : Int
  Timeout : Int
  Err : Option GfSpError
  deriving DecidableEq, Repr

/-- Modelled from the spec: `ExceedRetry` "returns an indicator whether retry
counter greater that max retry". -/
def Task.ExceedRetry (t : Task) : Bool :=
  decide (t.Retry > t.MaxRetry)

/-- Modelled from the spec: `ExceedTimeout`, "if update time adds timeout
lesser now returns true, otherwise returns false". -/
def Task.ExceedTimeout (now : Int) (t : Task) : Bool :=
  decide (t.UpdateTime + t.Timeout < now)

/-- Modelled from the spec: `GetRetry` reads the retry counter. -/
def Task.GetRetry (t : Task) : Int := t.Retry

/-- Modelled from the spec: `GetPriority` reads the priority. -/
def Task.GetPriority (t : Task) : Nat := t.Priority

/-! ## Manager: filter strategies and weighted pick -/

/-- Embeds `ManageModular.FilterUploadingTask`; `now` is the clock the task's
`ExceedTimeout` reads. -/
def FilterUploadingTask (now : Int) (qTask : Task) : Bool :=
  if qTask.ExceedRetry then false
  else if qTask.ExceedTimeout now then true
  else if qTask.GetRetry = 0 then true
  else false

/-- One insertion step of the sort: `t` moves left past every element of
strictly greater priority (`Less(j, j-1)` in Go's insertion sort). -/
def insertTask (t : Task) : List Task → List Task
  | [] => [t]
  | x :: xs => if t.GetPriority < x.GetPriority then t :: x :: xs else x :: insertTask t xs

/-- Embeds `sort.Slice(tasks, less)` with `less(i, j)` comparing
`tasks[i].GetPriority() < tasks[j].GetPriority()`: ascending by priority. Go does not promise a stable order for equal
priorities; this is the insertion sort the runtime uses on short slices. -/
def sortTasks (tasks : List Task) : List Task :=
  tasks.foldl (fun acc t => insertTask t acc) []

/-- The first loop of `PickUpTask`: the sum of all priorities. -/
def totalPriority (tasks : List Task) : Nat :=
  tasks.foldl (fun acc t => acc + t.GetPriority) 0

/-- The second loop of `PickUpTask`: walk the running sums and return the first
task whose running sum is `>= randPriority`; `nil` when the walk ends. -/
def walkTasks (randPriority : Nat) : Nat → List Task → Option Task
  | _, [] => none
  | acc, t :: ts =>
    if acc + t.GetPriority ≥ randPriority then some t
    else walkTasks randPriority (acc + t.GetPriority) ts

/-- What a call of `PickUpTask` ends with: a task, Go's `nil`, or the panic of
`rand.Intn` on a non-positive argument. -/
inductive Picked where
  | task (t : Task)
  | nil
  | intnPanic
  deriving DecidableEq, Repr

/-- Embeds `ManageModular.PickUpTask`. `randPriority` is the value `r.Intn(totalPriority)`
returns, a number below `totalPriority`; `Intn` panics when its argument is
not positive. -/
def PickUpTask (tasks : List Task) (randPriority : Nat) : Picked :=
  match tasks with
  | [] => .nil
  | [t] => .task t
  | _ =>
    let sorted := sortTasks tasks
    if totalPriority sorted = 0 then .intnPanic
    else
      match walkTasks randPriority 0 sorted with
      | some t => .task t
      | none => .nil

/-- The draws `r` in `[0, S)`, `S` the total priority, for which `PickUpTask`
returns the task `t`. -/
def drawsReturning (tasks : List Task) (t : Task) : List Nat :=
  (List.range (totalPriority tasks)).filter
    (fun r => decide (PickUpTask tasks r = .task t))

/-! ## Machine arithmetic -/

/-- Go's addition of two `uint64` values: the sum modulo `2 ^ 64`. -/
def addUint64 (a b : Nat) : Nat := (a + b) % 2 ^ 64

/-- Go's addition of two `uint32` values: the sum modulo `2 ^ 32`. -/
def addUint32 (a b : Nat) : Nat := (a + b) % 2 ^ 32

/-- The value of type `int32` congruent to `x` modulo `2 ^ 32`: what Go's `int32`
arithmetic and conversions to `int32` yield. -/
def wrapInt32 (x : Int) : Int := (x + 2 ^ 31) % 2 ^ 32 - 2 ^ 31

/-- Go's conversion `int32(x)` of a `uint32`. -/
def int32OfUint32 (x : Nat) : Int := wrapInt32 (x : Int)

/-! ## Manager: the GC-object ticker of `eventLoop` -/

/-- The fields of `ManageModular` the GC-object ticker reads and writes. -/
structure ManageModular where
  gcBlockHeight : Nat
  gcObjectBlockInterval : Nat
  gcSafeBlockDistance : Nat
  deriving DecidableEq, Repr

/-- Answers of the collaborators during one GC-object tick: the chain's
`CurrentHeight`, `gcObjectQueue.Push` of the task built for `[start, end]`
and `InsertGCObjectProgress` of its progress row (`none` is a nil error). -/
structure GCTickEnv where
  CurrentHeight : Except GfSpError Nat
  Push : Nat → Nat → Option GfSpError
  InsertGCObjectProgress : Nat → Nat → Option GfSpError

/-- The calls one GC-object tick makes: the push of the task for
`[start, end]` with its result, and the insert of the progress row. -/
inductive TickEff where
  | push (start end_ : Nat) (err : Option GfSpError)
  | insertGCObjectProgress (start end_ : Nat)
  deriving DecidableEq, Repr

/-- Embeds the `case <-gcObjectTicker.C` branch of `ManageModular.eventLoop`:
one tick, returning the manager afterwards and the calls made. The three
fields are `uint64`, and `end`, `end+m.gcSafeBlockDistance` and `end + 1` are
`uint64` sums. -/
def gcObjectTick (m : ManageModular) (env : GCTickEnv) : ManageModular × List TickEff :=
  let start := m.gcBlockHeight
  let end_ := addUint64 m.gcBlockHeight m.gcObjectBlockInterval
  match env.CurrentHeight with
  | .error _ => (m, [])
  | .ok currentBlockHeight =>
    if addUint64 end_ m.gcSafeBlockDistance > currentBlockHeight then (m, [])
    else
      match env.Push start end_ with
      | none =>
        let m1 := { m with gcBlockHeight := addUint64 end_ 1 }
        match env.InsertGCObjectProgress start end_ with
        | some _ => (m1, [.push start end_ none, .insertGCObjectProgress start end_])
        | none => (m1, [.push start end_ none, .insertGCObjectProgress start end_])
      | some err => (m, [.push start end_ (some err)])

/-- Successive GC-object ticks of the event loop, one per element of `envs`. -/
def runTicks : ManageModular → List GCTickEnv → ManageModular × List TickEff
  | m, [] => (m, [])
  | m, env :: envs =>
    let r := gcObjectTick m env
    let rs := runTicks r.1 envs
    (rs.1, r.2 ++ rs.2)

/-- The block ranges `(start, end)` of the tasks whose push succeeded, in the
order they were generated. -/
def enqueuedRanges : List TickEff → List (Nat × Nat)
  | [] => []
  | .push start end_ none :: effs => (start, end_) :: enqueuedRanges effs
  | _ :: effs => enqueuedRanges effs

/-! ## Chain data (`storagetypes`) -/

/-- Modelled from the spec: the on-chain status of an object (`storagetypes`
is an external package); `OBJECT_STATUS_CREATED` is the zero value. -/
inductive ObjectStatus where
  | OBJECT_STATUS_CREATED
  | OBJECT_STATUS_SEALED
  | OBJECT_STATUS_DISCONTINUED
  deriving DecidableEq, Repr

/-- Modelled from the spec: the redundancy type of an object. -/
inductive RedundancyType where
  | REDUNDANCY_EC_TYPE
  | REDUNDANCY_REPLICA_TYPE
  deriving DecidableEq, Repr

/-- Modelled from the spec: the fields of the on-chain `ObjectInfo` the embedded
code reads. -/
structure ObjectInfo where
  Id : Nat
  BucketName : String
  ObjectName : String
  PayloadSize : Nat
  CreateAt : Int
  ObjectStatus : ObjectStatus
  RedundancyType : RedundancyType
  SecondarySpAddresses : List String
  deriving DecidableEq, Repr

/-- Modelled from the spec: the fields of the storage `Params` the embedded code
reads: `VersionedParams.MaxSegmentSize`, `VersionedParams.RedundantDataChunkNum`,
`VersionedParams.RedundantParityChunkNum` and `MaxPayloadSize`. -/
structure Params where
  MaxSegmentSize : Nat
  RedundantDataChunkNum : Nat
  RedundantParityChunkNum : Nat
  MaxPayloadSize : Nat
  deriving DecidableEq, Repr

/-! ## Chain access: `Gnfd.ListenObjectSeal` -/

/-- The calls `ListenObjectSeal` makes: a `QueryObjectInfoByID` poll and the
sleep of `ExpectedOutputBlockInternal` seconds. -/
inductive ChainEff where
  | queryObjectInfoByID (objectID : Nat)
  | sleepBlock
  deriving DecidableEq, Repr

/-- The loop of `Gnfd.ListenObjectSeal` and its exit: `n` iterations remain, `i`
is the loop counter, `err` the error of the latest poll; `query i` answers
the poll of iteration `i`. -/
def ListenObjectSealLoop (query : Nat → Except GfSpError ObjectInfo) (objectID : Nat) :
    Nat → Nat → Option GfSpError → (Bool × Option GfSpError) × List ChainEff
  | 0, _, err =>
    match err with
    | none => ((false, some .ErrSealTimeout), [])
    | some e => ((false, some e), [])
  | n + 1, i, _ =>
    match query i with
    | .error e =>
      let r := ListenObjectSealLoop query objectID n (i + 1) (some e)
      (r.1, .queryObjectInfoByID objectID :: .sleepBlock :: r.2)
    | .ok objectInfo =>
      if objectInfo.ObjectStatus = .OBJECT_STATUS_SEALED then
        ((true, none), [.queryObjectInfoByID objectID])
      else
        let r := ListenObjectSealLoop query objectID n (i + 1) none
        (r.1, .queryObjectInfoByID objectID :: .sleepBlock :: r.2)

/-- Embeds `Gnfd.ListenObjectSeal(ctx, objectID, timeoutHeight)`: the returned
pair `(sealed, err)` and the calls made. `timeoutHeight` is a Go `int`; the
loop `for i := 0; i < timeoutHeight; i++` runs `timeoutHeight.toNat` times at most. -/
def ListenObjectSeal (query : Nat → Except GfSpError ObjectInfo) (objectID : Nat)
    (timeoutHeight : Int) : (Bool × Option GfSpError) × List ChainEff :=
  ListenObjectSealLoop query objectID timeoutHeight.toNat 0 none

/-- The number of `QueryObjectInfoByID` polls in a trace. -/
def queryCount (effs : List ChainEff) : Nat :=
  effs.countP (fun eff => match eff with
    | .queryObjectInfoByID _ => true
    | .sleepBlock => false)

/-- Poll `i` succeeded and reported `OBJECT_STATUS_SEALED`. -/
def sealedAt (query : Nat → Except GfSpError ObjectInfo) (i : Nat) : Bool :=
  match query i with
  | .ok objectInfo => decide (objectInfo.ObjectStatus = .OBJECT_STATUS_SEALED)
  | .error _ => false

/-! ## Executor: sealing (`HandleSealObjectTask`, `sealObject`, `listenSealObject`) -/

/-- The configuration fields of `ExecuteModular` the handlers read, and the
operator address `e.baseApp.OperatorAddress()`. -/
structure ExecuteModular where
  OperatorAddress : String
  listenSealTimeoutHeight : Int
  listenSealRetryTimeout : Int
  maxListenSealRetry : Int
  deriving DecidableEq, Repr

/-- Modelled from the spec: a task bound to an object (`ObjectTask`); the
object info is a pointer and may be nil (`none`). -/
structure ObjectTask extends Task where
  ObjectInfo : Option ObjectInfo
  StorageParams : Option Params
  deriving DecidableEq, Repr

/-- Modelled from the spec: `SealObject` "adds `SecondaryAddresses`,
`SecondarySignatures`". -/
structure SealObjectTask extends ObjectTask where
  SecondaryAddresses : List String
  SecondarySignatures : List (List Nat)
  deriving DecidableEq, Repr

/-- Modelled from the spec: `SetError` "sets the error to task"; a nil error
clears it. -/
def SealObjectTask.SetError (t : SealObjectTask) (err : Option GfSpError) : SealObjectTask :=
  { t with Err := err }

/-- The chain message `MsgSealObject`. -/
structure MsgSealObject where
  Operator : String
  BucketName : String
  ObjectName : String
  SecondarySpAddresses : List String
  SecondarySpSignatures : List (List Nat)
  deriving DecidableEq, Repr

/-- The audit events written with `InsertUploadEvent` while sealing. -/
inductive UploadEvent where
  | ExecutorBeginSealTx
  | ExecutorEndSealTx
  | ExecutorBeginConfirmSeal
  | ExecutorEndConfirmSeal
  deriving DecidableEq, Repr

/-- The calls the sealing code makes. -/
inductive SealEff where
  | insertUploadEvent (objectID : Nat) (event : UploadEvent)
  | sealObject (sealMsg : MsgSealObject)
  | listenObjectSeal (objectID : Nat) (timeoutHeight : Int)
  | sleep (seconds : Int)
  deriving DecidableEq, Repr

/-- Answers of the collaborators while sealing: `SealObject i` is the error of
the `i`-th `MsgSealObject` submission (`none` is nil), `ListenObjectSeal i`
the pair `(sealed, err)` the `i`-th `Consensus.ListenObjectSeal` call returns. -/
structure SealEnv where
  SealObject : Nat → Option GfSpError
  ListenObjectSeal : Nat → Bool × Option GfSpError

/-- The loop of `listenSealObject`: `n` iterations remain, `retry` is the loop
counter and `err` the function's `err` variable. -/
def listenSealObjectLoop (e : ExecuteModular) (listen : Nat → Bool × Option GfSpError)
    (objectID : Nat) : Nat → Nat → Option GfSpError → Option GfSpError × List SealEff
  | 0, _, err => (err, [])
  | n + 1, retry, _ =>
    match listen retry with
    | (_, some innerErr) =>
      let r := listenSealObjectLoop e listen objectID n (retry + 1) (some innerErr)
      (r.1, .insertUploadEvent objectID .ExecutorBeginConfirmSeal ::
            .listenObjectSeal objectID e.listenSealTimeoutHeight ::
            .insertUploadEvent objectID .ExecutorEndConfirmSeal ::
            .sleep e.listenSealRetryTimeout :: r.2)
    | (false, none) =>
      let r := listenSealObjectLoop e listen objectID n (retry + 1) (some .ErrUnsealed)
      (r.1, .insertUploadEvent objectID .ExecutorBeginConfirmSeal ::
            .listenObjectSeal objectID e.listenSealTimeoutHeight ::
            .insertUploadEvent objectID .ExecutorEndConfirmSeal :: r.2)
    | (true, none) =>
      (none, [.insertUploadEvent objectID .ExecutorBeginConfirmSeal,
              .listenObjectSeal objectID e.listenSealTimeoutHeight,
              .insertUploadEvent objectID .ExecutorEndConfirmSeal])

/-- Embeds `ExecuteModular.listenSealObject(ctx, object)`: the returned error
(`none` is nil) and the calls made. `maxListenSealRetry` is a Go `int`; the loop
`for retry := 0; retry < e.maxListenSealRetry; retry++` runs
`maxListenSealRetry.toNat` times at most. -/
def listenSealObject (e : ExecuteModular) (listen : Nat → Bool × Option GfSpError)
    (object : ObjectInfo) : Option GfSpError × List SealEff :=
  listenSealObjectLoop e listen object.Id e.maxListenSealRetry.toNat 0 none

/-- The submission loop of `sealObject`: `n` iterations remain, `retry` is the
loop counter; the loop breaks at the first submission without error. -/
def sealObjectSubmitLoop (e : ExecuteModular) (submit : Nat → Option GfSpError)
    (objectID : Nat) (sealMsg : MsgSealObject) : Nat → Nat → List SealEff
  | 0, _ => []
  | n + 1, retry =>
    match submit retry with
    | some _ =>
      .insertUploadEvent objectID .ExecutorBeginSealTx :: .sealObject sealMsg ::
      .insertUploadEvent objectID .ExecutorEndSealTx :: .sleep e.listenSealRetryTimeout ::
      sealObjectSubmitLoop e submit objectID sealMsg n (retry + 1)
    | none =>
      [.insertUploadEvent objectID .ExecutorBeginSealTx, .sealObject sealMsg,
       .insertUploadEvent objectID .ExecutorEndSealTx]

/-- Embeds `ExecuteModular.sealObject(ctx, task, sealMsg)`; `objectInfo` is the
dereferenced `task.GetObjectInfo()`. The loop
`for retry := int64(0); retry <= task.GetMaxRetry(); retry++` runs
`(MaxRetry + 1).toNat` times at most (`MaxRetry` below the largest `int64`);
the error of the submissions is overwritten by the result of
`listenSealObject`. -/
def sealObject (e : ExecuteModular) (env : SealEnv) (task : ObjectTask)
    (objectInfo : ObjectInfo) (sealMsg : MsgSealObject) : Option GfSpError × List SealEff :=
  let submitted := sealObjectSubmitLoop e env.SealObject objectInfo.Id sealMsg
    (task.MaxRetry + 1).toNat 0
  let r := listenSealObject e env.ListenObjectSeal objectInfo
  (r.1, submitted ++ r.2)

/-- Embeds `ExecuteModular.HandleSealObjectTask(ctx, task)` for a non-nil `task`:
the task afterwards and the calls made. -/
def HandleSealObjectTask (e : ExecuteModular) (env : SealEnv) (task : SealObjectTask) :
    SealObjectTask × List SealEff :=
  match task.ObjectInfo with
  | none => (task.SetError (some .ErrDanglingPointer), [])
  | some objectInfo =>
    let sealMsg : MsgSealObject :=
      { Operator := e.OperatorAddress
        BucketName := objectInfo.BucketName
        ObjectName := objectInfo.ObjectName
        SecondarySpAddresses := task.SecondaryAddresses
        SecondarySpSignatures := task.SecondarySignatures }
    let r := sealObject e env task.toObjectTask objectInfo sealMsg
    (task.SetError r.1, r.2)

/-- The number of `Consensus.ListenObjectSeal` calls in a trace. -/
def listenCount (effs : List SealEff) : Nat :=
  effs.countP (fun eff => match eff with
    | .listenObjectSeal _ _ => true
    | _ => false)

/-- The number of `MsgSealObject` submissions in a trace. -/
def submitCount (effs : List SealEff) : Nat :=
  effs.countP (fun eff => match eff with
    | .sealObject _ => true
    | _ => false)

/-! ## Executor: garbage collection of deleted objects (`HandleGCObjectTask`) -/

/-- Modelled from the spec: piece keys, "an opaque total function" of the
object id, the segment index and, for EC pieces, the replicate index (the
`PieceOp` helper is not part of the sources). -/
inductive PieceKey where
  | segment (objectID segmentIdx : Nat)
  | ec (objectID segmentIdx replicateIdx : Nat)
  deriving DecidableEq, Repr

/-- Modelled from the spec: the key of a segment piece, `s{objectID}_s{segmentIdx}`. -/
def SegmentPieceKey (objectID segmentIdx : Nat) : PieceKey := .segment objectID segmentIdx

/-- Modelled from the spec: the key of an EC piece,
`e{objectID}_s{segmentIdx}_p{replicateIdx}`. -/
def ECPieceKey (objectID segmentIdx replicateIdx : Nat) : PieceKey :=
  .ec objectID segmentIdx replicateIdx

/-- Modelled from the spec: "Segment count = ⌈PayloadSize / MaxSegmentSize⌉"
(`PieceOp.SegmentPieceCount` is not part of the sources); `MaxSegmentSize` is
positive on chain. -/
def SegmentPieceCount (payloadSize maxSegmentSize : Nat) : Nat :=
  (payloadSize + maxSegmentSize - 1) / maxSegmentSize

/-- The object a piece key belongs to. -/
def PieceKey.objectID : PieceKey → Nat
  | .segment objectID _ => objectID
  | .ec objectID _ _ => objectID

/-- Go's conversion `uint64(x)` of an `int64`. -/
def uint64OfInt64 (x : Int) : Nat := (x % 2 ^ 64).toNat

/-- Modelled from the spec: an entry of the deleted-object list of the metadata
service (`types.Object`): the object info, which the service fills for every
listed object, and the block height `DeleteAt` (`int64`). -/
structure Object where
  ObjectInfo : ObjectInfo
  DeleteAt : Int
  deriving DecidableEq, Repr

/-- Modelled from the spec: `GCObject` "adds block-range `[Start, End]`,
`CurrentBlockNumber`, `LastDeletedObjectID`" to the task header. -/
structure GCObjectTask extends Task where
  StartBlockNumber : Nat
  EndBlockNumber : Nat
  CurrentBlockNumber : Nat
  LastDeletedObjectId : Nat
  deriving DecidableEq, Repr

/-- Modelled from the spec: `SetCurrentBlockNumber` "sets the collecting block
number". -/
def GCObjectTask.SetCurrentBlockNumber (t : GCObjectTask) (n : Nat) : GCObjectTask :=
  { t with CurrentBlockNumber := n }

/-- Modelled from the spec: `SetLastDeletedObjectId` "sets the last deleted
ObjectID". -/
def GCObjectTask.SetLastDeletedObjectId (t : GCObjectTask) (n : Nat) : GCObjectTask :=
  { t with LastDeletedObjectId := n }

/-- Modelled from the spec: `SetError` "sets the error to task"; a nil error
clears it. -/
def GCObjectTask.SetError (t : GCObjectTask) (err : Option GfSpError) : GCObjectTask :=
  { t with Err := err }

/-- Answers of the collaborators of `HandleGCObjectTask`: the metadata client's
`ListDeletedObjectsByBlockNumberRange(start, end)` (the list and
`responseEndBlockID`), the `i`-th `QueryStorageParamsByTimestamp` call, the
piece store's `DeletePiece`, the database's `DeleteObjectIntegrity`, and the
`i`-th `ReportTask` call with the task it reports (`none` is a nil error). -/
structure GCEnv where
  ListDeletedObjectsByBlockNumberRange : Nat → Nat → Except GfSpError (List Object × Nat)
  QueryStorageParamsByTimestamp : Nat → Int → Except GfSpError Params
  DeletePiece : PieceKey → Option GfSpError
  DeleteObjectIntegrity : Nat → Option GfSpError
  ReportTask : Nat → GCObjectTask → Option GfSpError

/-- The calls `HandleGCObjectTask` makes; deletions carry the error they
returned, which the handler only logs. -/
inductive GCEff where
  | listDeletedObjects (start end_ : Nat)
  | queryStorageParams (timestamp : Int)
  | deletePiece (pieceKey : PieceKey) (deleteErr : Option GfSpError)
  | deleteObjectIntegrity (objectID : Nat) (deleteErr : Option GfSpError)
  | reportTask (task : GCObjectTask)
  deriving DecidableEq, Repr

/-- The object a deletion call is made for; `none` for the other calls. -/
def GCEff.deletedObject : GCEff → Option Nat
  | .deletePiece pieceKey _ => some pieceKey.objectID
  | .deleteObjectIntegrity objectID _ => some objectID
  | _ => none

/-- The deletions of one object in the loop body of `HandleGCObjectTask`: every
primary segment piece; for every replicate index whose secondary address is
the own operator address, the EC pieces (segment pieces under replica
redundancy) of every segment; then the integrity meta. -/
def gcDeleteObject (e : ExecuteModular) (env : GCEnv) (objectInfo : ObjectInfo)
    (segmentCount : Nat) : List GCEff :=
  (List.range segmentCount).map (fun segIdx =>
      let pieceKey := SegmentPieceKey objectInfo.Id segIdx
      GCEff.deletePiece pieceKey (env.DeletePiece pieceKey)) ++
  (objectInfo.SecondarySpAddresses.enum.flatMap (fun (rIdx, address) =>
      if e.OperatorAddress = address then
        (List.range segmentCount).map (fun segIdx =>
          let pieceKey :=
            if objectInfo.RedundancyType = .REDUNDANCY_REPLICA_TYPE then
              SegmentPieceKey objectInfo.Id segIdx
            else ECPieceKey objectInfo.Id segIdx rIdx
          GCEff.deletePiece pieceKey (env.DeletePiece pieceKey))
      else [])) ++
  [GCEff.deleteObjectIntegrity objectInfo.Id (env.DeleteObjectIntegrity objectInfo.Id)]

/-- How the `for _, object := range waitingGCObjects` loop is left. -/
inductive GCLoopExit where
  | finished
  | queryFailed (err : GfSpError)
  | canceled
  deriving DecidableEq, Repr

/-- The state the loop of `HandleGCObjectTask` ends in: how it was left, the
task, the number of reports sent so far and the calls made. -/
structure GCLoopResult where
  exit : GCLoopExit
  task : GCObjectTask
  reports : Nat
  effs : List GCEff

/-- The `for _, object := range waitingGCObjects` loop of `HandleGCObjectTask`:
`queries` and `reports` count the storage-params queries and progress reports
made so far. -/
def gcObjectLoop (e : ExecuteModular) (env : GCEnv) :
    List Object → Nat → Nat → GCObjectTask → GCLoopResult
  | [], _, reports, task => { exit := .finished, task := task, reports := reports, effs := [] }
  | object :: rest, queries, reports, task =>
    match env.QueryStorageParamsByTimestamp queries object.ObjectInfo.CreateAt with
    | .error err =>
      { exit := .queryFailed err, task := task, reports := reports,
        effs := [.queryStorageParams object.ObjectInfo.CreateAt] }
    | .ok storageParams =>
      let currentGCBlockID := uint64OfInt64 object.DeleteAt
      let objectInfo := object.ObjectInfo
      let currentGCObjectID := objectInfo.Id
      if currentGCBlockID < task.CurrentBlockNumber then
        let r := gcObjectLoop e env rest (queries + 1) reports task
        { r with effs := .queryStorageParams object.ObjectInfo.CreateAt :: r.effs }
      else
        let segmentCount := SegmentPieceCount objectInfo.PayloadSize storageParams.MaxSegmentSize
        let deletions := gcDeleteObject e env objectInfo segmentCount
        let task1 := (task.SetCurrentBlockNumber currentGCBlockID).SetLastDeletedObjectId
          currentGCObjectID
        let here := .queryStorageParams object.ObjectInfo.CreateAt ::
          (deletions ++ [.reportTask task1])
        if env.ReportTask reports task1 = some .ErrCanceledTask then
          { exit := .canceled, task := task1, reports := reports + 1, effs := here }
        else
          let r := gcObjectLoop e env rest (queries + 1) (reports + 1) task1
          { r with effs := here ++ r.effs }

/-- The deferred function of `HandleGCObjectTask`: `err` is the handler's `err`
variable and `succeeded` the value of `isSucceed || hasNoObject`.
`task.GetEndBlockNumber() + 1` is a `uint64` sum. -/
def gcObjectDeferred (task : GCObjectTask) (err : Option GfSpError) (succeeded : Bool) :
    GCObjectTask × List GCEff :=
  if err = none ∧ succeeded = true then
    let task1 := task.SetCurrentBlockNumber (addUint64 task.EndBlockNumber 1)
    (task1, [.reportTask task1])
  else
    let task1 := task.SetError err
    (task1, [.reportTask task1])

/-- Embeds `ExecuteModular.HandleGCObjectTask(ctx, task)`: the task afterwards
and the calls made, in order. -/
def HandleGCObjectTask (e : ExecuteModular) (env : GCEnv) (task : GCObjectTask) :
    GCObjectTask × List GCEff :=
  let listed := GCEff.listDeletedObjects task.StartBlockNumber task.EndBlockNumber
  match env.ListDeletedObjectsByBlockNumberRange task.StartBlockNumber task.EndBlockNumber with
  | .error err =>
    let d := gcObjectDeferred task (some err) false
    (d.1, listed :: d.2)
  | .ok (waitingGCObjects, responseEndBlockID) =>
    if responseEndBlockID < task.StartBlockNumber ∨ responseEndBlockID < task.EndBlockNumber then
      let d := gcObjectDeferred task none false
      (d.1, listed :: d.2)
    else if waitingGCObjects.length = 0 then
      let d := gcObjectDeferred task none true
      (d.1, listed :: d.2)
    else
      let r := gcObjectLoop e env waitingGCObjects 0 0 task
      match r.exit with
      | .finished =>
        let d := gcObjectDeferred r.task none true
        (d.1, listed :: (r.effs ++ d.2))
      | .queryFailed err =>
        let d := gcObjectDeferred r.task (some err) false
        (d.1, listed :: (r.effs ++ d.2))
      | .canceled =>
        let d := gcObjectDeferred r.task none false
        (d.1, listed :: (r.effs ++ d.2))

/-- The first progress report of a trace that the manager answers with
`Canceled`: the task it reported and the calls made after it. `n` is the
number of reports sent before the trace starts. -/
def afterCanceledReport (env : GCEnv) : Nat → List GCEff → Option (GCObjectTask × List GCEff)
  | _, [] => none
  | n, .reportTask t :: rest =>
    if env.ReportTask n t = some .ErrCanceledTask then some (t, rest)
    else afterCanceledReport env (n + 1) rest
  | n, .listDeletedObjects _ _ :: rest => afterCanceledReport env n rest
  | n, .queryStorageParams _ :: rest => afterCanceledReport env n rest
  | n, .deletePiece _ _ :: rest => afterCanceledReport env n rest
  | n, .deleteObjectIntegrity _ _ :: rest => afterCanceledReport env n rest

/-- The piece keys whose deletion a trace requests, in order. -/
def requestedPieceKeys (effs : List GCEff) : List PieceKey :=
  effs.filterMap (fun eff => match eff with
    | .deletePiece pieceKey _ => some pieceKey
    | _ => none)

/-- The request a call stands for: a deletion without the error it returned. -/
def GCEff.request : GCEff → GCEff
  | .deletePiece pieceKey _ => .deletePiece pieceKey none
  | .deleteObjectIntegrity objectID _ => .deleteObjectIntegrity objectID none
  | .listDeletedObjects start end_ => .listDeletedObjects start end_
  | .queryStorageParams timestamp => .queryStorageParams timestamp
  | .reportTask task => .reportTask task

/-! ## Executor: confirming a received piece (`HandleReceivePieceTask`) -/

/-- Modelled from the spec: `ReceivePiece` "adds `ReplicateIdx`, `PieceIdx`,
`PieceSize`, `PieceChecksum`, primary `Signature`, `Sealed`" to an object
task; `ReplicateIdx` is a `uint32`. -/
structure ReceivePieceTask extends ObjectTask where
  ReplicateIdx : Nat
  PieceIdx : Int
  PieceSize : Int
  PieceChecksum : List Nat
  Signature : List Nat
  Sealed : Bool
  deriving DecidableEq, Repr

/-- Modelled from the spec: `SetSealed` sets the `Sealed` flag. -/
def ReceivePieceTask.SetSealed (t : ReceivePieceTask) (isSealed : Bool) : ReceivePieceTask :=
  { t with Sealed := isSealed }

/-- Modelled from the spec: `SetError` "sets the error to task". -/
def ReceivePieceTask.SetError (t : ReceivePieceTask) (err : Option GfSpError) :
    ReceivePieceTask :=
  { t with Err := err }

/-- Modelled from the spec: the getter `GetMaxPayloadSize` of the storage
params; on a nil pointer a getter returns the zero value. -/
def GetMaxPayloadSize : Option Params → Nat
  | some params => params.MaxPayloadSize
  | none => 0

/-- Answers of the collaborators of `HandleReceivePieceTask`: the `i`-th
`Consensus.ListenObjectSeal` call, `Consensus.QueryObjectInfo(bucket, object)`,
the database's `DeleteObjectIntegrity` and the piece store's `DeletePiece`. -/
structure ReceiveEnv where
  ListenObjectSeal : Nat → Bool × Option GfSpError
  QueryObjectInfo : String → String → Except GfSpError ObjectInfo
  DeleteObjectIntegrity : Nat → Option GfSpError
  DeletePiece : PieceKey → Option GfSpError

/-- The calls `HandleReceivePieceTask` makes: those of `listenSealObject`, the
re-fetch of the object info and the deletions with the error they returned. -/
inductive ReceiveEff where
  | listenSeal (eff : SealEff)
  | queryObjectInfo (bucket object : String)
  | deleteObjectIntegrity (objectID : Nat) (deleteErr : Option GfSpError)
  | deletePiece (pieceKey : PieceKey) (deleteErr : Option GfSpError)
  deriving DecidableEq, Repr

/-- What a run of `HandleReceivePieceTask` leaves: the task, the calls made, and
whether an index expression was evaluated out of range (a Go panic). -/
structure ReceiveResult where
  task : ReceivePieceTask
  effs : List ReceiveEff
  indexOutOfRange : Bool
  deriving DecidableEq, Repr

/-- Embeds `ExecuteModular.HandleReceivePieceTask(ctx, task)`. -/
def HandleReceivePieceTask (e : ExecuteModular) (env : ReceiveEnv) (task : ReceivePieceTask) :
    ReceiveResult :=
  match task.ObjectInfo with
  | none => { task := task, effs := [], indexOutOfRange := false }
  | some objectInfo =>
    let listened := listenSealObject e env.ListenObjectSeal objectInfo
    let task1 := if listened.1 = none then task.SetSealed true else task
    let effs1 := listened.2.map ReceiveEff.listenSeal ++
      [ReceiveEff.queryObjectInfo objectInfo.BucketName objectInfo.ObjectName]
    match env.QueryObjectInfo objectInfo.BucketName objectInfo.ObjectName with
    | .error err => { task := task1.SetError (some err), effs := effs1, indexOutOfRange := false }
    | .ok onChainObject =>
      if onChainObject.ObjectStatus ≠ .OBJECT_STATUS_SEALED then
        { task := task1.SetError (some .ErrUnsealed), effs := effs1, indexOutOfRange := false }
      else
        let task2 := task1.SetSealed true
        if task.ReplicateIdx ≥ onChainObject.SecondarySpAddresses.length then
          { task := task2.SetError (some .ErrReplicateIdsOutOfBounds), effs := effs1,
            indexOutOfRange := false }
        else
          match onChainObject.SecondarySpAddresses[task.ReplicateIdx]? with
          | none => { task := task2, effs := effs1, indexOutOfRange := true }
          | some address =>
            if address ≠ e.OperatorAddress then
              let task3 := task2.SetError (some .ErrSecondaryMismatch)
              let segmentCount := SegmentPieceCount onChainObject.PayloadSize
                (GetMaxPayloadSize task.StorageParams)
              let deletions := (List.range segmentCount).map (fun i =>
                let pieceKey :=
                  if objectInfo.RedundancyType = .REDUNDANCY_EC_TYPE then
                    ECPieceKey onChainObject.Id i task.ReplicateIdx
                  else SegmentPieceKey onChainObject.Id i
                ReceiveEff.deletePiece pieceKey (env.DeletePiece pieceKey))
              { task := task3,
                effs := effs1 ++
                  ReceiveEff.deleteObjectIntegrity objectInfo.Id
                    (env.DeleteObjectIntegrity objectInfo.Id) :: deletions,
                indexOutOfRange := false }
            else { task := task2, effs := effs1, indexOutOfRange := false }

/-- The piece keys whose deletion a trace of `HandleReceivePieceTask` requests. -/
def receiveDeletedPieceKeys (effs : List ReceiveEff) : List PieceKey :=
  effs.filterMap (fun eff => match eff with
    | .deletePiece pieceKey _ => some pieceKey
    | _ => none)

/-! ## Executor: piece recovery (`HandleRecoverPieceTask`) -/

/-- Modelled from the spec: an entry of the chain's SP list
(`sptypes.StorageProvider`). -/
structure StorageProvider where
  OperatorAddress : String
  Endpoint : String
  deriving DecidableEq, Repr

/-- Modelled from the spec: the field of the on-chain `BucketInfo` the recovery
code reads. -/
structure BucketInfo where
  PrimarySpAddress : String
  deriving DecidableEq, Repr

/-- Modelled from the spec: the persisted row *IntegrityMeta*, of which the
recovery code reads the `PieceChecksumList`. -/
structure IntegrityMeta where
  PieceChecksumList : List (List Nat)
  deriving DecidableEq, Repr

/-- Modelled from the spec: `RecoveryPiece` "adds `SegmentIdx`, `EcIdx` (−1 =
primary segment recovery, ≥0 = secondary EC chunk recovery), `Signature`,
`RecoverDone`" to an object task; `SegmentIdx` is a `uint32`, `EcIdx` an
`int32`. -/
structure RecoveryPieceTask extends ObjectTask where
  SegmentIdx : Nat
  EcIdx : Int
  Signature : List Nat
  Recovered : Bool
  deriving DecidableEq, Repr

/-- Modelled from the spec: `SetError` "sets the error to task". -/
def RecoveryPieceTask.SetError (t : RecoveryPieceTask) (err : Option GfSpError) :
    RecoveryPieceTask :=
  { t with Err := err }

/-- Modelled from the spec: `SetSignature` "sets the primary SP's signature". -/
def RecoveryPieceTask.SetSignature (t : RecoveryPieceTask) (signature : List Nat) :
    RecoveryPieceTask :=
  { t with Signature := signature }

/-- Modelled from the spec: `SetRecoverDone` "set the recovery status as finish". -/
def RecoveryPieceTask.SetRecoverDone (t : RecoveryPieceTask) : RecoveryPieceTask :=
  { t with Recovered := true }

/-- Answers of the collaborators of `HandleRecoverPieceTask`: the chain
(`ListSPs`, `QueryBucketInfo`), the signer, the peer SP asked for a piece at an
endpoint (`GetPieceFromECChunks` and the read of its body), the integrity row
of the database, the piece store's `PutPiece`, and the pure helpers
`hash.GenerateChecksum`, `PieceOp.SegmentPieceSize` and
`redundancy.DecodeRawSegment`, none of which is part of the sources. -/
structure RecoverEnv where
  ListSPs : Except GfSpError (List StorageProvider)
  QueryBucketInfo : String → Except GfSpError BucketInfo
  SignRecoveryTask : Except GfSpError (List Nat)
  GetPieceFromECChunks : String → Except GfSpError (List Nat)
  GetObjectIntegrity : Nat → Except GfSpError IntegrityMeta
  GenerateChecksum : List Nat → List Nat
  SegmentPieceSize : Nat → Nat → Nat → Int
  DecodeRawSegment : List (Option (List Nat)) → Int → Nat → Nat → Except GfSpError (List Nat)
  PutPiece : PieceKey → List Nat → Option GfSpError

/-- The calls `HandleRecoverPieceTask` makes. -/
inductive RecoverEff where
  | listSPs
  | queryBucketInfo (bucketName : String)
  | signRecoveryTask
  | getPieceFromECChunks (endpoint : String)
  | getObjectIntegrity (objectID : Nat)
  | decodeRawSegment (sources : List (Option (List Nat))) (segmentSize : Int)
  | putPiece (pieceKey : PieceKey) (data : List Nat) (err : Option GfSpError)
  deriving DecidableEq, Repr

/-- How a run of a handler ends: it returns, it panics (an index out of range
or a nil dereference), or it waits forever on a channel. -/
inductive Outcome where
  | returned
  | panicked
  | blocked
  deriving DecidableEq, Repr

/-- Embeds `ExecuteModular.getObjectSecondaryEndpoints`: one endpoint for each
secondary address, that of the last SP of the list with this operator address
and the empty string when there is none. -/
def getObjectSecondaryEndpoints (env : RecoverEnv) (objectInfo : ObjectInfo) :
    Except GfSpError (List String) × List RecoverEff :=
  match env.ListSPs with
  | .error err => (.error err, [.listSPs])
  | .ok spList =>
    (.ok (objectInfo.SecondarySpAddresses.map (fun addr =>
        spList.foldl (fun endpoint info =>
          if addr = info.OperatorAddress then info.Endpoint else endpoint) "")),
     [.listSPs])

/-- Embeds `ExecuteModular.getObjectPrimarySPEndpoint`. -/
def getObjectPrimarySPEndpoint (env : RecoverEnv) (bucketName : String) :
    Except GfSpError String × List RecoverEff :=
  match env.ListSPs with
  | .error err => (.error err, [.listSPs])
  | .ok spList =>
    match env.QueryBucketInfo bucketName with
    | .error err => (.error err, [.listSPs, .queryBucketInfo bucketName])
    | .ok bucketInfo =>
      match spList.find? (fun info => decide (bucketInfo.PrimarySpAddress = info.OperatorAddress)) with
      | some info => (.ok info.Endpoint, [.listSPs, .queryBucketInfo bucketName])
      | none => (.error .ErrPrimaryNotFound, [.listSPs, .queryBucketInfo bucketName])

/-- Embeds `ExecuteModular.doRecoveryPiece(ctx, rTask, endpoint)`: the piece data
or the error, the task (whose signature the function sets) and the calls
made. -/
def doRecoveryPiece (env : RecoverEnv) (rTask : RecoveryPieceTask) (endpoint : String) :
    Except GfSpError (List Nat) × RecoveryPieceTask × List RecoverEff :=
  match env.SignRecoveryTask with
  | .error err => (.error err, rTask, [.signRecoveryTask])
  | .ok signature =>
    let rTask1 := rTask.SetSignature signature
    match env.GetPieceFromECChunks endpoint with
    | .error err => (.error err, rTask1, [.signRecoveryTask, .getPieceFromECChunks endpoint])
    | .ok pieceData => (.ok pieceData, rTask1, [.signRecoveryTask, .getPieceFromECChunks endpoint])

/-- What `checkRecoveryCheckSum` ends with: nil, an error, or the panic of
`PieceChecksumList[SegmentIdx]` out of range. -/
inductive CheckResult where
  | passed
  | failed (err : GfSpError)
  | indexPanic
  deriving DecidableEq, Repr

/-- Embeds `ExecuteModular.checkRecoveryCheckSum(ctx, task, recoveryChecksum)`;
`objectInfo` is the dereferenced `task.GetObjectInfo()`. -/
def checkRecoveryCheckSum (env : RecoverEnv) (task : RecoveryPieceTask) (objectInfo : ObjectInfo)
    (recoveryChecksum : List Nat) : CheckResult × RecoveryPieceTask × List RecoverEff :=
  match env.GetObjectIntegrity objectInfo.Id with
  | .error _ =>
    (.failed .ErrGfSpDB, task.SetError (some .ErrGfSpDB), [.getObjectIntegrity objectInfo.Id])
  | .ok integrityMeta =>
    match integrityMeta.PieceChecksumList[task.SegmentIdx]? with
    | none => (.indexPanic, task, [.getObjectIntegrity objectInfo.Id])
    | some expectedHash =>
      if recoveryChecksum ≠ expectedHash then
        (.failed .ErrRecoveryPieceChecksum, task.SetError (some .ErrRecoveryPieceChecksum),
         [.getObjectIntegrity objectInfo.Id])
      else (.passed, task, [.getObjectIntegrity objectInfo.Id])

/-- The state the body of `HandleRecoverPieceTask` is left in, as its deferred
function finds it: `err` and `finishRecovery` are the handler's variables of
these names. -/
structure RecoverBody where
  outcome : Outcome
  task : RecoveryPieceTask
  effs : List RecoverEff
  err : Option GfSpError
  finishRecovery : Bool
  deriving DecidableEq, Repr

/-- The branch `if ecIndex >= 0` of `HandleRecoverPieceTask`: the secondary SP
recovers its own EC chunk from the primary SP. The `err` of this block is a
new variable, so the handler's `err` stays nil. -/
def recoverSecondarySP (env : RecoverEnv) (task : RecoveryPieceTask) (objectInfo : ObjectInfo)
    (ecIndex : Int) : RecoverBody :=
  let objectId := objectInfo.Id
  let segmentIdx := task.SegmentIdx
  let ep := getObjectPrimarySPEndpoint env objectInfo.BucketName
  match ep.1 with
  | .error err =>
    { outcome := .returned, task := task.SetError (some err), effs := ep.2, err := none,
      finishRecovery := false }
  | .ok primarySPEndpoint =>
    let fetched := doRecoveryPiece env task primarySPEndpoint
    match fetched.1 with
    | .error err =>
      { outcome := .returned, task := fetched.2.1.SetError (some err),
        effs := ep.2 ++ fetched.2.2, err := none, finishRecovery := false }
    | .ok pieceData =>
      let checked := checkRecoveryCheckSum env fetched.2.1 objectInfo
        (env.GenerateChecksum pieceData)
      match checked.1 with
      | .indexPanic =>
        { outcome := .panicked, task := checked.2.1,
          effs := ep.2 ++ fetched.2.2 ++ checked.2.2, err := none, finishRecovery := false }
      | .failed _ =>
        { outcome := .returned, task := checked.2.1,
          effs := ep.2 ++ fetched.2.2 ++ checked.2.2, err := none, finishRecovery := false }
      | .passed =>
        let recoveryKey := ECPieceKey objectId segmentIdx ecIndex.toNat
        match env.PutPiece recoveryKey pieceData with
        | some err =>
          { outcome := .returned, task := checked.2.1.SetError (some err),
            effs := ep.2 ++ fetched.2.2 ++ checked.2.2 ++
              [.putPiece recoveryKey pieceData (some err)],
            err := none, finishRecovery := false }
        | none =>
          { outcome := .returned, task := checked.2.1,
            effs := ep.2 ++ fetched.2.2 ++ checked.2.2 ++ [.putPiece recoveryKey pieceData none],
            err := none, finishRecovery := true }

/-- What the main goroutine of the primary recovery receives in its `select`:
a value from `doneCh`, or the value from `quitCh`, sent by the fetch that
finished last after it stored the length of its piece data in
`downLoadPieceSize`. -/
inductive FanOutEvent where
  | done
  | quit (downLoadPieceSize : Nat)
  deriving DecidableEq, Repr

/-- One interleaving of the fan-out of the primary recovery: the events the main
goroutine receives, in order, and for each fetch whether it has stored its
result in `recoveryDataSources` when the main goroutine reads them. -/
structure FanOutSchedule where
  events : List FanOutEvent
  arrived : Nat → Bool

/-- How the `loop:` of the primary recovery is left: by `break loop`, by one of
its two error returns, or never (no further event arrives). -/
inductive FanOutExit where
  | enough
  | notEnough
  | pieceLength
  | waiting
  deriving DecidableEq, Repr

/-- The `loop: for { select { ... } }` of the primary recovery over the events
the main goroutine receives; `doneTaskNum` is the variable of this name. -/
def fanOutLoop (minRecoveryPieces dataShards : Nat) (segmentSize : Int) :
    List FanOutEvent → Nat → FanOutExit
  | [], _ => .waiting
  | .done :: events, doneTaskNum =>
    if doneTaskNum + 1 ≥ minRecoveryPieces then .enough
    else fanOutLoop minRecoveryPieces dataShards segmentSize events (doneTaskNum + 1)
  | .quit downLoadPieceSize :: events, doneTaskNum =>
    if doneTaskNum < minRecoveryPieces then .notEnough
    else
      let ecTotalSize : Int := (downLoadPieceSize : Int) * (dataShards : Int)
      if ecTotalSize < segmentSize ∨ ecTotalSize > segmentSize + (dataShards : Int) then
        .pieceLength
      else fanOutLoop minRecoveryPieces dataShards segmentSize events doneTaskNum

/-- The fetches the fan-out starts, one `doRecoveryPiece` for each endpoint: the
task (every fetch sets its signature) and the calls of the fetches, listed
in the order the fetches were started. -/
def launchFanOut (env : RecoverEnv) : RecoveryPieceTask → List String →
    RecoveryPieceTask × List RecoverEff
  | task, [] => (task, [])
  | task, endpoint :: endpoints =>
    let fetched := doRecoveryPiece env task endpoint
    let r := launchFanOut env fetched.2.1 endpoints
    (r.1, fetched.2.2 ++ r.2)

/-- The slice `recoveryDataSources` as the main goroutine reads it: one entry
for each secondary endpoint, nil unless the fetch of this index was started,
succeeded and has stored its data. -/
def recoveryDataSources (env : RecoverEnv) (sched : FanOutSchedule) (task : RecoveryPieceTask)
    (secondaryEndpoints : List String) (ecPieceCount : Nat) : List (Option (List Nat)) :=
  secondaryEndpoints.enum.map (fun (i, endpoint) =>
    if i < ecPieceCount ∧ sched.arrived i = true then
      match (doRecoveryPiece env task endpoint).1 with
      | .ok pieceData => some pieceData
      | .error _ => none
    else none)

/-- The `else` branch of `HandleRecoverPieceTask`: the primary SP recovers a
segment from the EC chunks of the secondaries. The `err` of this block is a
new variable (`secondaryEndpoints, err := ...`), so the handler's `err` stays
nil whatever fails here. `ecPieceCount` is the `uint32` sum of the handler's
`var` block. -/
def recoverPrimarySP (env : RecoverEnv) (sched : FanOutSchedule) (task : RecoveryPieceTask)
    (objectInfo : ObjectInfo) (dataShards parityShards maxSegmentSize : Nat) : RecoverBody :=
  let minRecoveryPieces := dataShards
  let ecPieceCount := addUint32 dataShards parityShards
  let eps := getObjectSecondaryEndpoints env objectInfo
  match eps.1 with
  | .error _ =>
    { outcome := .returned, task := task, effs := eps.2, err := none, finishRecovery := false }
  | .ok secondaryEndpoints =>
    let segmentSize := env.SegmentPieceSize objectInfo.PayloadSize task.SegmentIdx maxSegmentSize
    let launched := launchFanOut env task (secondaryEndpoints.take ecPieceCount)
    if secondaryEndpoints.length < ecPieceCount then
      { outcome := .panicked, task := launched.1, effs := eps.2 ++ launched.2, err := none,
        finishRecovery := false }
    else
      match fanOutLoop minRecoveryPieces dataShards segmentSize sched.events 0 with
      | .waiting =>
        { outcome := .blocked, task := launched.1, effs := eps.2 ++ launched.2, err := none,
          finishRecovery := false }
      | .notEnough =>
        { outcome := .returned, task := launched.1.SetError (some .ErrRecoveryPieceNotEnough),
          effs := eps.2 ++ launched.2, err := none, finishRecovery := false }
      | .pieceLength =>
        { outcome := .returned, task := launched.1.SetError (some .ErrRecoveryPieceLength),
          effs := eps.2 ++ launched.2, err := none, finishRecovery := false }
      | .enough =>
        let sources := recoveryDataSources env sched task secondaryEndpoints ecPieceCount
        let decoded := RecoverEff.decodeRawSegment sources segmentSize
        match env.DecodeRawSegment sources segmentSize dataShards parityShards with
        | .error _ =>
          { outcome := .returned, task := launched.1.SetError (some .ErrRecoveryDecode),
            effs := eps.2 ++ launched.2 ++ [decoded], err := none, finishRecovery := false }
        | .ok recoverySegData =>
          let checked := checkRecoveryCheckSum env launched.1 objectInfo
            (env.GenerateChecksum recoverySegData)
          match checked.1 with
          | .indexPanic =>
            { outcome := .panicked, task := checked.2.1,
              effs := eps.2 ++ launched.2 ++ [decoded] ++ checked.2.2, err := none,
              finishRecovery := false }
          | .failed _ =>
            { outcome := .returned, task := checked.2.1,
              effs := eps.2 ++ launched.2 ++ [decoded] ++ checked.2.2, err := none,
              finishRecovery := false }
          | .passed =>
            let recoveryKey := SegmentPieceKey objectInfo.Id task.SegmentIdx
            match env.PutPiece recoveryKey recoverySegData with
            | some err =>
              { outcome := .returned, task := checked.2.1,
                effs := eps.2 ++ launched.2 ++ [decoded] ++ checked.2.2 ++
                  [.putPiece recoveryKey recoverySegData (some err)],
                err := none, finishRecovery := false }
            | none =>
              { outcome := .returned, task := checked.2.1,
                effs := eps.2 ++ launched.2 ++ [decoded] ++ checked.2.2 ++
                  [.putPiece recoveryKey recoverySegData none],
                err := none, finishRecovery := true }

/-- What a run of `HandleRecoverPieceTask` leaves: how it ended, the task and
the calls made. -/
structure RecoverResult where
  outcome : Outcome
  task : RecoveryPieceTask
  effs : List RecoverEff
  deriving DecidableEq, Repr

/-- The deferred function of `HandleRecoverPieceTask`. -/
def recoverDeferred (body : RecoverBody) : RecoverResult :=
  let task1 :=
    match body.err with
    | some err => body.task.SetError (some err)
    | none => body.task
  let task2 := if body.finishRecovery = true then task1.SetRecoverDone else task1
  { outcome := body.outcome, task := task2, effs := body.effs }

/-- A return of `HandleRecoverPieceTask` at one of its gates, with the handler's
`err` set. -/
def recoverGate (task : RecoveryPieceTask) (err : GfSpError) : RecoverBody :=
  { outcome := .returned, task := task, effs := [], err := some err, finishRecovery := false }

/-- Embeds `ExecuteModular.HandleRecoverPieceTask(ctx, task)` for a non-nil
`task`, under the interleaving `sched` of its fan-out. The `var` block reads
`task.GetStorageParams().VersionedParams` before the deferred function is
installed, which panics on nil storage params. The shard counts are `uint32`:
`ecPieceCount` is their `uint32` sum, and `maxRedundancyIndex` is
`int32(ecPieceCount) - 1` in `int32`; `EcIdx` is an `int32`. -/
def HandleRecoverPieceTask (env : RecoverEnv) (sched : FanOutSchedule)
    (task : RecoveryPieceTask) : RecoverResult :=
  match task.StorageParams with
  | none => { outcome := .panicked, task := task, effs := [] }
  | some params =>
    let dataShards := params.RedundantDataChunkNum
    let maxSegmentSize := params.MaxSegmentSize
    let parityShards := params.RedundantParityChunkNum
    let ecPieceCount := addUint32 dataShards parityShards
    recoverDeferred
      (match task.ObjectInfo with
      | none => recoverGate task .ErrDanglingPointer
      | some objectInfo =>
        if objectInfo.RedundancyType ≠ .REDUNDANCY_EC_TYPE then
          recoverGate task .ErrRecoveryRedundancyType
        else
          let ecIndex := task.EcIdx
          let maxRedundancyIndex : Int := wrapInt32 (int32OfUint32 ecPieceCount - 1)
          if ecIndex < -1 ∨ ecIndex > maxRedundancyIndex then
            recoverGate task .ErrRecoveryPieceIndex
          else if ecIndex ≥ 0 then recoverSecondarySP env task objectInfo ecIndex
          else recoverPrimarySP env sched task objectInfo dataShards parityShards maxSegmentSize)

/-- A call that asks a peer SP for a piece or writes one to the piece store. -/
def RecoverEff.isPeerRequestOrWrite : RecoverEff → Bool
  | .signRecoveryTask => true
  | .getPieceFromECChunks _ => true
  | .putPiece _ _ _ => true
  | _ => false

/-! ## Resource spans (`ReserveResource`) and the worker's `AskTask` -/

/-- Answers of a module's resource scope: `scope.BeginSpan()` (the span it
opens, identified by a number), `span.ReserveResources(state)` on a span,
and `scope.RemainingResource()` (the limit, a number here). -/
structure ScopeEnv where
  BeginSpan : Except GfSpError Nat
  ReserveResources : Nat → Option GfSpError
  RemainingResource : Except GfSpError Nat

/-- The calls on spans: a span is opened, resources are reserved on it (with
the error returned), the span is released with `Done`. -/
inductive RcmgrEff where
  | beginSpan (span : Nat)
  | reserveResources (span : Nat) (err : Option GfSpError)
  | done (span : Nat)
  deriving DecidableEq, Repr

/-- Embeds `ExecuteModular.ReserveResource(ctx, st)`: the span handed to the
caller or the error, and the calls made on spans. -/
def ExecuteModular.ReserveResource (scope : ScopeEnv) : Except GfSpError Nat × List RcmgrEff :=
  match scope.BeginSpan with
  | .error err => (.error err, [])
  | .ok span =>
    match scope.ReserveResources span with
    | some err => (.error err, [.beginSpan span, .reserveResources span (some err)])
    | none => (.ok span, [.beginSpan span, .reserveResources span none])

/-- Embeds `ManageModular.ReserveResource(ctx, state)`. -/
def ManageModular.ReserveResource (scope : ScopeEnv) : Except GfSpError Nat × List RcmgrEff :=
  match scope.BeginSpan with
  | .error err => (.error err, [])
  | .ok span =>
    match scope.ReserveResources span with
    | some err => (.error err, [.beginSpan span, .reserveResources span (some err)])
    | none => (.ok span, [.beginSpan span, .reserveResources span none])

/-- Embeds `ReceiveModular.ReserveResource(ctx, state)`. -/
def ReceiveModular.ReserveResource (scope : ScopeEnv) : Except GfSpError Nat × List RcmgrEff :=
  match scope.BeginSpan with
  | .error err => (.error err, [])
  | .ok span =>
    match scope.ReserveResources span with
    | some err => (.error err, [.beginSpan span, .reserveResources span (some err)])
    | none => (.ok span, [.beginSpan span, .reserveResources span none])

/-- Embeds `ReleaseResource(ctx, span)` of the three modules: `span.Done()`. -/
def ReleaseResource (span : Nat) : List RcmgrEff := [.done span]

/-- The spans a trace opens and does not release afterwards. -/
def openSpans : List RcmgrEff → List Nat
  | [] => []
  | .beginSpan span :: effs =>
    if RcmgrEff.done span ∈ effs then openSpans effs else span :: openSpans effs
  | _ :: effs => openSpans effs

/-- The variants `AskTask` dispatches on in its type switch; `unsupported` is
the `default` case. -/
inductive TaskVariant where
  | GfSpReplicatePieceTask
  | GfSpSealObjectTask
  | GfSpReceivePieceTask
  | GfSpGCObjectTask
  | GfSpGCZombiePieceTask
  | GfSpGCMetaTask
  | GfSpRecoverPieceTask
  | unsupported
  deriving DecidableEq, Repr

/-- A task as `AskTask` sees it: its key and its variant. -/
structure AskedTask where
  Key : String
  variant : TaskVariant
  deriving DecidableEq, Repr

/-- The counters of `ExecuteModular` that `AskTask` updates. -/
structure ExecutorCounters where
  executingNum : Int
  doingReplicatePieceTaskCnt : Int
  doingSpSealObjectTaskCnt : Int
  doingReceivePieceTaskCnt : Int
  doingGCObjectTaskCnt : Int
  doingGCZombiePieceTaskCnt : Int
  doingGCGCMetaTaskCnt : Int
  doingRecoveryPieceTaskCnt : Int
  deriving DecidableEq, Repr

/-- Answers of the collaborators of `AskTask`: the executor's resource scope,
the manager's answer to `GfSpClient().AskTask(limit)` (the task may be nil),
and whether the handler of the task, with the audit events `AskTask` writes
around the replicate and seal handlers, panics. -/
structure AskEnv where
  scope : ScopeEnv
  AskTask : Except GfSpError (Option AskedTask)
  handlerPanics : Bool

/-- The calls `AskTask` makes itself. `handle` stands for the whole run of the
task's handler, with the calls the handler makes on its own
(`HandleGCObjectTask`, for one, reports its progress through `e.ReportTask`);
`reportTask` is the deferred `e.ReportTask(ctx, askTask)` of `AskTask`. -/
inductive AskEff where
  | remainingResource
  | askTask (limit : Nat)
  | rcmgr (eff : RcmgrEff)
  | handle (task : AskedTask)
  | reportTask (task : AskedTask)
  deriving DecidableEq, Repr

/-- What a call of `AskTask` leaves: the error it returns (`none` is nil),
whether it ended in a panic instead of returning, the counters and the calls
made. -/
structure AskResult where
  err : Option GfSpError
  panicked : Bool
  counters : ExecutorCounters
  effs : List AskEff
  deriving DecidableEq, Repr

/-- The `atomic.AddInt64` on the counter of the task's variant in the type
switch of `AskTask`; the `default` case touches no counter. -/
def addDoing (c : ExecutorCounters) (variant : TaskVariant) (delta : Int) : ExecutorCounters :=
  match variant with
  | .GfSpReplicatePieceTask =>
    { c with doingReplicatePieceTaskCnt := c.doingReplicatePieceTaskCnt + delta }
  | .GfSpSealObjectTask =>
    { c with doingSpSealObjectTaskCnt := c.doingSpSealObjectTaskCnt + delta }
  | .GfSpReceivePieceTask =>
    { c with doingReceivePieceTaskCnt := c.doingReceivePieceTaskCnt + delta }
  | .GfSpGCObjectTask => { c with doingGCObjectTaskCnt := c.doingGCObjectTaskCnt + delta }
  | .GfSpGCZombiePieceTask =>
    { c with doingGCZombiePieceTaskCnt := c.doingGCZombiePieceTaskCnt + delta }
  | .GfSpGCMetaTask => { c with doingGCGCMetaTaskCnt := c.doingGCGCMetaTaskCnt + delta }
  | .GfSpRecoverPieceTask =>
    { c with doingRecoveryPieceTaskCnt := c.doingRecoveryPieceTaskCnt + delta }
  | .unsupported => c

/-- The amount the deferred `atomic.AddInt64` of a case of the type switch adds
when `AskTask` is left: `-1`, and `1` in the `GfSpRecoverPieceTask` case. -/
def deferredDelta : TaskVariant → Int
  | .GfSpRecoverPieceTask => 1
  | _ => -1

/-- The deferred `atomic.AddInt64(&e.executingNum, -1)` of `AskTask`. -/
def leaveAskTask (c : ExecutorCounters) : ExecutorCounters :=
  { c with executingNum := c.executingNum - 1 }

/-- Embeds `ExecuteModular.AskTask(ctx)`. The deferred calls run when the
function is left, also by a panic of the handler, last registered first: the
counter of the variant, `ReportTask`, `ReleaseResource`, `executingNum`. The
`default` case of the type switch runs no handler. -/
def AskTask (env : AskEnv) (c : ExecutorCounters) : AskResult :=
  let c1 := { c with executingNum := c.executingNum + 1 }
  match env.scope.RemainingResource with
  | .error err =>
    { err := some err, panicked := false, counters := leaveAskTask c1,
      effs := [.remainingResource] }
  | .ok limit =>
    match env.AskTask with
    | .error err =>
      { err := some err, panicked := false, counters := leaveAskTask c1,
        effs := [.remainingResource, .askTask limit] }
    | .ok none =>
      { err := some .ErrDanglingPointer, panicked := false, counters := leaveAskTask c1,
        effs := [.remainingResource, .askTask limit] }
    | .ok (some askTask) =>
      let reserved := ExecuteModular.ReserveResource env.scope
      match reserved.1 with
      | .error err =>
        { err := some err, panicked := false, counters := leaveAskTask c1,
          effs := [.remainingResource, .askTask limit] ++ reserved.2.map AskEff.rcmgr }
      | .ok span =>
        let c2 := addDoing c1 askTask.variant 1
        let c3 := addDoing c2 askTask.variant (deferredDelta askTask.variant)
        let handled : List AskEff × Bool :=
          match askTask.variant with
          | .unsupported => ([], false)
          | _ => ([.handle askTask], env.handlerPanics)
        { err := none, panicked := handled.2, counters := leaveAskTask c3,
          effs := [.remainingResource, .askTask limit] ++ reserved.2.map AskEff.rcmgr ++
            handled.1 ++ [.reportTask askTask] ++ (ReleaseResource span).map AskEff.rcmgr }

/-- The span calls among the calls of `AskTask`. -/
def spanCalls (effs : List AskEff) : List RcmgrEff :=
  effs.filterMap (fun eff => match eff with
    | .rcmgr r => some r
    | _ => none)

/-! ## Manager: `ResetGCObjectTask` -/

/-- Go's `strings.Contains(s, substr)`. -/
def stringsContains (s substr : String) : Bool :=
  decide (substr.toList <:+: s.toList)

/-- An error of the chain client, of which `ListenRejectUnSealObject` reads the
text (`err.Error()`). -/
structure QueryError where
  Error : String
  deriving DecidableEq, Repr

/-- The errors `ListenRejectUnSealObject` returns: the registered
`ErrRejectUnSealTimeout`, or the error of a query handed on unchanged. -/
inductive ListenRejectError where
  | ErrRejectUnSealTimeout
  | queryError (err : QueryError)
  deriving DecidableEq, Repr

/-- The loop of `Gnfd.ListenRejectUnSealObject` and its exit: `n` iterations
remain, `i` is the loop counter, `err` the error of the latest query (nil
after a query that succeeded); `query i` answers the query of iteration `i`. -/
def ListenRejectUnSealObjectLoop (query : Nat → Except QueryError ObjectInfo) (objectID : Nat) :
    Nat → Nat → Option QueryError → (Bool × Option ListenRejectError) × List ChainEff
  | 0, _, err =>
    match err with
    | none => ((false, some .ErrRejectUnSealTimeout), [])
    | some e => ((false, some (.queryError e)), [])
  | n + 1, i, _ =>
    match query i with
    | .error e =>
      if stringsContains e.Error "No such object" = true then
        ((true, none), [.queryObjectInfoByID objectID])
      else
        let r := ListenRejectUnSealObjectLoop query objectID n (i + 1) (some e)
        (r.1, .queryObjectInfoByID objectID :: .sleepBlock :: r.2)
    | .ok _ =>
      let r := ListenRejectUnSealObjectLoop query objectID n (i + 1) none
      (r.1, .queryObjectInfoByID objectID :: .sleepBlock :: r.2)

/-- Embeds `Gnfd.ListenRejectUnSealObject(ctx, objectID, timeoutHeight)`: the
returned pair `(rejected, err)` and the calls made. `timeoutHeight` is a Go
`int`; the loop `for i := 0; i < timeoutHeight; i++` runs `timeoutHeight.toNat`
times at most. -/
def ListenRejectUnSealObject (query : Nat → Except QueryError ObjectInfo) (objectID : Nat)
    (timeoutHeight : Int) : (Bool × Option ListenRejectError) × List ChainEff :=
  ListenRejectUnSealObjectLoop query objectID timeoutHeight.toNat 0 none

/-- Query `i` failed with an error whose text contains "No such object". -/
def noSuchObjectAt (query : Nat → Except QueryError ObjectInfo) (i : Nat) : Bool :=
  match query i with
  | .error e => stringsContains e.Error "No such object"
  | .ok _ => false

/-- The values of `CurrentBlockNumber` a trace of `HandleGCObjectTask` reports,
in order. The handler reports the task right after each assignment to
`CurrentBlockNumber` (per processed object and the final `End + 1`); its only
other report, on failure, carries the value unchanged. -/
def reportedBlockNumbers (effs : List GCEff) : List Nat :=
  effs.filterMap (fun eff => match eff with
    | .reportTask task => some task.CurrentBlockNumber
    | _ => none)

/-! ## Manager: `RejectUnSealObject` -/

/-- `RejectUnSealObjectRetry`, "the retry number of sending reject unseal object
tx". -/
def RejectUnSealObjectRetry : Nat := 3

/-- `RejectUnSealObjectTimeout`, the seconds slept after a failed submission. -/
def RejectUnSealObjectTimeout : Int := 3

/-- The chain message `MsgRejectSealObject` as `RejectUnSealObject` fills it. -/
structure MsgRejectSealObject where
  BucketName : String
  ObjectName : String
  deriving DecidableEq, Repr

/-- Answers of the collaborators of `RejectUnSealObject`: the error of the
`i`-th `MsgRejectSealObject` submission (`none` is nil), and the pair
`(rejected, err)` the `i`-th `Consensus.ListenRejectUnSealObject` call
returns. -/
structure RejectEnv where
  RejectUnSealObject : Nat → Option GfSpError
  ListenRejectUnSealObject : Nat → Bool × Option ListenRejectError

/-- The calls `RejectUnSealObject` makes; a listen call carries the pair it
returned. -/
inductive RejectEff where
  | rejectUnSealObject (msg : MsgRejectSealObject) (err : Option GfSpError)
  | listenRejectUnSealObject (objectID : Nat) (rejected : Bool)
      (err : Option ListenRejectError)
  | sleep (seconds : Int)
  deriving DecidableEq, Repr

/-- The loop of `ManageModular.RejectUnSealObject` and the final `return err`:
`n` iterations remain, `i` is the loop counter, `listens` the number of
listen calls made and `err` the function's `err` variable, which only the
submissions assign: the `err` of `reject, err := ...ListenRejectUnSealObject`
is a new variable of the `else` block. -/
def RejectUnSealObjectLoop (env : RejectEnv) (object : ObjectInfo) (msg : MsgRejectSealObject) :
    Nat → Nat → Nat → Option GfSpError → Option GfSpError × List RejectEff
  | 0, _, _, err => (err, [])
  | n + 1, i, listens, _ =>
    match env.RejectUnSealObject i with
    | some err =>
      let r := RejectUnSealObjectLoop env object msg n (i + 1) listens (some err)
      (r.1, .rejectUnSealObject msg (some err) :: .sleep RejectUnSealObjectTimeout :: r.2)
    | none =>
      match env.ListenRejectUnSealObject listens with
      | (rejected, some listenErr) =>
        let r := RejectUnSealObjectLoop env object msg n (i + 1) (listens + 1) none
        (r.1, .rejectUnSealObject msg none ::
              .listenRejectUnSealObject object.Id rejected (some listenErr) :: r.2)
      | (false, none) =>
        let r := RejectUnSealObjectLoop env object msg n (i + 1) (listens + 1) none
        (r.1, .rejectUnSealObject msg none ::
              .listenRejectUnSealObject object.Id false none :: r.2)
      | (true, none) =>
        (none, [.rejectUnSealObject msg none, .listenRejectUnSealObject object.Id true none])

/-- Embeds `ManageModular.RejectUnSealObject(ctx, object)` for a non-nil
`object`: the returned error (`none` is nil) and the calls made. -/
def RejectUnSealObject (env : RejectEnv) (object : ObjectInfo) :
    Option GfSpError × List RejectEff :=
  RejectUnSealObjectLoop env object
    { BucketName := object.BucketName, ObjectName := object.ObjectName }
    RejectUnSealObjectRetry 0 0 none

/-- The number of `MsgRejectSealObject` submissions in a trace. -/
def rejectSubmitCount (effs : List RejectEff) : Nat :=
  effs.countP (fun eff => match eff with
    | .rejectUnSealObject _ _ => true
    | _ => false)

/-- The listen calls of a trace that confirmed the rejection with `(true, nil)`. -/
def confirmedCount (effs : List RejectEff) : Nat :=
  effs.countP (fun eff => match eff with
    | .listenRejectUnSealObject _ true none => true
    | _ => false)

/-! ## Concrete inputs -/

/-- A low and a high priority candidate, as `AskTask` would collect them. -/
def lowTask : Task :=
  { Key := "gc", Priority := 1, Retry := 0, MaxRetry := 3, UpdateTime := 0, Timeout := 60, Err := none }

/-- The second candidate, of priority 2. -/
def highTask : Task :=
  { Key := "replicate", Priority := 2, Retry := 0, MaxRetry := 3, UpdateTime := 0, Timeout := 60, Err := none }

/-- The manager of scenario E4: GC has reached block 100, tasks span 99 further
blocks, the safety margin is 5 blocks. -/
def managerE4 : ManageModular :=
  { gcBlockHeight := 100, gcObjectBlockInterval := 99, gcSafeBlockDistance := 5 }

/-- A tick at chain height 300 whose push succeeds and whose progress row
cannot be persisted. -/
def tickEnvE4 : GCTickEnv :=
  { CurrentHeight := .ok 300
    Push := fun _ _ => none
    InsertGCObjectProgress := fun _ _ => some (.other 1) }

/-- A tick at chain height 1000 whose push and progress insert succeed. -/
def tickEnvHigh : GCTickEnv :=
  { CurrentHeight := .ok 1000
    Push := fun _ _ => none
    InsertGCObjectProgress := fun _ _ => none }

/-- A manager whose GC has reached block `2^64 - 6`, with tasks spanning 10
further blocks and a safety margin of 5. -/
def managerWrap : ManageModular :=
  { gcBlockHeight := 18446744073709551610, gcObjectBlockInterval := 10,
    gcSafeBlockDistance := 5 }

/-- A tick at chain height `2^64 - 1` whose push and progress insert succeed. -/
def tickEnvWrap : GCTickEnv :=
  { CurrentHeight := .ok 18446744073709551615
    Push := fun _ _ => none
    InsertGCObjectProgress := fun _ _ => none }

/-- A chain on which the object is sealed from the third poll on and the
second poll fails. -/
def sealedOnThirdPoll : Nat → Except GfSpError ObjectInfo := fun i =>
  if i = 1 then .error (.other 503)
  else .ok { Id := 7, BucketName := "b", ObjectName := "o", PayloadSize := 1, CreateAt := 0,
             ObjectStatus := if i < 2 then .OBJECT_STATUS_CREATED else .OBJECT_STATUS_SEALED,
             RedundancyType := .REDUNDANCY_EC_TYPE, SecondarySpAddresses := [] }

/-- A chain whose every `QueryObjectInfoByID` fails with a transient error. -/
def queryAlwaysFails : Nat → Except GfSpError ObjectInfo := fun _ => .error (.other 503)

/-- A chain on which the object stays `CREATED`; the polls with an odd number
fail with a transient error. -/
def neverSealed : Nat → Except GfSpError ObjectInfo := fun i =>
  if i % 2 = 1 then .error (.other 503)
  else .ok { Id := 7, BucketName := "b", ObjectName := "o", PayloadSize := 1, CreateAt := 0,
             ObjectStatus := .OBJECT_STATUS_CREATED,
             RedundancyType := .REDUNDANCY_EC_TYPE, SecondarySpAddresses := [] }

/-- An executor that listens for the seal up to three times (scenario E2). -/
def executorE2 : ExecuteModular :=
  { OperatorAddress := "sp0", listenSealTimeoutHeight := 10, listenSealRetryTimeout := 2,
    maxListenSealRetry := 3 }

/-- An executor configured with `maxListenSealRetry = 0`. -/
def executorNoListen : ExecuteModular :=
  { OperatorAddress := "sp0", listenSealTimeoutHeight := 10, listenSealRetryTimeout := 2,
    maxListenSealRetry := 0 }

/-- An object created on chain, not yet sealed. -/
def objectE2 : ObjectInfo :=
  { Id := 7, BucketName := "b", ObjectName := "o", PayloadSize := 1, CreateAt := 0,
    ObjectStatus := .OBJECT_STATUS_CREATED, RedundancyType := .REDUNDANCY_EC_TYPE,
    SecondarySpAddresses := ["sp1", "sp2"] }

/-- A seal task for `objectE2` with `MaxRetry = 2`. -/
def sealTaskE2 : SealObjectTask :=
  { Key := "seal-7", Priority := 2, Retry := 0, MaxRetry := 2, UpdateTime := 0, Timeout := 60,
    Err := none, ObjectInfo := some objectE2, StorageParams := none,
    SecondaryAddresses := ["sp1", "sp2"], SecondarySignatures := [[1], [2]] }

/-- A seal task whose object info pointer is nil. -/
def sealTaskDangling : SealObjectTask :=
  { sealTaskE2 with ObjectInfo := none }

/-- Collaborators of scenario E2: every `ListenObjectSeal` call returns
`(false, nil)`; every `MsgSealObject` submission fails. -/
def sealEnvE2 : SealEnv :=
  { SealObject := fun _ => some (.other 500)
    ListenObjectSeal := fun _ => (false, none) }

/-- The seal message of scenario E2. -/
def sealMsgE2 : MsgSealObject :=
  { Operator := "sp0", BucketName := "b", ObjectName := "o",
    SecondarySpAddresses := ["sp1", "sp2"], SecondarySpSignatures := [[1], [2]] }

/-- As `sealEnvE2`, with the first `MsgSealObject` submission failing and the
later ones succeeding. -/
def sealEnvSecondSubmit : SealEnv :=
  { SealObject := fun i => if i = 0 then some (.other 500) else none
    ListenObjectSeal := fun _ => (false, none) }

/-- Listen results: the first call fails, the second reports sealed. -/
def listenSecondSealed : Nat → Bool × Option GfSpError := fun i =>
  if i = 0 then (false, some (.other 503)) else (true, none)

/-- A GC task for the block range `[100, 199]` of scenario E4, not yet started. -/
def gcTaskE4 : GCObjectTask :=
  { Key := "gc-100-199", Priority := 1, Retry := 0, MaxRetry := 3, UpdateTime := 0,
    Timeout := 300, Err := none, StartBlockNumber := 100, EndBlockNumber := 199,
    CurrentBlockNumber := 100, LastDeletedObjectId := 0 }

/-- A GC task whose range is inverted: it starts at block 10 and ends at block 5. -/
def gcTaskInverted : GCObjectTask :=
  { gcTaskE4 with Key := "gc-10-5", StartBlockNumber := 10, EndBlockNumber := 5,
                  CurrentBlockNumber := 10 }

/-- An object of 20 bytes deleted at block 150; the own operator `sp0` is its
second secondary. -/
def gcObjectA : Object :=
  { ObjectInfo := { Id := 1, BucketName := "b", ObjectName := "a", PayloadSize := 20,
                    CreateAt := 1000, ObjectStatus := .OBJECT_STATUS_SEALED,
                    RedundancyType := .REDUNDANCY_EC_TYPE,
                    SecondarySpAddresses := ["sp1", "sp0"] },
    DeleteAt := 150 }

/-- An object of 5 bytes deleted at block 160. -/
def gcObjectB : Object :=
  { ObjectInfo := { Id := 2, BucketName := "b", ObjectName := "b", PayloadSize := 5,
                    CreateAt := 1001, ObjectStatus := .OBJECT_STATUS_SEALED,
                    RedundancyType := .REDUNDANCY_EC_TYPE,
                    SecondarySpAddresses := ["sp1", "sp2"] },
    DeleteAt := 160 }

/-- Storage params with segments of 16 bytes, 4 data and 2 parity shards and
objects of at most 1000 bytes. -/
def paramsE4 : Params :=
  { MaxSegmentSize := 16, RedundantDataChunkNum := 4, RedundantParityChunkNum := 2,
    MaxPayloadSize := 1000 }

/-- Collaborators of scenario E4: the metadata service is up to date
(`responseEndBlockID = 199`) and lists two deleted objects, every query and
deletion succeeds, no report is answered with `Canceled`. -/
def gcEnvE4 : GCEnv :=
  { ListDeletedObjectsByBlockNumberRange := fun _ _ => .ok ([gcObjectA, gcObjectB], 199)
    QueryStorageParamsByTimestamp := fun _ _ => .ok paramsE4
    DeletePiece := fun _ => none
    DeleteObjectIntegrity := fun _ => none
    ReportTask := fun _ _ => none }

/-- As `gcEnvE4`, with no deleted object in the range. -/
def gcEnvEmpty : GCEnv :=
  { gcEnvE4 with ListDeletedObjectsByBlockNumberRange := fun _ _ => .ok ([], 199) }

/-- As `gcEnvE4`, with the metadata service only synced up to block 150. -/
def gcEnvLagging : GCEnv :=
  { gcEnvE4 with
    ListDeletedObjectsByBlockNumberRange := fun _ _ => .ok ([gcObjectA, gcObjectB], 150) }

/-- As `gcEnvE4`, with the second storage-params query failing. -/
def gcEnvPartial : GCEnv :=
  { gcEnvE4 with
    QueryStorageParamsByTimestamp := fun i _ =>
      if i = 1 then .error (.other 503) else .ok paramsE4 }

/-- A metadata service that answers with `responseEndBlockID = 7` and no object. -/
def gcEnvInverted : GCEnv :=
  { gcEnvE4 with ListDeletedObjectsByBlockNumberRange := fun _ _ => .ok ([], 7) }

/-- As `gcEnvE4`, with the manager answering every report with `Canceled`. -/
def gcEnvCanceled : GCEnv :=
  { gcEnvE4 with ReportTask := fun _ _ => some .ErrCanceledTask }

/-- As `gcEnvE4`, with the manager answering the second report with `Canceled`. -/
def gcEnvCanceledSecond : GCEnv :=
  { gcEnvE4 with ReportTask := fun i _ => if i = 1 then some .ErrCanceledTask else none }

/-- The task of scenario E4 carrying the error of an earlier failed run. -/
def gcTaskStale : GCObjectTask :=
  { gcTaskE4 with Err := some (.other 500) }

/-- An object of 5 bytes deleted at block 5. -/
def gcObjectEarly : Object :=
  { ObjectInfo := { Id := 3, BucketName := "b", ObjectName := "c", PayloadSize := 5,
                    CreateAt := 1002, ObjectStatus := .OBJECT_STATUS_SEALED,
                    RedundancyType := .REDUNDANCY_EC_TYPE,
                    SecondarySpAddresses := ["sp1", "sp2"] },
    DeleteAt := 5 }

/-- A GC task for the block range `[0, 2^64 - 1]`, not yet started. -/
def gcTaskLast : GCObjectTask :=
  { gcTaskE4 with Key := "gc-0-max", StartBlockNumber := 0,
                  EndBlockNumber := 18446744073709551615, CurrentBlockNumber := 0 }

/-- As `gcEnvE4`, with the metadata service synced up to block `2^64 - 1` and
listing the one object deleted at block 5. -/
def gcEnvLast : GCEnv :=
  { gcEnvE4 with
    ListDeletedObjectsByBlockNumberRange := fun _ _ =>
      .ok ([gcObjectEarly], 18446744073709551615) }

/-- As `gcEnvE4`, with every `DeletePiece` and `DeleteObjectIntegrity` failing. -/
def gcEnvDeleteFails : GCEnv :=
  { gcEnvE4 with
    DeletePiece := fun _ => some (.other 500)
    DeleteObjectIntegrity := fun _ => some (.other 500) }

/-- The object of scenario E3 as the chain reports it: 40 bytes, sealed, with
three secondaries none of which is the own operator `sp0`. -/
def objectE3 : ObjectInfo :=
  { Id := 7, BucketName := "b", ObjectName := "o", PayloadSize := 40, CreateAt := 0,
    ObjectStatus := .OBJECT_STATUS_SEALED, RedundancyType := .REDUNDANCY_EC_TYPE,
    SecondarySpAddresses := ["sp1", "sp2", "sp3"] }

/-- The receive task of scenario E3: an EC object of 40 bytes, replicate index
2, storage params with segments of 16 bytes and payloads up to 1000 bytes. -/
def receiveTaskE3 : ReceivePieceTask :=
  { Key := "receive-7", Priority := 2, Retry := 0, MaxRetry := 3, UpdateTime := 0,
    Timeout := 60, Err := none,
    ObjectInfo := some { objectE3 with ObjectStatus := .OBJECT_STATUS_CREATED },
    StorageParams := some paramsE4, ReplicateIdx := 2, PieceIdx := 0, PieceSize := 40,
    PieceChecksum := [], Signature := [], Sealed := false }

/-- As `receiveTaskE3`, with a replicate index beyond the secondary list. -/
def receiveTaskOutOfBounds : ReceivePieceTask :=
  { receiveTaskE3 with ReplicateIdx := 5 }

/-- Collaborators of scenario E3: the seal is observed at the first listen, the
chain returns `objectE3`, deletions succeed. -/
def receiveEnvE3 : ReceiveEnv :=
  { ListenObjectSeal := fun _ => (true, none)
    QueryObjectInfo := fun _ _ => .ok objectE3
    DeleteObjectIntegrity := fun _ => none
    DeletePiece := fun _ => none }

/-- The object of scenario E5: an EC object of 100 bytes with six secondaries. -/
def objectE5 : ObjectInfo :=
  { Id := 9, BucketName := "b", ObjectName := "o5", PayloadSize := 100, CreateAt := 0,
    ObjectStatus := .OBJECT_STATUS_SEALED, RedundancyType := .REDUNDANCY_EC_TYPE,
    SecondarySpAddresses := ["sp1", "sp2", "sp3", "sp4", "sp5", "sp6"] }

/-- A primary-segment recovery task (`EcIdx = -1`) for segment 0 of `objectE5`
with 4 data and 2 parity shards. -/
def recoverTaskPrimary : RecoveryPieceTask :=
  { Key := "recover-9-0", Priority := 2, Retry := 0, MaxRetry := 3, UpdateTime := 0,
    Timeout := 60, Err := none, ObjectInfo := some objectE5, StorageParams := some paramsE4,
    SegmentIdx := 0, EcIdx := -1, Signature := [], Recovered := false }

/-- A secondary recovery task for the EC chunk 2 of segment 0 of `objectE5`. -/
def recoverTaskSecondary : RecoveryPieceTask :=
  { recoverTaskPrimary with Key := "recover-9-0-2", EcIdx := 2 }

/-- A recovery task for an object with replica redundancy. -/
def recoverTaskReplica : RecoveryPieceTask :=
  { recoverTaskPrimary with
    ObjectInfo := some { objectE5 with RedundancyType := .REDUNDANCY_REPLICA_TYPE } }

/-- A recovery task with `EcIdx = 6`, one beyond the last of the 4 + 2 indices. -/
def recoverTaskBadIndex : RecoveryPieceTask :=
  { recoverTaskPrimary with EcIdx := 6 }

/-- Storage params that count `2^32 - 1` data shards and 2 parity shards. -/
def paramsWrap : Params :=
  { MaxSegmentSize := 16, RedundantDataChunkNum := 4294967295, RedundantParityChunkNum := 2,
    MaxPayloadSize := 1000 }

/-- A recovery task for EC chunk 3 of segment 0 of `objectE5` under `paramsWrap`. -/
def recoverTaskWrap : RecoveryPieceTask :=
  { recoverTaskPrimary with Key := "recover-9-0-3", StorageParams := some paramsWrap,
                            EcIdx := 3 }

/-- Collaborators of a recovery: seven SPs on chain, `sp0` the primary of the
bucket; every peer answers with the one-byte piece `[1]`; the segment to
recover has 100 bytes; the checksum of data is the data itself and the
integrity row expects `[1]` for segment 0; decoding fails; writes succeed. -/
def recoverEnvShort : RecoverEnv :=
  { ListSPs := .ok [⟨"sp0", "ep0"⟩, ⟨"sp1", "ep1"⟩, ⟨"sp2", "ep2"⟩, ⟨"sp3", "ep3"⟩,
                    ⟨"sp4", "ep4"⟩, ⟨"sp5", "ep5"⟩, ⟨"sp6", "ep6"⟩]
    QueryBucketInfo := fun _ => .ok { PrimarySpAddress := "sp0" }
    SignRecoveryTask := .ok [42]
    GetPieceFromECChunks := fun _ => .ok [1]
    GetObjectIntegrity := fun _ => .ok { PieceChecksumList := [[1], [2]] }
    GenerateChecksum := fun data => data
    SegmentPieceSize := fun _ _ _ => 100
    DecodeRawSegment := fun _ _ _ _ => .error (.other 1)
    PutPiece := fun _ _ => none }

/-- The main goroutine receives four values from `doneCh`; every fetch has
stored its data by then. -/
def schedFourDone : FanOutSchedule :=
  { events := [.done, .done, .done, .done], arrived := fun _ => true }

/-- All six fetches have finished with one-byte pieces and the main goroutine
receives from `quitCh` after three values from `doneCh`. -/
def schedQuitEarly : FanOutSchedule :=
  { events := [.done, .done, .done, .quit 1], arrived := fun _ => true }

/-- A resource scope that opens span 1 and refuses the reservation on it. -/
def scopeRefusing : ScopeEnv :=
  { BeginSpan := .ok 1
    ReserveResources := fun _ => some (.other 429)
    RemainingResource := .ok 8 }

/-- A resource scope that opens span 1 and grants the reservation. -/
def scopeGranting : ScopeEnv :=
  { BeginSpan := .ok 1
    ReserveResources := fun _ => none
    RemainingResource := .ok 8 }

/-- The counters of an idle executor. -/
def countersIdle : ExecutorCounters :=
  { executingNum := 0, doingReplicatePieceTaskCnt := 0, doingSpSealObjectTaskCnt := 0,
    doingReceivePieceTaskCnt := 0, doingGCObjectTaskCnt := 0, doingGCZombiePieceTaskCnt := 0,
    doingGCGCMetaTaskCnt := 0, doingRecoveryPieceTaskCnt := 0 }

/-- The manager hands out a GC object task; the reservation for it is refused. -/
def askEnvRefused : AskEnv :=
  { scope := scopeRefusing
    AskTask := .ok (some { Key := "gc-100-199", variant := .GfSpGCObjectTask })
    handlerPanics := false }

/-- The manager hands out a task of a variant the executor does not support;
the reservation is granted. -/
def askEnvUnsupported : AskEnv :=
  { scope := scopeGranting
    AskTask := .ok (some { Key := "upload-7", variant := .unsupported })
    handlerPanics := false }

/-- The manager hands out a seal task; the reservation is granted and the
handler panics. -/
def askEnvPanics : AskEnv :=
  { scope := scopeGranting
    AskTask := .ok (some { Key := "seal-7", variant := .GfSpSealObjectTask })
    handlerPanics := true }

/-- Two candidates of priority 1 each. -/
def unitTaskA : Task :=
  { Key := "gc-a", Priority := 1, Retry := 0, MaxRetry := 3, UpdateTime := 0, Timeout := 60,
    Err := none }

/-- The second candidate of priority 1. -/
def unitTaskB : Task :=
  { unitTaskA with Key := "gc-b" }

/-- Two candidates of priority 0 each. -/
def zeroTaskA : Task :=
  { unitTaskA with Key := "idle-a", Priority := 0 }

/-- The second candidate of priority 0. -/
def zeroTaskB : Task :=
  { unitTaskA with Key := "idle-b", Priority := 0 }

/-- A chain on which the object is still present at the first query, the second
query fails with a transient error and the third query reports that the
object is gone. -/
def rejectedOnThirdQuery : Nat → Except QueryError ObjectInfo := fun i =>
  if i = 0 then .ok objectE2
  else if i = 1 then .error { Error := "rpc error: connection refused" }
  else .error { Error := "rpc error: code = Unknown desc = No such object: unknown request" }

/-- Every `MsgRejectSealObject` submission succeeds and every listen call ends
with `(false, ErrRejectUnSealTimeout)`: the object stays on chain. -/
def rejectEnvNeverConfirmed : RejectEnv :=
  { RejectUnSealObject := fun _ => none
    ListenRejectUnSealObject := fun _ => (false, some .ErrRejectUnSealTimeout) }

/-- The first two submissions fail; the third succeeds and its listen call
reports `(false, nil)`. -/
def rejectEnvLastUnconfirmed : RejectEnv :=
  { RejectUnSealObject := fun i => if i < 2 then some (.other 500) else none
    ListenRejectUnSealObject := fun _ => (false, none) }

/-- The manager hands out a recovery task; the reservation is granted and the
handler returns. -/
def askEnvRecover : AskEnv :=
  { scope := scopeGranting
    AskTask := .ok (some { Key := "recover-9-0", variant := .GfSpRecoverPieceTask })
    handlerPanics := false }

/-- The manager hands out a seal task; the reservation is granted and the
handler returns. -/
def askEnvSeal : AskEnv :=
  { scope := scopeGranting
    AskTask := .ok (some { Key := "seal-7", variant := .GfSpSealObjectTask })
    handlerPanics := false }

/-- As `recoverEnvShort`, with the chain's `ListSPs` failing. -/
def recoverEnvNoSPs : RecoverEnv :=
  { recoverEnvShort with ListSPs := .error (.other 503) }

/-- As `recoverEnvShort`, with the decoding returning the segment `[1]`, whose
checksum the integrity row expects, and the piece store refusing the write. -/
def recoverEnvWriteFails : RecoverEnv :=
  { recoverEnvShort with
    DecodeRawSegment := fun _ _ _ _ => .ok [1]
    PutPiece := fun _ _ => some (.other 507) }

/-- As `recoverEnvShort`, with the decoding returning the segment `[1]` and an
integrity row whose `PieceChecksumList` is empty. -/
def recoverEnvNoChecksums : RecoverEnv :=
  { recoverEnvShort with
    DecodeRawSegment := fun _ _ _ _ => .ok [1]
    GetObjectIntegrity := fun _ => .ok { PieceChecksumList := [] } }

/-- A primary-segment recovery task with 4 data and 2 parity shards for an EC
object that has three secondaries on chain. -/
def recoverTaskFewSecondaries : RecoveryPieceTask :=
  { recoverTaskPrimary with ObjectInfo := some objectE3 }

/-! ## Theorems -/

/-- C1 (evaluation at the failing input): with candidates of priority 2 and 1
the total is 3; `PickUpTask` returns the priority-1 task for the two draws 0
and 1 and the priority-2 task only for the draw 2, so neither count equals
the task's priority. The walk compares the running sum with `>=`, which
hands the first sorted task one draw more and the last one draw less than
its priority. -/
theorem PickUpTask_draw_counts_at_priorities_1_2 :
    totalPriority [highTask, lowTask] = 3 ∧
    drawsReturning [highTask, lowTask] lowTask = [0, 1] ∧
    drawsReturning [highTask, lowTask] highTask = [2] ∧
    (drawsReturning [highTask, lowTask] lowTask).length ≠ lowTask.GetPriority ∧
    (drawsReturning [highTask, lowTask] highTask).length ≠ highTask.GetPriority := by
  decide

/-- C2: `FilterUploadingTask` accepts a task exactly when it has not exceeded
its retry limit and has either exceeded its timeout or never been retried
(`Retry == 0`). The two consequences named by the claim are stated as
equations of the filter with `false`: a task with a non-zero retry counter
that has not timed out is rejected, and a task over its retry limit is
rejected whatever its timeout state. -/
theorem FilterUploadingTask_iff (now : Int) (t : Task) :
    (FilterUploadingTask now t = true ↔
      (t.ExceedRetry = false ∧ (t.ExceedTimeout now = true ∨ t.GetRetry = 0))) ∧
    (FilterUploadingTask now t && !t.ExceedTimeout now && decide (0 < t.GetRetry)) = false ∧
    (FilterUploadingTask now t && t.ExceedRetry) = false := by
  unfold FilterUploadingTask
  cases h1 : t.ExceedRetry <;> cases h2 : t.ExceedTimeout now <;>
    by_cases h3 : t.GetRetry = 0 <;> simp [h3]

/-! ### GC-object ticker -/

theorem enqueuedRanges_append (a b : List TickEff) :
    enqueuedRanges (a ++ b) = enqueuedRanges a ++ enqueuedRanges b := by
  induction a with
  | nil => rfl
  | cons x xs ih =>
    cases x with
    | push s e err =>
      cases err with
      | none => simp [enqueuedRanges, ih]
      | some _ => simp [enqueuedRanges, ih]
    | insertGCObjectProgress s e => simp [enqueuedRanges, ih]

theorem addUint64_eq (a b : Nat) (h : a + b < 2 ^ 64) : addUint64 a b = a + b :=
  Nat.mod_eq_of_lt h

/-- What one tick does to the manager and which range it enqueues, when none of
its sums wraps around. -/
theorem gcObjectTick_cases (m : ManageModular) (env : GCTickEnv)
    (hb1 : m.gcBlockHeight + m.gcObjectBlockInterval + m.gcSafeBlockDistance < 2 ^ 64)
    (hb2 : m.gcBlockHeight + m.gcObjectBlockInterval + 1 < 2 ^ 64) :
    ((gcObjectTick m env).1 = m ∧ enqueuedRanges (gcObjectTick m env).2 = []) ∨
    ((gcObjectTick m env).1 =
        { m with gcBlockHeight := m.gcBlockHeight + m.gcObjectBlockInterval + 1 } ∧
      enqueuedRanges (gcObjectTick m env).2 =
        [(m.gcBlockHeight, m.gcBlockHeight + m.gcObjectBlockInterval)]) := by
  have h1 : addUint64 m.gcBlockHeight m.gcObjectBlockInterval =
      m.gcBlockHeight + m.gcObjectBlockInterval := addUint64_eq _ _ (by omega)
  have h2 : addUint64 (m.gcBlockHeight + m.gcObjectBlockInterval) m.gcSafeBlockDistance =
      m.gcBlockHeight + m.gcObjectBlockInterval + m.gcSafeBlockDistance :=
    addUint64_eq _ _ hb1
  have h3 : addUint64 (m.gcBlockHeight + m.gcObjectBlockInterval) 1 =
      m.gcBlockHeight + m.gcObjectBlockInterval + 1 := addUint64_eq _ _ hb2
  unfold gcObjectTick
  simp only [h1, h2, h3]
  cases hc : env.CurrentHeight with
  | error e => left; simp [enqueuedRanges]
  | ok h =>
    by_cases hg : m.gcBlockHeight + m.gcObjectBlockInterval + m.gcSafeBlockDistance > h
    · left; simp [hg, enqueuedRanges]
    · cases hp : env.Push m.gcBlockHeight (m.gcBlockHeight + m.gcObjectBlockInterval) with
      | some e => left; simp [hg, hp, enqueuedRanges]
      | none =>
        right
        cases hi : env.InsertGCObjectProgress m.gcBlockHeight
            (m.gcBlockHeight + m.gcObjectBlockInterval) <;>
          simp [hg, hp, hi, enqueuedRanges]

/-- Ranges enqueued by successive ticks start at or after the manager's
`gcBlockHeight`, are well-formed, pairwise disjoint in generation order, and
each one starts right after the end of the one before, as long as the sums of
no tick wrap around: tick `k` starts from the state the first `k` ticks
left. -/
theorem runTicks_ranges (envs : List GCTickEnv) : ∀ m : ManageModular,
    (∀ k, k < envs.length →
      (runTicks m (envs.take k)).1.gcBlockHeight +
          (runTicks m (envs.take k)).1.gcObjectBlockInterval +
          (runTicks m (envs.take k)).1.gcSafeBlockDistance < 2 ^ 64 ∧
      (runTicks m (envs.take k)).1.gcBlockHeight +
          (runTicks m (envs.take k)).1.gcObjectBlockInterval + 1 < 2 ^ 64) →
    (∀ r ∈ enqueuedRanges (runTicks m envs).2, m.gcBlockHeight ≤ r.1 ∧ r.1 ≤ r.2) ∧
    List.Pairwise (fun a b : Nat × Nat => a.2 < b.1) (enqueuedRanges (runTicks m envs).2) ∧
    List.Chain' (fun a b : Nat × Nat => b.1 = a.2 + 1) (enqueuedRanges (runTicks m envs).2) ∧
    (∀ r ∈ (enqueuedRanges (runTicks m envs).2).head?, r.1 = m.gcBlockHeight) := by
  induction envs with
  | nil => intro m _; simp [runTicks, enqueuedRanges]
  | cons env envs ih =>
    intro m hinv
    have hrun : (runTicks m (env :: envs)).2 =
        (gcObjectTick m env).2 ++ (runTicks (gcObjectTick m env).1 envs).2 := rfl
    rw [hrun, enqueuedRanges_append]
    have hm0 := hinv 0 (by simp)
    simp only [List.take_zero, runTicks] at hm0
    have htail : ∀ k, k < envs.length →
        (runTicks (gcObjectTick m env).1 (envs.take k)).1.gcBlockHeight +
            (runTicks (gcObjectTick m env).1 (envs.take k)).1.gcObjectBlockInterval +
            (runTicks (gcObjectTick m env).1 (envs.take k)).1.gcSafeBlockDistance < 2 ^ 64 ∧
        (runTicks (gcObjectTick m env).1 (envs.take k)).1.gcBlockHeight +
            (runTicks (gcObjectTick m env).1 (envs.take k)).1.gcObjectBlockInterval + 1
          < 2 ^ 64 := by
      intro k hk
      have := hinv (k + 1) (by simp; omega)
      simpa [runTicks] using this
    obtain ⟨h1, h2, h3, h4⟩ := ih (gcObjectTick m env).1 htail
    rcases gcObjectTick_cases m env hm0.1 hm0.2 with ⟨hm, hr⟩ | ⟨hm, hr⟩
    · rw [hr, hm]
      rw [hm] at h1 h2 h3 h4
      exact ⟨by simpa using h1, by simpa using h2, by simpa using h3, by simpa using h4⟩
    · have hh : (gcObjectTick m env).1.gcBlockHeight =
          m.gcBlockHeight + m.gcObjectBlockInterval + 1 := by rw [hm]
      rw [hr]
      rw [hh] at h1 h4
      refine ⟨?_, ?_, ?_, ?_⟩
      · intro r hr'
        simp only [List.singleton_append, List.mem_cons] at hr'
        rcases hr' with rfl | hr'
        · simp
        · have := h1 r hr'
          omega
      · simp only [List.singleton_append, List.pairwise_cons]
        refine ⟨?_, h2⟩
        intro r hr'
        have := h1 r hr'
        omega
      · simp only [List.singleton_append]
        rw [List.chain'_cons']
        refine ⟨?_, h3⟩
        intro r hr'
        have := h4 r hr'
        simpa using this
      · simp

/-- C3 (counterexample): with `gcBlockHeight = 2^64 - 6`, an interval of 10
blocks, a safety margin of 5 and the chain at height `2^64 - 1`, the claim's
`end + gcSafeBlockDistance = 2^64 + 9` exceeds `CurrentHeight`, so the tick
should leave `gcBlockHeight` unchanged. The code forms the sums in `uint64`:
`end` wraps to 4, `4 + 5 = 9` passes the guard, the task for `[2^64 - 6, 4]`
is pushed and `gcBlockHeight` becomes 5. -/
theorem gcObjectTick_wraps_past_guard :
    tickEnvWrap.CurrentHeight = .ok 18446744073709551615 ∧
    managerWrap.gcBlockHeight + managerWrap.gcObjectBlockInterval +
      managerWrap.gcSafeBlockDistance > 18446744073709551615 ∧
    (gcObjectTick managerWrap tickEnvWrap).1.gcBlockHeight = 5 ∧
    (gcObjectTick managerWrap tickEnvWrap).1.gcBlockHeight ≠ managerWrap.gcBlockHeight ∧
    enqueuedRanges (gcObjectTick managerWrap tickEnvWrap).2 = [(18446744073709551610, 4)] := by
  refine ⟨rfl, by decide, by decide, by decide, by decide⟩

/-- C3 (amended): provided the `uint64` sums of the tick do not wrap around
(`end + gcSafeBlockDistance < 2^64` and `end + 1 < 2^64` for
`end = gcBlockHeight + gcObjectBlockInterval`), one GC-object tick with
`start = gcBlockHeight` leaves the manager (so `gcBlockHeight`) unchanged and
enqueues nothing when the `CurrentHeight` query fails, when
`end + gcSafeBlockDistance > CurrentHeight`, or when the push of the task for
`[start, end]` fails; when the push succeeds `gcBlockHeight` becomes `end + 1`
whatever `InsertGCObjectProgress` answers. Hence over any sequence of ticks
none of which has a sum that wraps around, the enqueued ranges never overlap
(each ends before every later one starts) and are contiguous (each starts at
the previous end plus one). -/
theorem gcObjectTick_gcBlockHeight (m : ManageModular) (env : GCTickEnv)
    (hb1 : m.gcBlockHeight + m.gcObjectBlockInterval + m.gcSafeBlockDistance < 2 ^ 64)
    (hb2 : m.gcBlockHeight + m.gcObjectBlockInterval + 1 < 2 ^ 64) :
    (∀ e, env.CurrentHeight = .error e →
      (gcObjectTick m env).1 = m ∧ enqueuedRanges (gcObjectTick m env).2 = []) ∧
    (∀ h, env.CurrentHeight = .ok h →
      m.gcBlockHeight + m.gcObjectBlockInterval + m.gcSafeBlockDistance > h →
      (gcObjectTick m env).1 = m ∧ enqueuedRanges (gcObjectTick m env).2 = []) ∧
    (∀ h e, env.CurrentHeight = .ok h →
      ¬ (m.gcBlockHeight + m.gcObjectBlockInterval + m.gcSafeBlockDistance > h) →
      env.Push m.gcBlockHeight (m.gcBlockHeight + m.gcObjectBlockInterval) = some e →
      (gcObjectTick m env).1 = m ∧ enqueuedRanges (gcObjectTick m env).2 = []) ∧
    (∀ h, env.CurrentHeight = .ok h →
      ¬ (m.gcBlockHeight + m.gcObjectBlockInterval + m.gcSafeBlockDistance > h) →
      env.Push m.gcBlockHeight (m.gcBlockHeight + m.gcObjectBlockInterval) = none →
      (gcObjectTick m env).1.gcBlockHeight = m.gcBlockHeight + m.gcObjectBlockInterval + 1 ∧
      enqueuedRanges (gcObjectTick m env).2 =
        [(m.gcBlockHeight, m.gcBlockHeight + m.gcObjectBlockInterval)]) ∧
    (∀ envs : List GCTickEnv,
      (∀ k, k < envs.length →
        (runTicks m (envs.take k)).1.gcBlockHeight +
            (runTicks m (envs.take k)).1.gcObjectBlockInterval +
            (runTicks m (envs.take k)).1.gcSafeBlockDistance < 2 ^ 64 ∧
        (runTicks m (envs.take k)).1.gcBlockHeight +
            (runTicks m (envs.take k)).1.gcObjectBlockInterval + 1 < 2 ^ 64) →
      List.Pairwise (fun a b : Nat × Nat => a.2 < b.1) (enqueuedRanges (runTicks m envs).2) ∧
      List.Chain' (fun a b : Nat × Nat => b.1 = a.2 + 1)
        (enqueuedRanges (runTicks m envs).2)) := by
  have h1 : addUint64 m.gcBlockHeight m.gcObjectBlockInterval =
      m.gcBlockHeight + m.gcObjectBlockInterval := addUint64_eq _ _ (by omega)
  have h2 : addUint64 (m.gcBlockHeight + m.gcObjectBlockInterval) m.gcSafeBlockDistance =
      m.gcBlockHeight + m.gcObjectBlockInterval + m.gcSafeBlockDistance :=
    addUint64_eq _ _ hb1
  have h3 : addUint64 (m.gcBlockHeight + m.gcObjectBlockInterval) 1 =
      m.gcBlockHeight + m.gcObjectBlockInterval + 1 := addUint64_eq _ _ hb2
  refine ⟨?_, ?_, ?_, ?_, ?_⟩
  · intro e he
    simp [gcObjectTick, he, enqueuedRanges]
  · intro h he hg
    simp [gcObjectTick, he, h1, h2, hg, enqueuedRanges]
  · intro h e he hg hp
    simp [gcObjectTick, he, h1, h2, hg, hp, enqueuedRanges]
  · intro h he hg hp
    cases hi : env.InsertGCObjectProgress m.gcBlockHeight
        (m.gcBlockHeight + m.gcObjectBlockInterval) <;>
      simp [gcObjectTick, he, h1, h2, h3, hg, hp, hi, enqueuedRanges]
  · intro envs hinv
    exact ⟨(runTicks_ranges envs m hinv).2.1, (runTicks_ranges envs m hinv).2.2.1⟩

/-- C3 (amended) at scenario E4: from block 100 with interval 99 and margin 5
at chain height 300 the tick enqueues `[100, 199]` and moves `gcBlockHeight`
to 200, although the progress row could not be persisted; two ticks at chain
height 1000 enqueue `[100, 199]` and `[200, 299]`, which do not overlap. -/
theorem gcObjectTick_gcBlockHeight_witness :
    ((gcObjectTick managerE4 tickEnvE4).1.gcBlockHeight = 200 ∧
      enqueuedRanges (gcObjectTick managerE4 tickEnvE4).2 = [(100, 199)]) ∧
    enqueuedRanges (runTicks managerE4 [tickEnvHigh, tickEnvHigh]).2
      = [(100, 199), (200, 299)] ∧
    List.Pairwise (fun a b : Nat × Nat => a.2 < b.1)
      (enqueuedRanges (runTicks managerE4 [tickEnvHigh, tickEnvHigh]).2) :=
  ⟨(gcObjectTick_gcBlockHeight managerE4 tickEnvE4 (by decide) (by decide)).2.2.2.1 300 rfl
      (by decide) rfl,
   by decide,
   ((gcObjectTick_gcBlockHeight managerE4 tickEnvE4 (by decide) (by decide)).2.2.2.2
      [tickEnvHigh, tickEnvHigh]
      (by
        intro k hk
        have hk2 : k = 0 ∨ k = 1 := by
          simp only [List.length_cons, List.length_nil] at hk
          omega
        rcases hk2 with rfl | rfl <;> decide)).1⟩

/-! ### Chain access: `ListenObjectSeal` -/

theorem ListenObjectSealLoop_true_iff (query : Nat → Except GfSpError ObjectInfo) (objectID : Nat)
    (n : Nat) : ∀ (i : Nat) (err : Option GfSpError),
    (ListenObjectSealLoop query objectID n i err).1 = (true, none) ↔
      ∃ j, i ≤ j ∧ j < i + n ∧ sealedAt query j = true := by
  induction n with
  | zero =>
    intro i err
    cases err <;> simp [ListenObjectSealLoop]
    all_goals intro j hj; omega
  | succ n ih =>
    intro i err
    unfold ListenObjectSealLoop
    cases hq : query i with
    | error e =>
      simp only
      rw [ih]
      constructor
      · rintro ⟨j, h1, h2, h3⟩
        exact ⟨j, by omega, by omega, h3⟩
      · rintro ⟨j, h1, h2, h3⟩
        have hne : j ≠ i := by
          rintro rfl
          simp [sealedAt, hq] at h3
        exact ⟨j, by omega, by omega, h3⟩
    | ok objectInfo =>
      by_cases hs : objectInfo.ObjectStatus = .OBJECT_STATUS_SEALED
      · simp only [hs, if_true, true_iff]
        exact ⟨i, le_refl _, by omega, by simp [sealedAt, hq, hs]⟩
      · simp only [hs, if_false]
        rw [ih]
        constructor
        · rintro ⟨j, h1, h2, h3⟩
          exact ⟨j, by omega, by omega, h3⟩
        · rintro ⟨j, h1, h2, h3⟩
          have hne : j ≠ i := by
            rintro rfl
            simp [sealedAt, hq, hs] at h3
          exact ⟨j, by omega, by omega, h3⟩

theorem ListenObjectSealLoop_queryCount_le (query : Nat → Except GfSpError ObjectInfo)
    (objectID : Nat) (n : Nat) : ∀ (i : Nat) (err : Option GfSpError),
    queryCount (ListenObjectSealLoop query objectID n i err).2 ≤ n := by
  induction n with
  | zero => intro i err; cases err <;> simp [ListenObjectSealLoop, queryCount]
  | succ n ih =>
    intro i err
    unfold ListenObjectSealLoop
    cases hq : query i with
    | error e =>
      have := ih (i + 1) (some e)
      simp only [queryCount, List.countP_cons] at this ⊢
      simp only [if_true, Bool.false_eq_true, if_false]
      omega
    | ok objectInfo =>
      by_cases hs : objectInfo.ObjectStatus = .OBJECT_STATUS_SEALED
      · simp [hs, queryCount]
      · have := ih (i + 1) none
        simp only [hs, if_false, queryCount, List.countP_cons] at this ⊢
        simp only [if_true, Bool.false_eq_true, if_false]
        omega

theorem ListenObjectSealLoop_first_sealed (query : Nat → Except GfSpError ObjectInfo)
    (objectID : Nat) (n : Nat) : ∀ (i j : Nat) (err : Option GfSpError),
    i ≤ j → j < i + n → sealedAt query j = true →
    (∀ k, i ≤ k → k < j → sealedAt query k = false) →
    (ListenObjectSealLoop query objectID n i err).1 = (true, none) ∧
    queryCount (ListenObjectSealLoop query objectID n i err).2 = j - i + 1 := by
  induction n with
  | zero => intro i j err h1 h2; omega
  | succ n ih =>
    intro i j err h1 h2 h3 h4
    unfold ListenObjectSealLoop
    by_cases hij : i = j
    · subst hij
      cases hq : query i with
      | error e => simp [sealedAt, hq] at h3
      | ok objectInfo =>
        have hs : objectInfo.ObjectStatus = .OBJECT_STATUS_SEALED := by
          simpa [sealedAt, hq] using h3
        simp [hs, queryCount]
    · have hi := h4 i (le_refl _) (by omega)
      have hrec : ∀ e, (ListenObjectSealLoop query objectID n (i + 1) e).1 = (true, none) ∧
          queryCount (ListenObjectSealLoop query objectID n (i + 1) e).2 = j - (i + 1) + 1 :=
        fun e => ih (i + 1) j e (by omega) (by omega) h3 (fun k hk1 hk2 => h4 k (by omega) hk2)
      cases hq : query i with
      | error e =>
        obtain ⟨r1, r2⟩ := hrec (some e)
        simp only [queryCount, List.countP_cons] at r2 ⊢
        simp only [if_true, Bool.false_eq_true, if_false]
        exact ⟨r1, by omega⟩
      | ok objectInfo =>
        have hs : ¬ objectInfo.ObjectStatus = .OBJECT_STATUS_SEALED := by
          simpa [sealedAt, hq] using hi
        obtain ⟨r1, r2⟩ := hrec none
        simp only [hs, if_false, queryCount, List.countP_cons] at r2 ⊢
        simp only [if_true, Bool.false_eq_true, if_false]
        exact ⟨r1, by omega⟩

theorem ListenObjectSealLoop_unsealed (query : Nat → Except GfSpError ObjectInfo)
    (objectID : Nat) (n : Nat) : ∀ (i : Nat) (err : Option GfSpError),
    (∀ j, i ≤ j → j < i + (n + 1) → sealedAt query j = false) →
    (ListenObjectSealLoop query objectID (n + 1) i err).1 =
      (false, some (match query (i + n) with
        | .error e => e
        | .ok _ => GfSpError.ErrSealTimeout)) := by
  induction n with
  | zero =>
    intro i err h
    have hi := h i (le_refl _) (by omega)
    unfold ListenObjectSealLoop
    cases hq : query i with
    | error e => simp [ListenObjectSealLoop, hq]
    | ok objectInfo =>
      have hs : ¬ objectInfo.ObjectStatus = .OBJECT_STATUS_SEALED := by
        simpa [sealedAt, hq] using hi
      simp [ListenObjectSealLoop, hq, hs]
  | succ n ih =>
    intro i err h
    have hi := h i (le_refl _) (by omega)
    have hrec : ∀ e, (ListenObjectSealLoop query objectID (n + 1) (i + 1) e).1 =
        (false, some (match query (i + 1 + n) with
          | .error e => e
          | .ok _ => GfSpError.ErrSealTimeout)) :=
      fun e => ih (i + 1) e (fun j h1 h2 => h j (by omega) (by omega))
    have hidx : i + (n + 1) = i + 1 + n := by omega
    rw [hidx]
    conv_lhs => unfold ListenObjectSealLoop
    cases hq : query i with
    | error e => simpa using hrec (some e)
    | ok objectInfo =>
      have hs : ¬ objectInfo.ObjectStatus = .OBJECT_STATUS_SEALED := by
        simpa [sealedAt, hq] using hi
      simpa [hs] using hrec none

/-- C6: `Gnfd.ListenObjectSeal` returns `(true, nil)` exactly when one of the
first `timeoutHeight` polls succeeds and reports `OBJECT_STATUS_SEALED`, and
returns `sealed = false` otherwise; it issues at most `timeoutHeight` queries
(none for a non-positive budget); and when poll `i` is the first to report
`SEALED` it returns `(true, nil)` after exactly `i + 1` queries, whatever the
earlier polls answered (failed or not sealed): failures are skipped and no
query follows the first `SEALED` observation. -/
theorem ListenObjectSeal_sealed_iff (query : Nat → Except GfSpError ObjectInfo)
    (objectID : Nat) (timeoutHeight : Int) :
    ((ListenObjectSeal query objectID timeoutHeight).1 = (true, none) ↔
      ∃ i : Nat, (i : Int) < timeoutHeight ∧ sealedAt query i = true) ∧
    ((ListenObjectSeal query objectID timeoutHeight).1 = (true, none) ∨
      (ListenObjectSeal query objectID timeoutHeight).1.1 = false) ∧
    queryCount (ListenObjectSeal query objectID timeoutHeight).2 ≤ timeoutHeight.toNat ∧
    (∀ i : Nat, (i : Int) < timeoutHeight → sealedAt query i = true →
      (∀ k, k < i → sealedAt query k = false) →
      (ListenObjectSeal query objectID timeoutHeight).1 = (true, none) ∧
      queryCount (ListenObjectSeal query objectID timeoutHeight).2 = i + 1) := by
  have hiff : (ListenObjectSeal query objectID timeoutHeight).1 = (true, none) ↔
      ∃ i : Nat, (i : Int) < timeoutHeight ∧ sealedAt query i = true := by
    unfold ListenObjectSeal
    rw [ListenObjectSealLoop_true_iff]
    constructor
    · rintro ⟨j, _, h2, h3⟩
      exact ⟨j, by omega, h3⟩
    · rintro ⟨j, h2, h3⟩
      exact ⟨j, Nat.zero_le _, by omega, h3⟩
  refine ⟨hiff, ?_, ?_, ?_⟩
  · by_cases hex : ∃ i : Nat, (i : Int) < timeoutHeight ∧ sealedAt query i = true
    · exact Or.inl (hiff.mpr hex)
    · right
      have hno : ∀ j, 0 ≤ j → j < 0 + timeoutHeight.toNat → sealedAt query j = false := by
        intro j _ hj
        by_contra hc
        exact hex ⟨j, by omega, by simpa using hc⟩
      unfold ListenObjectSeal
      cases hT : timeoutHeight.toNat with
      | zero => simp [ListenObjectSealLoop]
      | succ n =>
        rw [hT] at hno
        rw [ListenObjectSealLoop_unsealed query objectID n 0 none hno]
  · exact ListenObjectSealLoop_queryCount_le query objectID _ 0 none
  · intro i hi hs hfirst
    have := ListenObjectSealLoop_first_sealed query objectID timeoutHeight.toNat 0 i none
      (Nat.zero_le _) (by omega) hs (fun k _ hk => hfirst k hk)
    simpa [ListenObjectSeal] using this

/-- C6 on a chain whose second poll fails and whose third poll reports
`SEALED`: with a budget of 10 polls the call returns `(true, nil)` after
exactly 3 queries. -/
theorem ListenObjectSeal_sealed_iff_witness :
    (ListenObjectSeal sealedOnThirdPoll 7 10).1 = (true, none) ∧
    queryCount (ListenObjectSeal sealedOnThirdPoll 7 10).2 = 3 :=
  (ListenObjectSeal_sealed_iff sealedOnThirdPoll 7 10).2.2.2 2 (by decide) (by decide)
    (by decide)

/-- C7 (counterexample): with a budget of one poll that fails with a transient
error, no poll observes `SEALED`, yet the call returns the query error and
not `SealTimeout`. -/
theorem ListenObjectSeal_last_poll_failed :
    (∀ i : Nat, (i : Int) < 1 → sealedAt queryAlwaysFails i = false) ∧
    (ListenObjectSeal queryAlwaysFails 7 1).1 = (false, some (GfSpError.other 503)) ∧
    (ListenObjectSeal queryAlwaysFails 7 1).1 ≠ (false, some GfSpError.ErrSealTimeout) := by
  refine ⟨?_, by decide, by decide⟩
  intro i _
  rfl

/-- C7 (amended): when no poll within the budget observes
`OBJECT_STATUS_SEALED`, `Gnfd.ListenObjectSeal` returns `sealed = false` after
using the whole budget; the error is `SealTimeout` when the budget is not
positive or the last poll of the budget succeeded (earlier failures are
forgotten), and it is the last poll's own error when that poll failed. -/
theorem ListenObjectSeal_unsealed (query : Nat → Except GfSpError ObjectInfo)
    (objectID : Nat) (timeoutHeight : Int)
    (hno : ∀ i : Nat, (i : Int) < timeoutHeight → sealedAt query i = false) :
    (ListenObjectSeal query objectID timeoutHeight).1.1 = false ∧
    (timeoutHeight ≤ 0 →
      (ListenObjectSeal query objectID timeoutHeight).1.2 = some .ErrSealTimeout) ∧
    (∀ objectInfo, 0 < timeoutHeight → query (timeoutHeight.toNat - 1) = .ok objectInfo →
      (ListenObjectSeal query objectID timeoutHeight).1.2 = some .ErrSealTimeout) ∧
    (∀ e, 0 < timeoutHeight → query (timeoutHeight.toNat - 1) = .error e →
      (ListenObjectSeal query objectID timeoutHeight).1.2 = some e) := by
  unfold ListenObjectSeal
  cases hT : timeoutHeight.toNat with
  | zero =>
    refine ⟨by simp [ListenObjectSealLoop], fun _ => by simp [ListenObjectSealLoop], ?_, ?_⟩
    · intro _ h; omega
    · intro _ h; omega
  | succ n =>
    have hno' : ∀ j, 0 ≤ j → j < 0 + (n + 1) → sealedAt query j = false :=
      fun j _ hj => hno j (by omega)
    rw [ListenObjectSealLoop_unsealed query objectID n 0 none hno']
    refine ⟨rfl, fun h => by omega, ?_, ?_⟩
    · intro objectInfo _ hq
      simp only [Nat.add_sub_cancel] at hq
      simp [hq]
    · intro e _ hq
      simp only [Nat.add_sub_cancel] at hq
      simp [hq]

/-- C7 (amended) on a chain that never seals, with a budget of 4 polls whose
last one (poll 3) fails: the call returns `false` with that poll's error. -/
theorem ListenObjectSeal_unsealed_witness :
    (ListenObjectSeal neverSealed 7 4).1.1 = false ∧
    (ListenObjectSeal neverSealed 7 4).1.2 = some (GfSpError.other 503) :=
  have h := ListenObjectSeal_unsealed neverSealed 7 4 (by
    intro i hi
    have hlt : i < 4 := by omega
    interval_cases i <;> rfl)
  ⟨h.1, h.2.2.2 (.other 503) (by decide) rfl⟩

/-! ### Executor: sealing -/

theorem listenCount_nil : listenCount [] = 0 := rfl

theorem listenCount_cons (eff : SealEff) (effs : List SealEff) :
    listenCount (eff :: effs) =
      listenCount effs + (match eff with
        | .listenObjectSeal _ _ => 1
        | _ => 0) := by
  cases eff <;> simp [listenCount, List.countP_cons]

theorem listenCount_append (a b : List SealEff) :
    listenCount (a ++ b) = listenCount a + listenCount b := by
  simp [listenCount, List.countP_append]

theorem listenCount_sealObjectSubmitLoop (e : ExecuteModular) (submit : Nat → Option GfSpError)
    (objectID : Nat) (sealMsg : MsgSealObject) (n : Nat) : ∀ retry,
    listenCount (sealObjectSubmitLoop e submit objectID sealMsg n retry) = 0 := by
  induction n with
  | zero => intro retry; rfl
  | succ n ih =>
    intro retry
    unfold sealObjectSubmitLoop
    cases submit retry with
    | none => simp [listenCount_cons, listenCount_nil]
    | some err => simp [listenCount_cons, ih]

theorem listenSealObjectLoop_nil_iff (e : ExecuteModular)
    (listen : Nat → Bool × Option GfSpError) (objectID : Nat) (n : Nat) :
    ∀ (i : Nat) (err : Option GfSpError), (err ≠ none ∨ 0 < n) →
    ((listenSealObjectLoop e listen objectID n i err).1 = none ↔
      ∃ j, i ≤ j ∧ j < i + n ∧ listen j = (true, none)) := by
  induction n with
  | zero =>
    intro i err h
    rcases h with h | h
    · simp only [listenSealObjectLoop, h, false_iff]
      rintro ⟨j, h1, h2, _⟩
      omega
    · omega
  | succ n ih =>
    intro i err _
    unfold listenSealObjectLoop
    rcases hq : listen i with ⟨sealed, innerErr⟩
    cases innerErr with
    | some innerErr =>
      simp only
      rw [ih (i + 1) (some innerErr) (Or.inl (by simp))]
      constructor
      · rintro ⟨j, h1, h2, h3⟩
        exact ⟨j, by omega, by omega, h3⟩
      · rintro ⟨j, h1, h2, h3⟩
        have hne : j ≠ i := by
          rintro rfl
          rw [hq] at h3
          simp at h3
        exact ⟨j, by omega, by omega, h3⟩
    | none =>
      cases sealed with
      | false =>
        simp only
        rw [ih (i + 1) (some .ErrUnsealed) (Or.inl (by simp))]
        constructor
        · rintro ⟨j, h1, h2, h3⟩
          exact ⟨j, by omega, by omega, h3⟩
        · rintro ⟨j, h1, h2, h3⟩
          have hne : j ≠ i := by
            rintro rfl
            rw [hq] at h3
            simp at h3
          exact ⟨j, by omega, by omega, h3⟩
      | true =>
        simp only [true_iff]
        exact ⟨i, le_refl _, by omega, hq⟩

theorem listenSealObjectLoop_listenCount_le (e : ExecuteModular)
    (listen : Nat → Bool × Option GfSpError) (objectID : Nat) (n : Nat) :
    ∀ (i : Nat) (err : Option GfSpError),
    listenCount (listenSealObjectLoop e listen objectID n i err).2 ≤ n := by
  induction n with
  | zero => intro i err; simp [listenSealObjectLoop, listenCount_nil]
  | succ n ih =>
    intro i err
    unfold listenSealObjectLoop
    rcases hq : listen i with ⟨sealed, innerErr⟩
    cases innerErr with
    | some innerErr =>
      have := ih (i + 1) (some innerErr)
      simp only [listenCount_cons]
      omega
    | none =>
      cases sealed with
      | false =>
        have := ih (i + 1) (some .ErrUnsealed)
        simp only [listenCount_cons]
        omega
      | true => simp [listenCount_cons, listenCount_nil]

theorem listenSealObjectLoop_first_sealed (e : ExecuteModular)
    (listen : Nat → Bool × Option GfSpError) (objectID : Nat) (n : Nat) :
    ∀ (i j : Nat) (err : Option GfSpError),
    i ≤ j → j < i + n → listen j = (true, none) →
    (∀ k, i ≤ k → k < j → listen k ≠ (true, none)) →
    (listenSealObjectLoop e listen objectID n i err).1 = none ∧
    listenCount (listenSealObjectLoop e listen objectID n i err).2 = j - i + 1 := by
  induction n with
  | zero => intro i j err h1 h2; omega
  | succ n ih =>
    intro i j err h1 h2 h3 h4
    unfold listenSealObjectLoop
    by_cases hij : i = j
    · subst hij
      simp [h3, listenCount_cons, listenCount_nil]
    · have hi := h4 i (le_refl _) (by omega)
      have hrec : ∀ err1, (listenSealObjectLoop e listen objectID n (i + 1) err1).1 = none ∧
          listenCount (listenSealObjectLoop e listen objectID n (i + 1) err1).2
            = j - (i + 1) + 1 :=
        fun err1 => ih (i + 1) j err1 (by omega) (by omega) h3
          (fun k hk1 hk2 => h4 k (by omega) hk2)
      rcases hq : listen i with ⟨sealed, innerErr⟩
      cases innerErr with
      | some innerErr =>
        obtain ⟨r1, r2⟩ := hrec (some innerErr)
        simp only [listenCount_cons]
        exact ⟨r1, by omega⟩
      | none =>
        cases sealed with
        | false =>
          obtain ⟨r1, r2⟩ := hrec (some .ErrUnsealed)
          simp only [listenCount_cons]
          exact ⟨r1, by omega⟩
        | true => exact absurd hq hi

theorem listenSealObjectLoop_all_unsealed (e : ExecuteModular)
    (listen : Nat → Bool × Option GfSpError) (objectID : Nat) (n : Nat) :
    ∀ (i : Nat) (err : Option GfSpError),
    (∀ j, i ≤ j → j < i + n → listen j = (false, none)) →
    (listenSealObjectLoop e listen objectID n i err).1
      = (if n = 0 then err else some .ErrUnsealed) ∧
    listenCount (listenSealObjectLoop e listen objectID n i err).2 = n := by
  induction n with
  | zero => intro i err _; simp [listenSealObjectLoop, listenCount_nil]
  | succ n ih =>
    intro i err h
    have hi := h i (le_refl _) (by omega)
    obtain ⟨r1, r2⟩ := ih (i + 1) (some .ErrUnsealed) (fun j h1 h2 => h j (by omega) (by omega))
    unfold listenSealObjectLoop
    simp only [hi, listenCount_cons, r2, Nat.succ_ne_zero, if_false]
    refine ⟨?_, trivial⟩
    rw [r1]
    split <;> rfl

/-- C4 (counterexample): with `maxListenSealRetry = 0` the loop body never
runs, so `listenSealObject` returns nil (success) without a single
`ListenObjectSeal` call, although no call returned `sealed = true`. -/
theorem listenSealObject_zero_retry_returns_nil :
    (listenSealObject executorNoListen sealEnvE2.ListenObjectSeal objectE2).1 = none ∧
    listenCount (listenSealObject executorNoListen sealEnvE2.ListenObjectSeal objectE2).2 = 0 ∧
    ¬ ∃ i : Nat, (i : Int) < executorNoListen.maxListenSealRetry ∧
        sealEnvE2.ListenObjectSeal i = (true, none) := by
  refine ⟨by decide, by decide, ?_⟩
  rintro ⟨i, _, hi⟩
  simp [sealEnvE2] at hi

/-- C4 (amended): for `maxListenSealRetry >= 1`, `listenSealObject` returns nil
exactly when one of the first `maxListenSealRetry` calls of `ListenObjectSeal`
returned `(true, nil)`. For every value of `maxListenSealRetry` it makes at
most that many calls (none when the value is not positive), and when call `i`
is the first to return `(true, nil)` it returns nil after exactly `i + 1`
calls: no call follows the first success. -/
theorem listenSealObject_nil_iff (e : ExecuteModular) (listen : Nat → Bool × Option GfSpError)
    (object : ObjectInfo) :
    (1 ≤ e.maxListenSealRetry →
      ((listenSealObject e listen object).1 = none ↔
        ∃ i : Nat, (i : Int) < e.maxListenSealRetry ∧ listen i = (true, none))) ∧
    listenCount (listenSealObject e listen object).2 ≤ e.maxListenSealRetry.toNat ∧
    (∀ i : Nat, (i : Int) < e.maxListenSealRetry → listen i = (true, none) →
      (∀ k, k < i → listen k ≠ (true, none)) →
      (listenSealObject e listen object).1 = none ∧
      listenCount (listenSealObject e listen object).2 = i + 1) := by
  refine ⟨?_, ?_, ?_⟩
  · intro hmax
    unfold listenSealObject
    rw [listenSealObjectLoop_nil_iff e listen object.Id _ 0 none (Or.inr (by omega))]
    constructor
    · rintro ⟨j, _, h2, h3⟩
      exact ⟨j, by omega, h3⟩
    · rintro ⟨j, h2, h3⟩
      exact ⟨j, Nat.zero_le _, by omega, h3⟩
  · exact listenSealObjectLoop_listenCount_le e listen object.Id _ 0 none
  · intro i hi hs hfirst
    have := listenSealObjectLoop_first_sealed e listen object.Id e.maxListenSealRetry.toNat
      0 i none (Nat.zero_le _) (by omega) hs (fun k _ hk => hfirst k hk)
    simpa [listenSealObject] using this

/-- C4 (amended) with three attempts allowed, the first failing and the second
reporting sealed: the result is nil after exactly two calls. -/
theorem listenSealObject_nil_iff_witness :
    (listenSealObject executorE2 listenSecondSealed objectE2).1 = none ∧
    listenCount (listenSealObject executorE2 listenSecondSealed objectE2).2 = 2 :=
  (listenSealObject_nil_iff executorE2 listenSecondSealed objectE2).2.2 1 (by decide) rfl
    (by
      intro k hk
      have hk0 : k = 0 := by omega
      subst hk0
      decide)

/-- C5 (counterexample): a seal task whose object info is nil is answered with
`ErrDanglingPointer` before any submission or listen attempt, so with
`maxListenSealRetry = 3` and every `ListenObjectSeal` call answering
`(false, nil)` the handler makes 0 listen attempts and the task error is not
`Unsealed`. -/
theorem HandleSealObjectTask_dangling :
    1 ≤ executorE2.maxListenSealRetry ∧
    (∀ i, sealEnvE2.ListenObjectSeal i = (false, none)) ∧
    listenCount (HandleSealObjectTask executorE2 sealEnvE2 sealTaskDangling).2 = 0 ∧
    (HandleSealObjectTask executorE2 sealEnvE2 sealTaskDangling).1.Err
      = some GfSpError.ErrDanglingPointer := by
  refine ⟨by decide, fun _ => rfl, by decide, by decide⟩

/-- C5 (amended): for a seal task with non-nil object info and
`maxListenSealRetry >= 1`, if every `ListenObjectSeal` call within the budget
returns `(false, nil)` then `HandleSealObjectTask` makes exactly
`maxListenSealRetry` listen attempts and ends with task error `Unsealed`,
whatever the `MsgSealObject` submissions (`env.SealObject`) returned. -/
theorem HandleSealObjectTask_unsealed (e : ExecuteModular) (env : SealEnv)
    (task : SealObjectTask) (objectInfo : ObjectInfo)
    (hobj : task.ObjectInfo = some objectInfo)
    (hmax : 1 ≤ e.maxListenSealRetry)
    (hlisten : ∀ i : Nat, (i : Int) < e.maxListenSealRetry →
      env.ListenObjectSeal i = (false, none)) :
    (listenCount (HandleSealObjectTask e env task).2 : Int) = e.maxListenSealRetry ∧
    (HandleSealObjectTask e env task).1.Err = some .ErrUnsealed := by
  obtain ⟨r1, r2⟩ := listenSealObjectLoop_all_unsealed e env.ListenObjectSeal objectInfo.Id
    e.maxListenSealRetry.toNat 0 none (fun j _ hj => hlisten j (by omega))
  have hne : e.maxListenSealRetry.toNat ≠ 0 := by omega
  rw [if_neg hne] at r1
  unfold HandleSealObjectTask
  simp only [hobj, sealObject, listenSealObject, listenCount_append,
    listenCount_sealObjectSubmitLoop, r1, r2, SealObjectTask.SetError]
  refine ⟨by omega, trivial⟩

/-- C5 (amended) at scenario E2: three listen attempts, all `(false, nil)`,
every submission failing; the task ends with `Unsealed` after 3 attempts. -/
theorem HandleSealObjectTask_unsealed_witness :
    (listenCount (HandleSealObjectTask executorE2 sealEnvE2 sealTaskE2).2 : Int) = 3 ∧
    (HandleSealObjectTask executorE2 sealEnvE2 sealTaskE2).1.Err = some .ErrUnsealed :=
  HandleSealObjectTask_unsealed executorE2 sealEnvE2 sealTaskE2 objectE2 rfl (by decide)
    (fun _ _ => rfl)

/-! ### Executor: garbage collection -/

theorem gcDeleteObject_deletedObject (e : ExecuteModular) (env : GCEnv) (objectInfo : ObjectInfo)
    (segmentCount : Nat) :
    ∀ eff ∈ gcDeleteObject e env objectInfo segmentCount,
      eff.deletedObject = some objectInfo.Id := by
  intro eff heff
  simp only [gcDeleteObject, List.mem_append, List.mem_map, List.mem_flatMap,
    List.mem_singleton] at heff
  rcases heff with (⟨segIdx, _, rfl⟩ | ⟨⟨rIdx, address⟩, _, h⟩) | rfl
  · rfl
  · split at h
    · simp only [List.mem_map] at h
      obtain ⟨segIdx, _, rfl⟩ := h
      split <;> rfl
    · simp at h
  · rfl

theorem gcObjectLoop_range (e : ExecuteModular) (env : GCEnv) (objs : List Object) :
    ∀ (queries reports : Nat) (task : GCObjectTask),
    (gcObjectLoop e env objs queries reports task).task.StartBlockNumber = task.StartBlockNumber ∧
    (gcObjectLoop e env objs queries reports task).task.EndBlockNumber = task.EndBlockNumber ∧
    (gcObjectLoop e env objs queries reports task).task.Err = task.Err := by
  induction objs with
  | nil => intro queries reports task; simp [gcObjectLoop]
  | cons object rest ih =>
    intro queries reports task
    unfold gcObjectLoop
    cases env.QueryStorageParamsByTimestamp queries object.ObjectInfo.CreateAt with
    | error err => simp
    | ok storageParams =>
      simp only
      split
      · exact ih _ _ _
      · split
        · simp [GCObjectTask.SetCurrentBlockNumber, GCObjectTask.SetLastDeletedObjectId]
        · have := ih (queries + 1) (reports + 1)
            ((task.SetCurrentBlockNumber (uint64OfInt64 object.DeleteAt)).SetLastDeletedObjectId
              object.ObjectInfo.Id)
          simpa [GCObjectTask.SetCurrentBlockNumber, GCObjectTask.SetLastDeletedObjectId]
            using this

/-- Every deletion the loop issues is for a listed object whose `DeleteAt` is
not below the task's `CurrentBlockNumber` at loop entry. -/
theorem gcObjectLoop_deletions (e : ExecuteModular) (env : GCEnv) (objs : List Object) :
    ∀ (queries reports : Nat) (task : GCObjectTask),
    ∀ eff ∈ (gcObjectLoop e env objs queries reports task).effs, ∀ id,
      eff.deletedObject = some id →
      ∃ o ∈ objs, o.ObjectInfo.Id = id ∧ task.CurrentBlockNumber ≤ uint64OfInt64 o.DeleteAt := by
  induction objs with
  | nil => intro queries reports task eff heff; simp [gcObjectLoop] at heff
  | cons object rest ih =>
    intro queries reports task eff heff id hid
    unfold gcObjectLoop at heff
    cases hq : env.QueryStorageParamsByTimestamp queries object.ObjectInfo.CreateAt with
    | error err =>
      simp only [hq, List.mem_singleton] at heff
      subst heff
      simp [GCEff.deletedObject] at hid
    | ok storageParams =>
      simp only [hq] at heff
      split at heff
      · simp only [List.mem_cons] at heff
        rcases heff with rfl | heff
        · simp [GCEff.deletedObject] at hid
        · obtain ⟨o, ho, h1, h2⟩ := ih _ _ _ eff heff id hid
          exact ⟨o, List.mem_cons_of_mem _ ho, h1, h2⟩
      · rename_i hskip
        have hhere : ∀ eff1 ∈ (GCEff.queryStorageParams object.ObjectInfo.CreateAt ::
            (gcDeleteObject e env object.ObjectInfo
              (SegmentPieceCount object.ObjectInfo.PayloadSize storageParams.MaxSegmentSize) ++
              [GCEff.reportTask ((task.SetCurrentBlockNumber
                (uint64OfInt64 object.DeleteAt)).SetLastDeletedObjectId object.ObjectInfo.Id)])),
            eff1.deletedObject = some id →
            ∃ o ∈ object :: rest, o.ObjectInfo.Id = id ∧
              task.CurrentBlockNumber ≤ uint64OfInt64 o.DeleteAt := by
          intro eff1 h1 hid1
          simp only [List.mem_cons, List.mem_append, List.mem_singleton, List.not_mem_nil,
            or_false] at h1
          rcases h1 with rfl | h1 | rfl
          · simp [GCEff.deletedObject] at hid1
          · have := gcDeleteObject_deletedObject e env _ _ eff1 h1
            rw [this] at hid1
            exact ⟨object, List.mem_cons_self _ _, Option.some.inj hid1, by omega⟩
          · simp [GCEff.deletedObject] at hid1
        split at heff
        · exact hhere eff heff hid
        · simp only [List.mem_append] at heff
          rcases heff with heff | heff
          · exact hhere eff heff hid
          · obtain ⟨o, ho, h1, h2⟩ := ih _ _ _ eff heff id hid
            refine ⟨o, List.mem_cons_of_mem _ ho, h1, ?_⟩
            simp only [GCObjectTask.SetCurrentBlockNumber,
              GCObjectTask.SetLastDeletedObjectId] at h2
            omega

theorem gcObjectLoop_finished (e : ExecuteModular) (env : GCEnv)
    (hq : ∀ i ts, ∃ p, env.QueryStorageParamsByTimestamp i ts = .ok p)
    (hr : ∀ i t, env.ReportTask i t ≠ some .ErrCanceledTask) (objs : List Object) :
    ∀ (queries reports : Nat) (task : GCObjectTask),
    (gcObjectLoop e env objs queries reports task).exit = .finished := by
  induction objs with
  | nil => intro queries reports task; simp [gcObjectLoop]
  | cons object rest ih =>
    intro queries reports task
    unfold gcObjectLoop
    obtain ⟨p, hp⟩ := hq queries object.ObjectInfo.CreateAt
    simp only [hp]
    split
    · exact ih _ _ _
    · rw [if_neg (hr _ _)]
      exact ih _ _ _

theorem gcObjectDeferred_deletions (task : GCObjectTask) (err : Option GfSpError)
    (succeeded : Bool) :
    ∀ eff ∈ (gcObjectDeferred task err succeeded).2, eff.deletedObject = none := by
  intro eff heff
  unfold gcObjectDeferred at heff
  split at heff <;> simp only [List.mem_singleton] at heff <;> subst heff <;> rfl

theorem gcObjectDeferred_failed (task : GCObjectTask) (err : Option GfSpError) :
    (gcObjectDeferred task err false).1 = task.SetError err := by
  simp [gcObjectDeferred]

theorem gcObjectDeferred_succeeded (task : GCObjectTask) :
    (gcObjectDeferred task none true).1 =
      task.SetCurrentBlockNumber (addUint64 task.EndBlockNumber 1) := by
  simp [gcObjectDeferred]

/-- Every deletion of a run of the handler is for a listed object whose
`DeleteAt` is not below the `CurrentBlockNumber` the task started with. -/
theorem HandleGCObjectTask_deletions (e : ExecuteModular) (env : GCEnv) (task : GCObjectTask)
    (objs : List Object) (responseEndBlockID : Nat)
    (hlist : env.ListDeletedObjectsByBlockNumberRange task.StartBlockNumber task.EndBlockNumber
      = .ok (objs, responseEndBlockID)) :
    ∀ eff ∈ (HandleGCObjectTask e env task).2, ∀ id, eff.deletedObject = some id →
      ∃ o ∈ objs, o.ObjectInfo.Id = id ∧ task.CurrentBlockNumber ≤ uint64OfInt64 o.DeleteAt := by
  intro eff heff id hid
  have hdef : ∀ t err b, eff ∈ (gcObjectDeferred t err b).2 → False := by
    intro t err b h
    have := gcObjectDeferred_deletions t err b eff h
    rw [this] at hid
    exact Option.noConfusion hid
  have hloop : eff ∈ (gcObjectLoop e env objs 0 0 task).effs →
      ∃ o ∈ objs, o.ObjectInfo.Id = id ∧ task.CurrentBlockNumber ≤ uint64OfInt64 o.DeleteAt :=
    fun h => gcObjectLoop_deletions e env objs 0 0 task eff h id hid
  have hlisted : eff ≠ GCEff.listDeletedObjects task.StartBlockNumber task.EndBlockNumber := by
    rintro rfl
    simp [GCEff.deletedObject] at hid
  unfold HandleGCObjectTask at heff
  simp only [hlist] at heff
  split at heff
  · simp only [List.mem_cons] at heff
    rcases heff with h | h
    · exact absurd h hlisted
    · exact (hdef _ _ _ h).elim
  · split at heff
    · simp only [List.mem_cons] at heff
      rcases heff with h | h
      · exact absurd h hlisted
      · exact (hdef _ _ _ h).elim
    · split at heff <;>
        simp only [List.mem_cons, List.mem_append] at heff <;>
        rcases heff with h | h | h <;>
        first
          | exact absurd h hlisted
          | exact hloop h
          | exact (hdef _ _ _ h).elim

theorem gcObjectDeferred_range (task : GCObjectTask) (err : Option GfSpError)
    (succeeded : Bool) :
    (gcObjectDeferred task err succeeded).1.StartBlockNumber = task.StartBlockNumber ∧
    (gcObjectDeferred task err succeeded).1.EndBlockNumber = task.EndBlockNumber := by
  unfold gcObjectDeferred
  split <;> simp [GCObjectTask.SetCurrentBlockNumber, GCObjectTask.SetError]

theorem HandleGCObjectTask_range (e : ExecuteModular) (env : GCEnv) (task : GCObjectTask) :
    (HandleGCObjectTask e env task).1.StartBlockNumber = task.StartBlockNumber ∧
    (HandleGCObjectTask e env task).1.EndBlockNumber = task.EndBlockNumber := by
  have hl := gcObjectLoop_range e env
  unfold HandleGCObjectTask
  split
  · exact gcObjectDeferred_range _ _ _
  · split
    · exact gcObjectDeferred_range _ _ _
    · split
      · exact gcObjectDeferred_range _ _ _
      · rename_i objs _ _ _ _
        dsimp only
        cases (gcObjectLoop e env objs 0 0 task).exit <;>
          exact ⟨(gcObjectDeferred_range _ _ _).1.trans (hl objs 0 0 task).1,
                 (gcObjectDeferred_range _ _ _).2.trans (hl objs 0 0 task).2.1⟩

/-- C8 (counterexample): the second storage-params query fails, so the first
run deletes the pieces of object 1 (deleted at block 150), stops at object 2
and leaves `CurrentBlockNumber = 150`. The second run, started from that task
state, does not skip object 1 (`150 < 150` is false) and requests the
deletion of its segment piece 0 again. -/
theorem HandleGCObjectTask_rerun_deletes_again :
    GCEff.deletePiece (SegmentPieceKey 1 0) none
      ∈ (HandleGCObjectTask executorE2 gcEnvPartial gcTaskE4).2 ∧
    (HandleGCObjectTask executorE2 gcEnvPartial gcTaskE4).1.CurrentBlockNumber = 150 ∧
    GCEff.deletePiece (SegmentPieceKey 1 0) none
      ∈ (HandleGCObjectTask executorE2 gcEnvPartial
          (HandleGCObjectTask executorE2 gcEnvPartial gcTaskE4).1).2 := by
  decide

/-- C8 (amended): when `HandleGCObjectTask` is run again on the task state a
first run left (completed, failed part-way or cancelled), every piece or
integrity-meta deletion of the second run is for a listed object whose
`DeleteAt` is at or above the `CurrentBlockNumber` the first run left: listed
objects below it are skipped. In particular, after a first run that completed
(`CurrentBlockNumber = End + 1`) the second run issues no deletion at all
when every listed `DeleteAt` lies at or below `End`. -/
theorem HandleGCObjectTask_rerun (e : ExecuteModular) (env1 env2 : GCEnv) (task : GCObjectTask)
    (objs : List Object) (responseEndBlockID : Nat)
    (hlist : env2.ListDeletedObjectsByBlockNumberRange task.StartBlockNumber
      task.EndBlockNumber = .ok (objs, responseEndBlockID)) :
    (∀ eff ∈ (HandleGCObjectTask e env2 (HandleGCObjectTask e env1 task).1).2, ∀ id,
      eff.deletedObject = some id →
      ∃ o ∈ objs, o.ObjectInfo.Id = id ∧
        (HandleGCObjectTask e env1 task).1.CurrentBlockNumber ≤ uint64OfInt64 o.DeleteAt) ∧
    ((HandleGCObjectTask e env1 task).1.CurrentBlockNumber = task.EndBlockNumber + 1 →
      (∀ o ∈ objs, uint64OfInt64 o.DeleteAt ≤ task.EndBlockNumber) →
      ∀ eff ∈ (HandleGCObjectTask e env2 (HandleGCObjectTask e env1 task).1).2,
        eff.deletedObject = none) := by
  have hrange := HandleGCObjectTask_range e env1 task
  have hlist1 : env2.ListDeletedObjectsByBlockNumberRange
      (HandleGCObjectTask e env1 task).1.StartBlockNumber
      (HandleGCObjectTask e env1 task).1.EndBlockNumber = .ok (objs, responseEndBlockID) := by
    rw [hrange.1, hrange.2]
    exact hlist
  have hdel := HandleGCObjectTask_deletions e env2 (HandleGCObjectTask e env1 task).1 objs
    responseEndBlockID hlist1
  refine ⟨hdel, ?_⟩
  intro hdone hin eff heff
  cases hd : eff.deletedObject with
  | none => rfl
  | some id =>
    obtain ⟨o, ho, _, hle⟩ := hdel eff heff id hd
    have := hin o ho
    omega

/-- C8 (amended) at scenario E4: the first run completes and leaves
`CurrentBlockNumber = 200`; a second run on that task state requests no
deletion. -/
theorem HandleGCObjectTask_rerun_witness :
    (HandleGCObjectTask executorE2 gcEnvE4 gcTaskE4).1.CurrentBlockNumber = 200 ∧
    (∀ eff ∈ (HandleGCObjectTask executorE2 gcEnvE4
        (HandleGCObjectTask executorE2 gcEnvE4 gcTaskE4).1).2, eff.deletedObject = none) :=
  ⟨by decide,
   (HandleGCObjectTask_rerun executorE2 gcEnvE4 gcEnvE4 gcTaskE4 [gcObjectA, gcObjectB] 199
      rfl).2 (by decide) (by decide)⟩

/-- C9 (counterexample): two runs that meet the claim's conditions and do not
end with `CurrentBlockNumber = End + 1`. A task with `Start = 10` and
`End = 5`, the metadata service answering `responseEndBlockID = 7 >= End` with
an empty list: the handler takes the `responseEndBlockID < Start` branch and
leaves `CurrentBlockNumber` at 10 instead of 6. A task with `End = 2^64 - 1`,
one object listed, every query succeeding and no report cancelled: the
`uint64` sum `End + 1` wraps and the task ends with `CurrentBlockNumber = 0`. -/
theorem HandleGCObjectTask_inverted_range_defers :
    gcEnvInverted.ListDeletedObjectsByBlockNumberRange gcTaskInverted.StartBlockNumber
      gcTaskInverted.EndBlockNumber = .ok ([], 7) ∧
    gcTaskInverted.EndBlockNumber ≤ 7 ∧
    (HandleGCObjectTask executorE2 gcEnvInverted gcTaskInverted).1.CurrentBlockNumber = 10 ∧
    (HandleGCObjectTask executorE2 gcEnvInverted gcTaskInverted).1.CurrentBlockNumber
      ≠ gcTaskInverted.EndBlockNumber + 1 ∧
    gcEnvLast.ListDeletedObjectsByBlockNumberRange gcTaskLast.StartBlockNumber
      gcTaskLast.EndBlockNumber = .ok ([gcObjectEarly], 18446744073709551615) ∧
    gcTaskLast.EndBlockNumber ≤ 18446744073709551615 ∧
    (HandleGCObjectTask executorE2 gcEnvLast gcTaskLast).1.CurrentBlockNumber = 0 ∧
    (HandleGCObjectTask executorE2 gcEnvLast gcTaskLast).1.CurrentBlockNumber
      ≠ gcTaskLast.EndBlockNumber + 1 := by
  refine ⟨rfl, by decide, by decide, by decide, rfl, by decide, by decide, by decide⟩

/-- C9 (amended): when the deleted-object query succeeds with
`responseEndBlockID >= End` and `responseEndBlockID >= Start`, every
storage-params query succeeds, no progress report returns `Canceled` and
`End + 1` stays within the `uint64` range, `HandleGCObjectTask` ends with
`CurrentBlockNumber = End + 1`, and a task that carried no error when the
handler started ends with no task error; the deleted-object list may be
empty. -/
theorem HandleGCObjectTask_success (e : ExecuteModular) (env : GCEnv) (task : GCObjectTask)
    (objs : List Object) (responseEndBlockID : Nat)
    (hlist : env.ListDeletedObjectsByBlockNumberRange task.StartBlockNumber task.EndBlockNumber
      = .ok (objs, responseEndBlockID))
    (hend : task.EndBlockNumber ≤ responseEndBlockID)
    (hstart : task.StartBlockNumber ≤ responseEndBlockID)
    (hq : ∀ i ts, ∃ p, env.QueryStorageParamsByTimestamp i ts = .ok p)
    (hr : ∀ i t, env.ReportTask i t ≠ some .ErrCanceledTask)
    (hbound : task.EndBlockNumber + 1 < 2 ^ 64) :
    (HandleGCObjectTask e env task).1.CurrentBlockNumber = task.EndBlockNumber + 1 ∧
    (task.Err = none → (HandleGCObjectTask e env task).1.Err = none) := by
  have hguard : ¬ (responseEndBlockID < task.StartBlockNumber ∨
      responseEndBlockID < task.EndBlockNumber) := by omega
  have hfin := gcObjectLoop_finished e env hq hr objs 0 0 task
  have hl := gcObjectLoop_range e env objs 0 0 task
  have hsum : addUint64 task.EndBlockNumber 1 = task.EndBlockNumber + 1 :=
    addUint64_eq _ _ hbound
  unfold HandleGCObjectTask
  simp only [hlist, hguard, if_false]
  split
  · simp [gcObjectDeferred_succeeded, GCObjectTask.SetCurrentBlockNumber, hsum]
  · simp only [hfin, gcObjectDeferred_succeeded, GCObjectTask.SetCurrentBlockNumber]
    refine ⟨by rw [hl.2.1, hsum], ?_⟩
    intro herr
    rw [hl.2.2, herr]

/-- C9 (amended) at scenario E4, `Start = 100` and `End = 199`: with two deleted
objects listed, and also with an empty list, the task ends at block 200
without error. -/
theorem HandleGCObjectTask_success_witness :
    ((HandleGCObjectTask executorE2 gcEnvE4 gcTaskE4).1.CurrentBlockNumber = 200 ∧
      (HandleGCObjectTask executorE2 gcEnvE4 gcTaskE4).1.Err = none) ∧
    ((HandleGCObjectTask executorE2 gcEnvEmpty gcTaskE4).1.CurrentBlockNumber = 200 ∧
      (HandleGCObjectTask executorE2 gcEnvEmpty gcTaskE4).1.Err = none) :=
  have h1 := HandleGCObjectTask_success executorE2 gcEnvE4 gcTaskE4 [gcObjectA, gcObjectB] 199
    rfl (by decide) (by decide) (fun _ _ => ⟨_, rfl⟩) (fun _ _ => by simp [gcEnvE4])
    (by decide)
  have h2 := HandleGCObjectTask_success executorE2 gcEnvEmpty gcTaskE4 [] 199 rfl
    (by decide) (by decide) (fun _ _ => ⟨_, rfl⟩) (fun _ _ => by simp [gcEnvEmpty, gcEnvE4])
    (by decide)
  ⟨⟨h1.1, h1.2 rfl⟩, ⟨h2.1, h2.2 rfl⟩⟩

/-- A task that arrives with the error of an earlier failed run and is then
collected in full ends at `End + 1` and still carries that error: the success
branch of the deferred function advances `CurrentBlockNumber` and has no
`SetError`, while its other branch calls `task.SetError(err)`. -/
theorem HandleGCObjectTask_success_keeps_stale_error :
    (HandleGCObjectTask executorE2 gcEnvE4 gcTaskStale).1.CurrentBlockNumber = 200 ∧
    (HandleGCObjectTask executorE2 gcEnvE4 gcTaskStale).1.Err = some (GfSpError.other 500) := by
  decide

/-- C10: if the metadata service answers the deleted-object query with
`responseEndBlockID < End`, `HandleGCObjectTask` requests no piece deletion and
no integrity-meta deletion and leaves `CurrentBlockNumber` and
`LastDeletedObjectID` unchanged. -/
theorem HandleGCObjectTask_metadata_lag (e : ExecuteModular) (env : GCEnv) (task : GCObjectTask)
    (objs : List Object) (responseEndBlockID : Nat)
    (hlist : env.ListDeletedObjectsByBlockNumberRange task.StartBlockNumber task.EndBlockNumber
      = .ok (objs, responseEndBlockID))
    (hlag : responseEndBlockID < task.EndBlockNumber) :
    (∀ eff ∈ (HandleGCObjectTask e env task).2, eff.deletedObject = none) ∧
    (HandleGCObjectTask e env task).1.CurrentBlockNumber = task.CurrentBlockNumber ∧
    (HandleGCObjectTask e env task).1.LastDeletedObjectId = task.LastDeletedObjectId := by
  have hguard : responseEndBlockID < task.StartBlockNumber ∨
      responseEndBlockID < task.EndBlockNumber := Or.inr hlag
  unfold HandleGCObjectTask
  simp only [hlist, hguard, if_true, gcObjectDeferred_failed, GCObjectTask.SetError]
  refine ⟨?_, trivial, trivial⟩
  intro eff heff
  simp only [List.mem_cons] at heff
  rcases heff with rfl | heff
  · rfl
  · exact gcObjectDeferred_deletions _ _ _ eff heff

/-- C10 with the range `[100, 199]` and a metadata service synced up to block
150 that already lists two deleted objects: nothing is deleted and the
progress stays at block 100, last deleted object 0. -/
theorem HandleGCObjectTask_metadata_lag_witness :
    (∀ eff ∈ (HandleGCObjectTask executorE2 gcEnvLagging gcTaskE4).2,
      eff.deletedObject = none) ∧
    (HandleGCObjectTask executorE2 gcEnvLagging gcTaskE4).1.CurrentBlockNumber = 100 ∧
    (HandleGCObjectTask executorE2 gcEnvLagging gcTaskE4).1.LastDeletedObjectId = 0 :=
  HandleGCObjectTask_metadata_lag executorE2 gcEnvLagging gcTaskE4 [gcObjectA, gcObjectB] 150
    rfl (by decide)

theorem afterCanceledReport_append_deletions (env : GCEnv) (e : ExecuteModular)
    (objectInfo : ObjectInfo) (segmentCount n : Nat) (m : List GCEff) :
    afterCanceledReport env n (gcDeleteObject e env objectInfo segmentCount ++ m)
      = afterCanceledReport env n m := by
  have key : ∀ l : List GCEff, (∀ eff ∈ l, ∃ id, eff.deletedObject = some id) →
      afterCanceledReport env n (l ++ m) = afterCanceledReport env n m := by
    intro l
    induction l with
    | nil => intro _; rfl
    | cons x xs ih =>
      intro h
      obtain ⟨id, hid⟩ := h x (List.mem_cons_self _ _)
      have hxs := ih (fun eff heff => h eff (List.mem_cons_of_mem _ heff))
      cases x <;> simp [GCEff.deletedObject] at hid <;>
        simpa [afterCanceledReport] using hxs
  exact key _ (fun eff heff => ⟨_, gcDeleteObject_deletedObject e env _ _ eff heff⟩)

/-- Scanning the calls of the loop for a cancelled report: the scan stops at the
report that made the loop leave with `canceled`, and passes the loop
otherwise. -/
theorem gcObjectLoop_afterCanceledReport (e : ExecuteModular) (env : GCEnv)
    (objs : List Object) : ∀ (queries reports : Nat) (task : GCObjectTask) (m : List GCEff),
    afterCanceledReport env reports ((gcObjectLoop e env objs queries reports task).effs ++ m) =
      if (gcObjectLoop e env objs queries reports task).exit = .canceled then
        some ((gcObjectLoop e env objs queries reports task).task, m)
      else afterCanceledReport env (gcObjectLoop e env objs queries reports task).reports m := by
  induction objs with
  | nil => intro queries reports task m; simp [gcObjectLoop]
  | cons object rest ih =>
    intro queries reports task m
    unfold gcObjectLoop
    cases hq : env.QueryStorageParamsByTimestamp queries object.ObjectInfo.CreateAt with
    | error err => simp [afterCanceledReport]
    | ok storageParams =>
      simp only
      split
      · simpa [afterCanceledReport] using ih (queries + 1) reports task m
      · split
        · rename_i hc
          simp [afterCanceledReport, List.append_assoc, afterCanceledReport_append_deletions, hc]
        · rename_i hc
          have := ih (queries + 1) (reports + 1)
            ((task.SetCurrentBlockNumber (uint64OfInt64 object.DeleteAt)).SetLastDeletedObjectId
              object.ObjectInfo.Id) m
          simpa [afterCanceledReport, List.append_assoc, afterCanceledReport_append_deletions,
            hc] using this

/-- A loop left with `canceled` ends with the report of the task as the loop left
it, and the manager answered that report with `Canceled`. -/
theorem gcObjectLoop_canceled (e : ExecuteModular) (env : GCEnv) (objs : List Object) :
    ∀ (queries reports : Nat) (task : GCObjectTask),
    (gcObjectLoop e env objs queries reports task).exit = .canceled →
    ∃ pre n,
      (gcObjectLoop e env objs queries reports task).effs =
        pre ++ [GCEff.reportTask (gcObjectLoop e env objs queries reports task).task] ∧
      env.ReportTask n (gcObjectLoop e env objs queries reports task).task =
        some .ErrCanceledTask := by
  induction objs with
  | nil => intro queries reports task h; simp [gcObjectLoop] at h
  | cons object rest ih =>
    intro queries reports task h
    unfold gcObjectLoop at h ⊢
    cases hq : env.QueryStorageParamsByTimestamp queries object.ObjectInfo.CreateAt with
    | error err => simp [hq] at h
    | ok storageParams =>
      simp only [hq] at h ⊢
      split
      · rename_i hskip
        simp only [hskip, if_true] at h
        obtain ⟨pre, n, h1, h2⟩ := ih (queries + 1) reports task h
        exact ⟨GCEff.queryStorageParams object.ObjectInfo.CreateAt :: pre, n,
          by simp only [h1, List.cons_append], h2⟩
      · rename_i hskip
        simp only [hskip, if_false] at h
        split
        · rename_i hc
          exact ⟨GCEff.queryStorageParams object.ObjectInfo.CreateAt ::
              gcDeleteObject e env object.ObjectInfo
                (SegmentPieceCount object.ObjectInfo.PayloadSize storageParams.MaxSegmentSize),
            reports, by simp only [List.cons_append], hc⟩
        · rename_i hc
          simp only [hc, if_false] at h
          obtain ⟨pre, n, h1, h2⟩ := ih (queries + 1) (reports + 1) _ h
          exact ⟨GCEff.queryStorageParams object.ObjectInfo.CreateAt ::
              (gcDeleteObject e env object.ObjectInfo
                (SegmentPieceCount object.ObjectInfo.PayloadSize
                  storageParams.MaxSegmentSize) ++
                [GCEff.reportTask ((task.SetCurrentBlockNumber
                  (uint64OfInt64 object.DeleteAt)).SetLastDeletedObjectId
                    object.ObjectInfo.Id)]) ++ pre, n,
            by simp only [h1, List.cons_append, List.append_assoc], h2⟩

/-- C11 (counterexample): the manager answers the first progress report with
`Canceled`. The loop is left, but the deferred completion still calls
`SetError(nil)`, which clears the error the task arrived with, and sends one
more report: one call follows the cancelled report and the task's error has
changed. -/
theorem HandleGCObjectTask_canceled_reports_again :
    afterCanceledReport gcEnvCanceled 0
        (HandleGCObjectTask executorE2 gcEnvCanceled gcTaskStale).2
      = some ((gcTaskStale.SetCurrentBlockNumber 150).SetLastDeletedObjectId 1,
          [GCEff.reportTask
            (((gcTaskStale.SetCurrentBlockNumber 150).SetLastDeletedObjectId 1).SetError
              none)]) ∧
    ((gcTaskStale.SetCurrentBlockNumber 150).SetLastDeletedObjectId 1).Err
      = some (GfSpError.other 500) ∧
    (HandleGCObjectTask executorE2 gcEnvCanceled gcTaskStale).1.Err = none := by
  decide

/-- C11 (amended): when a progress report sent from the loop of
`HandleGCObjectTask` is answered with `Canceled`, the loop is left at once:
that report is the last call of the loop, and exactly one call follows it in
the whole run, the report of the deferred completion, which carries the task
after `SetError(nil)`. So no piece or integrity-meta deletion and no
storage-params query follows the cancelled report, the task ends as that
report carried it but with its error cleared, and `CurrentBlockNumber` and
`LastDeletedObjectID` keep the values that report carried. -/
theorem HandleGCObjectTask_after_canceled (e : ExecuteModular) (env : GCEnv)
    (task : GCObjectTask) (objs : List Object) (responseEndBlockID : Nat)
    (hlist : env.ListDeletedObjectsByBlockNumberRange task.StartBlockNumber task.EndBlockNumber
      = .ok (objs, responseEndBlockID))
    (hguard : ¬ (responseEndBlockID < task.StartBlockNumber ∨
      responseEndBlockID < task.EndBlockNumber))
    (hcancel : (gcObjectLoop e env objs 0 0 task).exit = .canceled) :
    (∃ pre n,
      (gcObjectLoop e env objs 0 0 task).effs =
        pre ++ [GCEff.reportTask (gcObjectLoop e env objs 0 0 task).task] ∧
      env.ReportTask n (gcObjectLoop e env objs 0 0 task).task = some .ErrCanceledTask) ∧
    (HandleGCObjectTask e env task).2 =
      GCEff.listDeletedObjects task.StartBlockNumber task.EndBlockNumber ::
        ((gcObjectLoop e env objs 0 0 task).effs ++
          [GCEff.reportTask ((gcObjectLoop e env objs 0 0 task).task.SetError none)]) ∧
    afterCanceledReport env 0 (HandleGCObjectTask e env task).2 =
      some ((gcObjectLoop e env objs 0 0 task).task,
        [GCEff.reportTask ((gcObjectLoop e env objs 0 0 task).task.SetError none)]) ∧
    (HandleGCObjectTask e env task).1 = (gcObjectLoop e env objs 0 0 task).task.SetError none ∧
    (HandleGCObjectTask e env task).1.CurrentBlockNumber =
      (gcObjectLoop e env objs 0 0 task).task.CurrentBlockNumber ∧
    (HandleGCObjectTask e env task).1.LastDeletedObjectId =
      (gcObjectLoop e env objs 0 0 task).task.LastDeletedObjectId ∧
    (HandleGCObjectTask e env task).1.Err = none := by
  have hne : ¬ objs.length = 0 := by
    intro h0
    have : objs = [] := List.length_eq_zero.mp h0
    subst this
    simp [gcObjectLoop] at hcancel
  have hrun : HandleGCObjectTask e env task =
      ((gcObjectLoop e env objs 0 0 task).task.SetError none,
        GCEff.listDeletedObjects task.StartBlockNumber task.EndBlockNumber ::
          ((gcObjectLoop e env objs 0 0 task).effs ++
            [GCEff.reportTask ((gcObjectLoop e env objs 0 0 task).task.SetError none)])) := by
    unfold HandleGCObjectTask
    simp only [hlist, hguard, if_false, hne, hcancel, gcObjectDeferred]
    simp
  have hscan := gcObjectLoop_afterCanceledReport e env objs 0 0 task
    [GCEff.reportTask ((gcObjectLoop e env objs 0 0 task).task.SetError none)]
  rw [if_pos hcancel] at hscan
  refine ⟨gcObjectLoop_canceled e env objs 0 0 task hcancel, ?_, ?_, ?_, ?_, ?_, ?_⟩
  · rw [hrun]
  · rw [hrun]
    simp only [afterCanceledReport]
    exact hscan
  · rw [hrun]
  · rw [hrun]; rfl
  · rw [hrun]; rfl
  · rw [hrun]; rfl

/-- C11 (amended) with the second report answered with `Canceled`: object 1 is
collected, the report for object 2 (deleted at block 160) is cancelled, and
the only call after it is the report of the same progress with the error
cleared, which is the state the task ends in. -/
theorem HandleGCObjectTask_after_canceled_witness :
    (gcObjectLoop executorE2 gcEnvCanceledSecond [gcObjectA, gcObjectB] 0 0 gcTaskE4).task =
      (gcTaskE4.SetCurrentBlockNumber 160).SetLastDeletedObjectId 2 ∧
    afterCanceledReport gcEnvCanceledSecond 0
        (HandleGCObjectTask executorE2 gcEnvCanceledSecond gcTaskE4).2 =
      some ((gcObjectLoop executorE2 gcEnvCanceledSecond [gcObjectA, gcObjectB] 0 0
          gcTaskE4).task,
        [GCEff.reportTask ((gcObjectLoop executorE2 gcEnvCanceledSecond
          [gcObjectA, gcObjectB] 0 0 gcTaskE4).task.SetError none)]) ∧
    (HandleGCObjectTask executorE2 gcEnvCanceledSecond gcTaskE4).1 =
      (gcObjectLoop executorE2 gcEnvCanceledSecond [gcObjectA, gcObjectB] 0 0
        gcTaskE4).task.SetError none :=
  have h := HandleGCObjectTask_after_canceled executorE2 gcEnvCanceledSecond gcTaskE4
    [gcObjectA, gcObjectB] 199 rfl (by decide) (by decide)
  ⟨by decide, h.2.2.1, h.2.2.2.1⟩

theorem mem_requestedPieceKeys (effs : List GCEff) (k : PieceKey) :
    k ∈ requestedPieceKeys effs ↔ ∃ err, GCEff.deletePiece k err ∈ effs := by
  unfold requestedPieceKeys
  rw [List.mem_filterMap]
  constructor
  · rintro ⟨eff, heff, hk⟩
    cases eff <;> simp at hk
    subst hk
    exact ⟨_, heff⟩
  · rintro ⟨err, heff⟩
    exact ⟨_, heff, rfl⟩

theorem mem_gcDeleteObject_deletePiece (e : ExecuteModular) (env : GCEnv)
    (objectInfo : ObjectInfo) (segmentCount : Nat) (k : PieceKey) (err : Option GfSpError) :
    GCEff.deletePiece k err ∈ gcDeleteObject e env objectInfo segmentCount ↔
      err = env.DeletePiece k ∧
      ((∃ s, s < segmentCount ∧ k = SegmentPieceKey objectInfo.Id s) ∨
       (∃ r s, objectInfo.SecondarySpAddresses[r]? = some e.OperatorAddress ∧ s < segmentCount ∧
          k = (if objectInfo.RedundancyType = .REDUNDANCY_REPLICA_TYPE then
                 SegmentPieceKey objectInfo.Id s
               else ECPieceKey objectInfo.Id s r))) := by
  simp only [gcDeleteObject, List.mem_append, List.mem_map, List.mem_flatMap, List.mem_range,
    List.mem_singleton, reduceCtorEq, or_false, Prod.exists, List.mk_mem_enum_iff_getElem?]
  constructor
  · rintro (⟨s, hs, h⟩ | ⟨r, address, hr, h⟩)
    · simp only [GCEff.deletePiece.injEq] at h
      exact ⟨by rw [← h.1, h.2], Or.inl ⟨s, hs, h.1.symm⟩⟩
    · split at h
      · rename_i haddr
        simp only [List.mem_map, List.mem_range, GCEff.deletePiece.injEq] at h
        obtain ⟨s, hs, h1, h2⟩ := h
        exact ⟨by rw [← h1, h2], Or.inr ⟨r, s, by rw [haddr]; exact hr, hs, h1.symm⟩⟩
      · simp at h
  · rintro ⟨herr, ⟨s, hs, hk⟩ | ⟨r, s, hr, hs, hk⟩⟩
    · exact Or.inl ⟨s, hs, by rw [herr, hk]⟩
    · refine Or.inr ⟨r, e.OperatorAddress, hr, ?_⟩
      simp only [if_true, List.mem_map, List.mem_range]
      exact ⟨s, hs, by rw [herr, hk]⟩

theorem SegmentPieceCount_ceil (payloadSize maxSegmentSize : Nat) (h : 0 < maxSegmentSize) :
    payloadSize ≤ SegmentPieceCount payloadSize maxSegmentSize * maxSegmentSize ∧
    SegmentPieceCount payloadSize maxSegmentSize * maxSegmentSize
      < payloadSize + maxSegmentSize := by
  unfold SegmentPieceCount
  have h1 := Nat.div_add_mod (payloadSize + maxSegmentSize - 1) maxSegmentSize
  have h2 := Nat.mod_lt (payloadSize + maxSegmentSize - 1) h
  have h3 : maxSegmentSize * ((payloadSize + maxSegmentSize - 1) / maxSegmentSize)
      = (payloadSize + maxSegmentSize - 1) / maxSegmentSize * maxSegmentSize := Nat.mul_comm _ _
  constructor <;> omega

/-- Every piece deletion of the loop belongs to the deletions of a listed,
non-skipped object, computed with storage params the chain returned for the
object's `CreateAt`. -/
theorem gcObjectLoop_deletePiece (e : ExecuteModular) (env : GCEnv) (objs : List Object) :
    ∀ (queries reports : Nat) (task : GCObjectTask) (k : PieceKey) (err : Option GfSpError),
    GCEff.deletePiece k err ∈ (gcObjectLoop e env objs queries reports task).effs →
    ∃ o ∈ objs, ∃ i p, env.QueryStorageParamsByTimestamp i o.ObjectInfo.CreateAt = .ok p ∧
      GCEff.deletePiece k err ∈ gcDeleteObject e env o.ObjectInfo
        (SegmentPieceCount o.ObjectInfo.PayloadSize p.MaxSegmentSize) := by
  induction objs with
  | nil => intro queries reports task k err h; simp [gcObjectLoop] at h
  | cons object rest ih =>
    intro queries reports task k err h
    have hrest : ∀ q n t, GCEff.deletePiece k err ∈ (gcObjectLoop e env rest q n t).effs →
        ∃ o ∈ object :: rest, ∃ i p,
          env.QueryStorageParamsByTimestamp i o.ObjectInfo.CreateAt = .ok p ∧
          GCEff.deletePiece k err ∈ gcDeleteObject e env o.ObjectInfo
            (SegmentPieceCount o.ObjectInfo.PayloadSize p.MaxSegmentSize) := by
      intro q n t ht
      obtain ⟨o, ho, i, p, h1, h2⟩ := ih q n t k err ht
      exact ⟨o, List.mem_cons_of_mem _ ho, i, p, h1, h2⟩
    unfold gcObjectLoop at h
    cases hq : env.QueryStorageParamsByTimestamp queries object.ObjectInfo.CreateAt with
    | error e1 => simp [hq] at h
    | ok storageParams =>
      simp only [hq] at h
      split at h
      · simp only [List.mem_cons, reduceCtorEq, false_or] at h
        exact hrest _ _ _ h
      · split at h
        · simp only [List.mem_cons, List.mem_append, List.mem_singleton, reduceCtorEq, false_or,
            or_false, List.not_mem_nil] at h
          exact ⟨object, List.mem_cons_self _ _, queries, storageParams, hq, h⟩
        · simp only [List.mem_cons, List.mem_append, List.mem_singleton, reduceCtorEq, false_or,
            or_false, List.cons_append, List.not_mem_nil] at h
          rcases h with h | h
          · exact ⟨object, List.mem_cons_self _ _, queries, storageParams, hq, h⟩
          · exact hrest _ _ _ h

theorem gcObjectDeferred_deletePiece (task : GCObjectTask) (err : Option GfSpError)
    (succeeded : Bool) (k : PieceKey) (derr : Option GfSpError) :
    GCEff.deletePiece k derr ∉ (gcObjectDeferred task err succeeded).2 := by
  intro h
  have := gcObjectDeferred_deletions task err succeeded _ h
  simp [GCEff.deletedObject] at this

theorem HandleGCObjectTask_deletePiece (e : ExecuteModular) (env : GCEnv) (task : GCObjectTask)
    (objs : List Object) (responseEndBlockID : Nat)
    (hlist : env.ListDeletedObjectsByBlockNumberRange task.StartBlockNumber task.EndBlockNumber
      = .ok (objs, responseEndBlockID)) (k : PieceKey) (err : Option GfSpError)
    (h : GCEff.deletePiece k err ∈ (HandleGCObjectTask e env task).2) :
    ∃ o ∈ objs, ∃ i p, env.QueryStorageParamsByTimestamp i o.ObjectInfo.CreateAt = .ok p ∧
      GCEff.deletePiece k err ∈ gcDeleteObject e env o.ObjectInfo
        (SegmentPieceCount o.ObjectInfo.PayloadSize p.MaxSegmentSize) := by
  have hloop := gcObjectLoop_deletePiece e env objs 0 0 task k err
  have hdef := fun t er b => gcObjectDeferred_deletePiece t er b k err
  unfold HandleGCObjectTask at h
  simp only [hlist] at h
  split at h
  · simp only [List.mem_cons, reduceCtorEq, false_or] at h
    exact absurd h (hdef _ _ _)
  · split at h
    · simp only [List.mem_cons, reduceCtorEq, false_or] at h
      exact absurd h (hdef _ _ _)
    · split at h <;>
        simp only [List.mem_cons, List.mem_append, reduceCtorEq, false_or] at h <;>
        rcases h with h | h <;>
        first
          | exact hloop h
          | exact absurd h (hdef _ _ _)

/-- The loop requests every deletion of a listed object it reaches and does not
skip: the object at position `i`, when the storage-params queries of the
objects before it and its own succeed, no earlier report is answered with
`Canceled`, and its `DeleteAt` is below neither the task's
`CurrentBlockNumber` at loop entry nor the `DeleteAt` of an earlier object. -/
theorem gcObjectLoop_collects (e : ExecuteModular) (env : GCEnv) (objs : List Object) :
    ∀ (queries reports : Nat) (task : GCObjectTask) (i : Nat) (o : Object) (p : Params),
    objs[i]? = some o →
    (∀ j oj, j < i → objs[j]? = some oj →
      (∃ pj, env.QueryStorageParamsByTimestamp (queries + j) oj.ObjectInfo.CreateAt = .ok pj) ∧
      uint64OfInt64 oj.DeleteAt ≤ uint64OfInt64 o.DeleteAt) →
    (∀ n t, reports ≤ n → n < reports + i → env.ReportTask n t ≠ some .ErrCanceledTask) →
    env.QueryStorageParamsByTimestamp (queries + i) o.ObjectInfo.CreateAt = .ok p →
    task.CurrentBlockNumber ≤ uint64OfInt64 o.DeleteAt →
    ∀ eff ∈ gcDeleteObject e env o.ObjectInfo
        (SegmentPieceCount o.ObjectInfo.PayloadSize p.MaxSegmentSize),
      eff ∈ (gcObjectLoop e env objs queries reports task).effs := by
  induction objs with
  | nil => intro queries reports task i o p h; simp at h
  | cons object rest ih =>
    intro queries reports task i o p hi hprev hrep hq hcur eff heff
    cases i with
    | zero =>
      simp only [List.getElem?_cons_zero, Option.some.injEq] at hi
      subst hi
      simp only [Nat.add_zero] at hq
      have hns : ¬ uint64OfInt64 object.DeleteAt < task.CurrentBlockNumber := by omega
      unfold gcObjectLoop
      simp only [hq, hns, if_false]
      split
      · simp only [List.mem_cons, List.mem_append]
        exact Or.inr (Or.inl heff)
      · simp only [List.cons_append, List.mem_cons, List.mem_append]
        exact Or.inr (Or.inl (Or.inl heff))
    | succ i =>
      simp only [List.getElem?_cons_succ] at hi
      obtain ⟨⟨p0, hq0⟩, hle0⟩ := hprev 0 object (Nat.succ_pos _) (by simp)
      simp only [Nat.add_zero] at hq0
      have hprev1 : ∀ j oj, j < i → rest[j]? = some oj →
          (∃ pj, env.QueryStorageParamsByTimestamp (queries + 1 + j) oj.ObjectInfo.CreateAt
            = .ok pj) ∧
          uint64OfInt64 oj.DeleteAt ≤ uint64OfInt64 o.DeleteAt := by
        intro j oj hj hoj
        have := hprev (j + 1) oj (by omega) (by simpa using hoj)
        have hidx : queries + 1 + j = queries + (j + 1) := by omega
        rw [hidx]
        exact this
      have hq1 : env.QueryStorageParamsByTimestamp (queries + 1 + i) o.ObjectInfo.CreateAt
          = .ok p := by
        have hidx : queries + 1 + i = queries + (i + 1) := by omega
        rw [hidx]
        exact hq
      unfold gcObjectLoop
      simp only [hq0]
      split
      · have := ih (queries + 1) reports task i o p hi hprev1
          (fun n t h1 h2 => hrep n t h1 (by omega)) hq1 hcur eff heff
        exact List.mem_cons_of_mem _ this
      · have hnc := hrep reports
          ((task.SetCurrentBlockNumber (uint64OfInt64 object.DeleteAt)).SetLastDeletedObjectId
            object.ObjectInfo.Id) (le_refl _) (by omega)
        rw [if_neg hnc]
        have := ih (queries + 1) (reports + 1)
          ((task.SetCurrentBlockNumber (uint64OfInt64 object.DeleteAt)).SetLastDeletedObjectId
            object.ObjectInfo.Id) i o p hi hprev1
          (fun n t h1 h2 => hrep n t (by omega) (by omega)) hq1 hle0 eff heff
        exact List.mem_append_right _ this

/-- The handler's trace contains the calls of its loop once the list query
succeeded, the metadata is current and the list is not empty. -/
theorem HandleGCObjectTask_loop_effs (e : ExecuteModular) (env : GCEnv) (task : GCObjectTask)
    (objs : List Object) (responseEndBlockID : Nat)
    (hlist : env.ListDeletedObjectsByBlockNumberRange task.StartBlockNumber task.EndBlockNumber
      = .ok (objs, responseEndBlockID))
    (hguard : ¬ (responseEndBlockID < task.StartBlockNumber ∨
      responseEndBlockID < task.EndBlockNumber))
    (hne : objs ≠ []) :
    ∀ eff ∈ (gcObjectLoop e env objs 0 0 task).effs, eff ∈ (HandleGCObjectTask e env task).2 := by
  intro eff heff
  have hlen : ¬ objs.length = 0 := fun h => hne (List.length_eq_zero.mp h)
  unfold HandleGCObjectTask
  simp only [hlist, hguard, if_false, hlen]
  cases (gcObjectLoop e env objs 0 0 task).exit <;>
    exact List.mem_cons_of_mem _ (List.mem_append_left _ heff)

/-- C12: when the loop of `HandleGCObjectTask` reaches a listed object that is
not skipped, it resolves the storage params at the object's `CreateAt`, takes
`segmentCount = SegmentPieceCount(PayloadSize, MaxSegmentSize)` and requests
the deletions `gcDeleteObject` lists before reporting. The piece keys among
them are exactly `SegmentPieceKey(objID, s)` for `s < segmentCount` and, for
every replicate index `r` whose secondary address is the own operator
address, `ECPieceKey(objID, s, r)` under EC redundancy or
`SegmentPieceKey(objID, s)` under replica redundancy, for `s < segmentCount`.
`segmentCount` is the ceiling of `PayloadSize / MaxSegmentSize`. For the
handler both directions hold. It requests no piece deletion other than
those of listed objects. And it requests every one of these keys for every
listed object it reaches and does not skip: the object at position `i` of
the list, when the metadata is current, the storage-params queries of the
objects before it and its own succeed, no earlier report is answered with
`Canceled`, and its `DeleteAt` is below neither the task's
`CurrentBlockNumber` nor the `DeleteAt` of an earlier listed object (which
is when the skip test `DeleteAt < CurrentBlockNumber` fails). -/
theorem HandleGCObjectTask_piece_keys (e : ExecuteModular) (env : GCEnv) :
    (∀ (object : Object) (rest : List Object) (queries reports : Nat) (task : GCObjectTask)
        (p : Params),
      env.QueryStorageParamsByTimestamp queries object.ObjectInfo.CreateAt = .ok p →
      ¬ uint64OfInt64 object.DeleteAt < task.CurrentBlockNumber →
      ∃ tail, (gcObjectLoop e env (object :: rest) queries reports task).effs =
        GCEff.queryStorageParams object.ObjectInfo.CreateAt ::
          (gcDeleteObject e env object.ObjectInfo
              (SegmentPieceCount object.ObjectInfo.PayloadSize p.MaxSegmentSize) ++
            GCEff.reportTask ((task.SetCurrentBlockNumber
              (uint64OfInt64 object.DeleteAt)).SetLastDeletedObjectId object.ObjectInfo.Id)
              :: tail)) ∧
    (∀ (objectInfo : ObjectInfo) (segmentCount : Nat) (k : PieceKey),
      k ∈ requestedPieceKeys (gcDeleteObject e env objectInfo segmentCount) ↔
        ((∃ s, s < segmentCount ∧ k = SegmentPieceKey objectInfo.Id s) ∨
         (∃ r s, objectInfo.SecondarySpAddresses[r]? = some e.OperatorAddress ∧
            s < segmentCount ∧
            k = (if objectInfo.RedundancyType = .REDUNDANCY_EC_TYPE then
                   ECPieceKey objectInfo.Id s r
                 else SegmentPieceKey objectInfo.Id s)))) ∧
    (∀ payloadSize maxSegmentSize : Nat, 0 < maxSegmentSize →
      payloadSize ≤ SegmentPieceCount payloadSize maxSegmentSize * maxSegmentSize ∧
      SegmentPieceCount payloadSize maxSegmentSize * maxSegmentSize
        < payloadSize + maxSegmentSize) ∧
    (∀ (task : GCObjectTask) (objs : List Object) (responseEndBlockID : Nat),
      env.ListDeletedObjectsByBlockNumberRange task.StartBlockNumber task.EndBlockNumber
        = .ok (objs, responseEndBlockID) →
      ∀ k ∈ requestedPieceKeys (HandleGCObjectTask e env task).2,
        ∃ o ∈ objs, ∃ i p, env.QueryStorageParamsByTimestamp i o.ObjectInfo.CreateAt = .ok p ∧
          k ∈ requestedPieceKeys (gcDeleteObject e env o.ObjectInfo
            (SegmentPieceCount o.ObjectInfo.PayloadSize p.MaxSegmentSize))) ∧
    (∀ (task : GCObjectTask) (objs : List Object) (responseEndBlockID i : Nat) (o : Object)
        (p : Params),
      env.ListDeletedObjectsByBlockNumberRange task.StartBlockNumber task.EndBlockNumber
        = .ok (objs, responseEndBlockID) →
      ¬ (responseEndBlockID < task.StartBlockNumber ∨
        responseEndBlockID < task.EndBlockNumber) →
      objs[i]? = some o →
      (∀ j oj, j < i → objs[j]? = some oj →
        (∃ pj, env.QueryStorageParamsByTimestamp j oj.ObjectInfo.CreateAt = .ok pj) ∧
        uint64OfInt64 oj.DeleteAt ≤ uint64OfInt64 o.DeleteAt) →
      (∀ n t, n < i → env.ReportTask n t ≠ some .ErrCanceledTask) →
      env.QueryStorageParamsByTimestamp i o.ObjectInfo.CreateAt = .ok p →
      task.CurrentBlockNumber ≤ uint64OfInt64 o.DeleteAt →
      ∀ k,
        ((∃ s, s < SegmentPieceCount o.ObjectInfo.PayloadSize p.MaxSegmentSize ∧
            k = SegmentPieceKey o.ObjectInfo.Id s) ∨
         (∃ r s, o.ObjectInfo.SecondarySpAddresses[r]? = some e.OperatorAddress ∧
            s < SegmentPieceCount o.ObjectInfo.PayloadSize p.MaxSegmentSize ∧
            k = (if o.ObjectInfo.RedundancyType = .REDUNDANCY_EC_TYPE then
                   ECPieceKey o.ObjectInfo.Id s r
                 else SegmentPieceKey o.ObjectInfo.Id s))) →
        k ∈ requestedPieceKeys (HandleGCObjectTask e env task).2) := by
  have hkeys : ∀ (objectInfo : ObjectInfo) (segmentCount : Nat) (k : PieceKey),
      k ∈ requestedPieceKeys (gcDeleteObject e env objectInfo segmentCount) ↔
        ((∃ s, s < segmentCount ∧ k = SegmentPieceKey objectInfo.Id s) ∨
         (∃ r s, objectInfo.SecondarySpAddresses[r]? = some e.OperatorAddress ∧
            s < segmentCount ∧
            k = (if objectInfo.RedundancyType = .REDUNDANCY_EC_TYPE then
                   ECPieceKey objectInfo.Id s r
                 else SegmentPieceKey objectInfo.Id s))) := by
    intro objectInfo segmentCount k
    rw [mem_requestedPieceKeys]
    constructor
    · rintro ⟨err, h⟩
      rcases ((mem_gcDeleteObject_deletePiece e env objectInfo segmentCount k err).mp h).2 with
        h1 | ⟨r, s, hr, hs, hk⟩
      · exact Or.inl h1
      · refine Or.inr ⟨r, s, hr, hs, ?_⟩
        rw [hk]
        cases objectInfo.RedundancyType <;> simp
    · intro h
      refine ⟨env.DeletePiece k,
        (mem_gcDeleteObject_deletePiece e env objectInfo segmentCount k _).mpr ⟨rfl, ?_⟩⟩
      rcases h with h1 | ⟨r, s, hr, hs, hk⟩
      · exact Or.inl h1
      · refine Or.inr ⟨r, s, hr, hs, ?_⟩
        rw [hk]
        cases objectInfo.RedundancyType <;> simp
  refine ⟨?_, hkeys, SegmentPieceCount_ceil, ?_, ?_⟩
  · intro object rest queries reports task p hq hns
    unfold gcObjectLoop
    simp only [hq, hns, if_false]
    split
    · exact ⟨[], by simp⟩
    · exact ⟨(gcObjectLoop e env rest (queries + 1) (reports + 1)
        ((task.SetCurrentBlockNumber (uint64OfInt64 object.DeleteAt)).SetLastDeletedObjectId
          object.ObjectInfo.Id)).effs, by simp⟩
  · intro task objs responseEndBlockID hlist k hk
    obtain ⟨err, herr⟩ := (mem_requestedPieceKeys _ k).mp hk
    obtain ⟨o, ho, i, p, h1, h2⟩ :=
      HandleGCObjectTask_deletePiece e env task objs responseEndBlockID hlist k err herr
    exact ⟨o, ho, i, p, h1, (mem_requestedPieceKeys _ k).mpr ⟨err, h2⟩⟩
  · intro task objs responseEndBlockID i o p hlist hguard hi hprev hrep hq hcur k hk
    have hne : objs ≠ [] := by
      rintro rfl
      simp at hi
    obtain ⟨err, herr⟩ := (mem_requestedPieceKeys _ k).mp
      ((hkeys o.ObjectInfo (SegmentPieceCount o.ObjectInfo.PayloadSize p.MaxSegmentSize) k).mpr
        hk)
    have hloop := gcObjectLoop_collects e env objs 0 0 task i o p hi
      (fun j oj hj hoj => by simpa using hprev j oj hj hoj)
      (fun n t _ hn => hrep n t (by omega)) (by simpa using hq) hcur _ herr
    exact (mem_requestedPieceKeys _ k).mpr
      ⟨err, HandleGCObjectTask_loop_effs e env task objs responseEndBlockID hlist hguard hne
        _ hloop⟩

/-- C12 at scenario E4 (segments of 16 bytes, own operator `sp0`): object 1
has 20 bytes and lists `sp0` as secondary 1, object 2 has 5 bytes and does
not list it. The handler requests the two segment pieces and the two EC
pieces at replicate index 1 of object 1, and the one segment piece of
object 2. -/
theorem HandleGCObjectTask_piece_keys_witness :
    requestedPieceKeys (gcDeleteObject executorE2 gcEnvE4 gcObjectA.ObjectInfo
        (SegmentPieceCount gcObjectA.ObjectInfo.PayloadSize paramsE4.MaxSegmentSize))
      = [SegmentPieceKey 1 0, SegmentPieceKey 1 1, ECPieceKey 1 0 1, ECPieceKey 1 1 1] ∧
    requestedPieceKeys (HandleGCObjectTask executorE2 gcEnvE4 gcTaskE4).2
      = [SegmentPieceKey 1 0, SegmentPieceKey 1 1, ECPieceKey 1 0 1, ECPieceKey 1 1 1,
         SegmentPieceKey 2 0] ∧
    ECPieceKey 1 1 1 ∈ requestedPieceKeys (gcDeleteObject executorE2 gcEnvE4
        gcObjectA.ObjectInfo 2) ∧
    SegmentPieceKey 2 0 ∈ requestedPieceKeys (HandleGCObjectTask executorE2 gcEnvE4 gcTaskE4).2 :=
  ⟨by decide, by decide,
   ((HandleGCObjectTask_piece_keys executorE2 gcEnvE4).2.1 gcObjectA.ObjectInfo 2
      (ECPieceKey 1 1 1)).mpr (Or.inr ⟨1, 1, rfl, by decide, rfl⟩),
   (HandleGCObjectTask_piece_keys executorE2 gcEnvE4).2.2.2.2 gcTaskE4 [gcObjectA, gcObjectB]
      199 1 gcObjectB paramsE4 rfl (by decide) rfl
      (by
        intro j oj hj hoj
        have hj0 : j = 0 := by omega
        subst hj0
        simp only [List.getElem?_cons_zero, Option.some.injEq] at hoj
        subst hoj
        exact ⟨⟨paramsE4, rfl⟩, by decide⟩)
      (fun _ _ _ => by simp [gcEnvE4]) rfl (by decide) (SegmentPieceKey 2 0)
      (Or.inl ⟨0, by decide, rfl⟩)⟩

theorem gcDeleteObject_request (e : ExecuteModular) (env1 env2 : GCEnv) (objectInfo : ObjectInfo)
    (segmentCount : Nat) :
    (gcDeleteObject e env1 objectInfo segmentCount).map GCEff.request =
      (gcDeleteObject e env2 objectInfo segmentCount).map GCEff.request := by
  simp only [gcDeleteObject, List.map_append, List.map_map, List.map_flatMap, List.map_cons,
    List.map_nil, GCEff.request]
  congr 1
  congr 1
  congr 1
  funext ⟨rIdx, address⟩
  split
  · simp only [List.map_map]
    rfl
  · rfl

theorem gcObjectLoop_request (e : ExecuteModular) (env1 env2 : GCEnv)
    (hq : env1.QueryStorageParamsByTimestamp = env2.QueryStorageParamsByTimestamp)
    (hr : env1.ReportTask = env2.ReportTask) (objs : List Object) :
    ∀ (queries reports : Nat) (task : GCObjectTask),
    (gcObjectLoop e env1 objs queries reports task).exit
      = (gcObjectLoop e env2 objs queries reports task).exit ∧
    (gcObjectLoop e env1 objs queries reports task).task
      = (gcObjectLoop e env2 objs queries reports task).task ∧
    (gcObjectLoop e env1 objs queries reports task).effs.map GCEff.request
      = (gcObjectLoop e env2 objs queries reports task).effs.map GCEff.request := by
  induction objs with
  | nil => intro queries reports task; simp [gcObjectLoop]
  | cons object rest ih =>
    intro queries reports task
    unfold gcObjectLoop
    rw [← hq, ← hr]
    cases env1.QueryStorageParamsByTimestamp queries object.ObjectInfo.CreateAt with
    | error err => simp
    | ok storageParams =>
      simp only
      split
      · obtain ⟨h1, h2, h3⟩ := ih (queries + 1) reports task
        exact ⟨h1, h2, by simp [h3]⟩
      · split
        · refine ⟨rfl, rfl, ?_⟩
          simp only [List.map_cons, List.map_append, List.map_nil]
          rw [gcDeleteObject_request e env1 env2]
        · obtain ⟨h1, h2, h3⟩ := ih (queries + 1) (reports + 1)
            ((task.SetCurrentBlockNumber (uint64OfInt64 object.DeleteAt)).SetLastDeletedObjectId
              object.ObjectInfo.Id)
          refine ⟨h1, h2, ?_⟩
          simp only [List.map_cons, List.map_append, List.map_nil, List.cons_append]
          rw [gcDeleteObject_request e env1 env2, h3]

/-- C13: two runs of `HandleGCObjectTask` on the same task whose collaborators
give the same deleted-object list, storage params and report results, and
differ only in what `DeletePiece` and `DeleteObjectIntegrity` return, end with
the same task (so the same `CurrentBlockNumber`, `LastDeletedObjectID` and
error) and make the same calls, deletion requests included: a failed delete
neither stops nor fails the task. -/
theorem HandleGCObjectTask_delete_errors_ignored (e : ExecuteModular) (env1 env2 : GCEnv)
    (task : GCObjectTask)
    (hlist : env1.ListDeletedObjectsByBlockNumberRange
      = env2.ListDeletedObjectsByBlockNumberRange)
    (hq : env1.QueryStorageParamsByTimestamp = env2.QueryStorageParamsByTimestamp)
    (hr : env1.ReportTask = env2.ReportTask) :
    (HandleGCObjectTask e env1 task).1 = (HandleGCObjectTask e env2 task).1 ∧
    (HandleGCObjectTask e env1 task).2.map GCEff.request
      = (HandleGCObjectTask e env2 task).2.map GCEff.request := by
  unfold HandleGCObjectTask
  rw [← hlist]
  cases env1.ListDeletedObjectsByBlockNumberRange task.StartBlockNumber task.EndBlockNumber with
  | error err => exact ⟨rfl, rfl⟩
  | ok listed =>
    obtain ⟨objs, responseEndBlockID⟩ := listed
    simp only
    split
    · exact ⟨rfl, rfl⟩
    · split
      · exact ⟨rfl, rfl⟩
      · obtain ⟨h1, h2, h3⟩ := gcObjectLoop_request e env1 env2 hq hr objs 0 0 task
        rw [← h1, ← h2]
        cases (gcObjectLoop e env1 objs 0 0 task).exit <;>
          simp only [List.map_cons, List.map_append, h3, and_self]

/-- C13 at scenario E4, once with every deletion succeeding and once with every
deletion failing: both runs end at block 200 with last deleted object 2 and
no error. -/
theorem HandleGCObjectTask_delete_errors_ignored_witness :
    ((HandleGCObjectTask executorE2 gcEnvE4 gcTaskE4).1
        = (HandleGCObjectTask executorE2 gcEnvDeleteFails gcTaskE4).1 ∧
      (HandleGCObjectTask executorE2 gcEnvE4 gcTaskE4).2.map GCEff.request
        = (HandleGCObjectTask executorE2 gcEnvDeleteFails gcTaskE4).2.map GCEff.request) ∧
    (HandleGCObjectTask executorE2 gcEnvDeleteFails gcTaskE4).1.CurrentBlockNumber = 200 ∧
    (HandleGCObjectTask executorE2 gcEnvDeleteFails gcTaskE4).1.LastDeletedObjectId = 2 ∧
    (HandleGCObjectTask executorE2 gcEnvDeleteFails gcTaskE4).1.Err = none :=
  ⟨HandleGCObjectTask_delete_errors_ignored executorE2 gcEnvE4 gcEnvDeleteFails gcTaskE4
      rfl rfl rfl, by decide, by decide, by decide⟩

/-! ### Executor: confirming a received piece -/

/-- C14 (evaluation at the failing input): an EC object of 40 bytes with
segments of 16 bytes has `ceil(40 / 16) = 3` segments. On the secondary
mismatch at replicate index 2 the handler sets `SecondaryMismatch` and deletes
the integrity meta, but it counts the segments with `MaxPayloadSize` (1000)
instead of the segment size, finds one, and requests the deletion of
`ECPieceKey(7, 0, 2)` only; the EC pieces of segments 1 and 2 stay. -/
theorem HandleReceivePieceTask_mismatch_deletes_one_segment :
    SegmentPieceCount objectE3.PayloadSize paramsE4.MaxSegmentSize = 3 ∧
    (HandleReceivePieceTask executorE2 receiveEnvE3 receiveTaskE3).task.Err
      = some GfSpError.ErrSecondaryMismatch ∧
    ReceiveEff.deleteObjectIntegrity 7 none
      ∈ (HandleReceivePieceTask executorE2 receiveEnvE3 receiveTaskE3).effs ∧
    receiveDeletedPieceKeys (HandleReceivePieceTask executorE2 receiveEnvE3 receiveTaskE3).effs
      = [ECPieceKey 7 0 2] ∧
    ECPieceKey 7 1 2 ∉ receiveDeletedPieceKeys
      (HandleReceivePieceTask executorE2 receiveEnvE3 receiveTaskE3).effs ∧
    ECPieceKey 7 2 2 ∉ receiveDeletedPieceKeys
      (HandleReceivePieceTask executorE2 receiveEnvE3 receiveTaskE3).effs := by
  decide

/-- C15: for a receive task with non-nil object info, when the re-fetched
on-chain object is `SEALED` the task ends with `Sealed = true`, whether the
own operator is the listed secondary or not and also when `ReplicateIdx` is
out of bounds of the secondary list, in which case the error is
`ReplicateIdsOutOfBounds`; when the re-fetched object is not `SEALED` the task
error is `Unsealed`. No run of the handler indexes the secondary list out of
range. -/
theorem HandleReceivePieceTask_sealed (e : ExecuteModular) (env : ReceiveEnv)
    (task : ReceivePieceTask) (objectInfo : ObjectInfo)
    (hobj : task.ObjectInfo = some objectInfo) :
    (HandleReceivePieceTask e env task).indexOutOfRange = false ∧
    (∀ onChainObject,
      env.QueryObjectInfo objectInfo.BucketName objectInfo.ObjectName = .ok onChainObject →
      (onChainObject.ObjectStatus = .OBJECT_STATUS_SEALED →
        (HandleReceivePieceTask e env task).task.Sealed = true ∧
        (onChainObject.SecondarySpAddresses.length ≤ task.ReplicateIdx →
          (HandleReceivePieceTask e env task).task.Err = some .ErrReplicateIdsOutOfBounds)) ∧
      (onChainObject.ObjectStatus ≠ .OBJECT_STATUS_SEALED →
        (HandleReceivePieceTask e env task).task.Err = some .ErrUnsealed)) := by
  unfold HandleReceivePieceTask
  simp only [hobj]
  cases hq : env.QueryObjectInfo objectInfo.BucketName objectInfo.ObjectName with
  | error err => simp
  | ok onChainObject =>
    simp only [Except.ok.injEq, forall_eq']
    by_cases hs : onChainObject.ObjectStatus = .OBJECT_STATUS_SEALED
    · simp only [hs, ne_eq, not_true_eq_false, if_false, true_implies, false_implies, and_true]
      by_cases hb : task.ReplicateIdx ≥ onChainObject.SecondarySpAddresses.length
      · simp [hb, ReceivePieceTask.SetError, ReceivePieceTask.SetSealed]
      · have hlt : task.ReplicateIdx < onChainObject.SecondarySpAddresses.length := by omega
        simp only [hb, if_false, List.getElem?_eq_getElem hlt]
        have hnb : ¬ onChainObject.SecondarySpAddresses.length ≤ task.ReplicateIdx := by omega
        split <;> simp [hnb, ReceivePieceTask.SetError, ReceivePieceTask.SetSealed]
    · simp [hs, ReceivePieceTask.SetError]

/-- C15 for the sealed object of scenario E3 and a task with replicate index 5,
beyond its three secondaries: the task ends sealed with
`ReplicateIdsOutOfBounds`, and the list was not indexed out of range. -/
theorem HandleReceivePieceTask_sealed_witness :
    (HandleReceivePieceTask executorE2 receiveEnvE3 receiveTaskOutOfBounds).indexOutOfRange
      = false ∧
    (HandleReceivePieceTask executorE2 receiveEnvE3 receiveTaskOutOfBounds).task.Sealed = true ∧
    (HandleReceivePieceTask executorE2 receiveEnvE3 receiveTaskOutOfBounds).task.Err
      = some .ErrReplicateIdsOutOfBounds :=
  have h := HandleReceivePieceTask_sealed executorE2 receiveEnvE3 receiveTaskOutOfBounds
    { objectE3 with ObjectStatus := .OBJECT_STATUS_CREATED } rfl
  ⟨h.1, ((h.2 objectE3 rfl).1 rfl).1, ((h.2 objectE3 rfl).1 rfl).2 (by decide)⟩

/-! ### Executor: piece recovery -/

theorem getObjectPrimarySPEndpoint_head (env : RecoverEnv) (bucketName : String) :
    ∃ tl, (getObjectPrimarySPEndpoint env bucketName).2 = RecoverEff.listSPs :: tl := by
  unfold getObjectPrimarySPEndpoint
  split
  · exact ⟨_, rfl⟩
  · split
    · exact ⟨_, rfl⟩
    · split <;> exact ⟨_, rfl⟩

theorem getObjectSecondaryEndpoints_effs (env : RecoverEnv) (objectInfo : ObjectInfo) :
    (getObjectSecondaryEndpoints env objectInfo).2 = [RecoverEff.listSPs] := by
  unfold getObjectSecondaryEndpoints
  split <;> rfl

theorem recoverSecondarySP_head (env : RecoverEnv) (task : RecoveryPieceTask)
    (objectInfo : ObjectInfo) (ecIndex : Int) :
    (recoverSecondarySP env task objectInfo ecIndex).effs.head? = some .listSPs := by
  obtain ⟨tl, htl⟩ := getObjectPrimarySPEndpoint_head env objectInfo.BucketName
  unfold recoverSecondarySP
  simp only [htl]
  repeat' split
  all_goals simp

theorem recoverPrimarySP_head (env : RecoverEnv) (sched : FanOutSchedule)
    (task : RecoveryPieceTask) (objectInfo : ObjectInfo)
    (dataShards parityShards maxSegmentSize : Nat) :
    (recoverPrimarySP env sched task objectInfo dataShards parityShards maxSegmentSize).effs.head?
      = some .listSPs := by
  unfold recoverPrimarySP
  simp only [getObjectSecondaryEndpoints_effs]
  repeat' split
  all_goals simp

/-- While the shard counts sum to less than `2 ^ 31`, the `uint32` sum and its
conversion to `int32` are exact, and so is `maxRedundancyIndex`. -/
theorem maxRedundancyIndex_eq (dataShards parityShards : Nat)
    (h : dataShards + parityShards < 2 ^ 31) :
    wrapInt32 (int32OfUint32 (addUint32 dataShards parityShards) - 1) =
      (dataShards : Int) + parityShards - 1 := by
  have h1 : addUint32 dataShards parityShards = dataShards + parityShards :=
    Nat.mod_eq_of_lt (by omega)
  rw [h1]
  unfold int32OfUint32 wrapInt32
  push_cast
  omega

/-- C16 (counterexample): an EC recovery task whose storage params count
`2^32 - 1` data shards and 2 parity shards, with `EcIdx = 3`. The index lies
inside `[-1, dataShards + parityShards - 1]`, yet the handler fails the task
with `RecoveryPieceIndex`: the `uint32` sum `dataShards + parityShards` wraps
to 1, so `maxRedundancyIndex` is 0. -/
theorem HandleRecoverPieceTask_gate_wraps :
    recoverTaskWrap.ObjectInfo = some objectE5 ∧
    objectE5.RedundancyType = .REDUNDANCY_EC_TYPE ∧
    recoverTaskWrap.StorageParams = some paramsWrap ∧
    -1 ≤ recoverTaskWrap.EcIdx ∧
    recoverTaskWrap.EcIdx ≤
      (paramsWrap.RedundantDataChunkNum : Int) + paramsWrap.RedundantParityChunkNum - 1 ∧
    (HandleRecoverPieceTask recoverEnvShort schedFourDone recoverTaskWrap).task.Err
      = some .ErrRecoveryPieceIndex ∧
    (HandleRecoverPieceTask recoverEnvShort schedFourDone recoverTaskWrap).effs = [] := by
  refine ⟨rfl, rfl, rfl, by decide, by decide, by decide, by decide⟩

/-- C16 (amended): for a recovery task with non-nil object info and storage
params, a redundancy type other than EC fails the task with
`RecoveryRedundancyType`; under EC, when `dataShards + parityShards < 2^31`
(so that the `uint32` sum and its `int32` conversion are exact), an `EcIdx`
below `-1` or above `dataShards + parityShards - 1` fails it with
`RecoveryPieceIndex`; in both cases the handler returns without any call (no
peer request, no piece written) and does not set `RecoverDone`. Under EC and
the same bound, for every `EcIdx` in `[-1, dataShards + parityShards - 1]`
the handler passes both gates and goes on to resolve the endpoints
(`ListSPs`). -/
theorem HandleRecoverPieceTask_gates (env : RecoverEnv) (sched : FanOutSchedule)
    (task : RecoveryPieceTask) (objectInfo : ObjectInfo) (params : Params)
    (hobj : task.ObjectInfo = some objectInfo) (hparams : task.StorageParams = some params) :
    (objectInfo.RedundancyType ≠ .REDUNDANCY_EC_TYPE →
      (HandleRecoverPieceTask env sched task).task.Err = some .ErrRecoveryRedundancyType ∧
      (HandleRecoverPieceTask env sched task).effs = [] ∧
      (HandleRecoverPieceTask env sched task).task.Recovered = task.Recovered ∧
      (HandleRecoverPieceTask env sched task).outcome = .returned) ∧
    (objectInfo.RedundancyType = .REDUNDANCY_EC_TYPE →
      params.RedundantDataChunkNum + params.RedundantParityChunkNum < 2 ^ 31 →
      (task.EcIdx < -1 ∨
        task.EcIdx > (params.RedundantDataChunkNum : Int) + params.RedundantParityChunkNum - 1) →
      (HandleRecoverPieceTask env sched task).task.Err = some .ErrRecoveryPieceIndex ∧
      (HandleRecoverPieceTask env sched task).effs = [] ∧
      (HandleRecoverPieceTask env sched task).task.Recovered = task.Recovered ∧
      (HandleRecoverPieceTask env sched task).outcome = .returned) ∧
    (objectInfo.RedundancyType = .REDUNDANCY_EC_TYPE →
      params.RedundantDataChunkNum + params.RedundantParityChunkNum < 2 ^ 31 →
      -1 ≤ task.EcIdx →
      task.EcIdx ≤ (params.RedundantDataChunkNum : Int) + params.RedundantParityChunkNum - 1 →
      (HandleRecoverPieceTask env sched task).effs.head? = some .listSPs) := by
  have heq : HandleRecoverPieceTask env sched task = recoverDeferred
      (if objectInfo.RedundancyType ≠ .REDUNDANCY_EC_TYPE then
        recoverGate task .ErrRecoveryRedundancyType
      else if task.EcIdx < -1 ∨ task.EcIdx >
          wrapInt32 (int32OfUint32 (addUint32 params.RedundantDataChunkNum
            params.RedundantParityChunkNum) - 1) then
        recoverGate task .ErrRecoveryPieceIndex
      else if task.EcIdx ≥ 0 then recoverSecondarySP env task objectInfo task.EcIdx
      else recoverPrimarySP env sched task objectInfo params.RedundantDataChunkNum
        params.RedundantParityChunkNum params.MaxSegmentSize) := by
    simp only [HandleRecoverPieceTask, hobj, hparams]
  refine ⟨?_, ?_, ?_⟩
  · intro hrt
    rw [heq, if_pos hrt]
    simp [recoverDeferred, recoverGate, RecoveryPieceTask.SetError]
  · intro hrt hbound hidx
    have hgate : task.EcIdx < -1 ∨ task.EcIdx >
        wrapInt32 (int32OfUint32 (addUint32 params.RedundantDataChunkNum
          params.RedundantParityChunkNum) - 1) := by
      rw [maxRedundancyIndex_eq _ _ hbound]
      exact hidx
    rw [heq, if_neg (not_not.mpr hrt), if_pos hgate]
    simp [recoverDeferred, recoverGate, RecoveryPieceTask.SetError]
  · intro hrt hbound hlo hhi
    have hgate : ¬ (task.EcIdx < -1 ∨ task.EcIdx >
        wrapInt32 (int32OfUint32 (addUint32 params.RedundantDataChunkNum
          params.RedundantParityChunkNum) - 1)) := by
      rw [maxRedundancyIndex_eq _ _ hbound]
      omega
    rw [heq, if_neg (not_not.mpr hrt), if_neg hgate]
    show (if task.EcIdx ≥ 0 then recoverSecondarySP env task objectInfo task.EcIdx
      else recoverPrimarySP env sched task objectInfo params.RedundantDataChunkNum
        params.RedundantParityChunkNum params.MaxSegmentSize).effs.head? = some .listSPs
    split
    · exact recoverSecondarySP_head env task objectInfo _
    · exact recoverPrimarySP_head env sched task objectInfo _ _ _

/-- C16 (amended) on a task for a replica object, on an EC task with
`EcIdx = 6` for 4 + 2 shards and on the EC task with `EcIdx = -1`: the first
fails with `RecoveryRedundancyType`, the second with `RecoveryPieceIndex`,
both without any call, and the third goes on to `ListSPs`. -/
theorem HandleRecoverPieceTask_gates_witness :
    ((HandleRecoverPieceTask recoverEnvShort schedFourDone recoverTaskReplica).task.Err
        = some .ErrRecoveryRedundancyType ∧
      (HandleRecoverPieceTask recoverEnvShort schedFourDone recoverTaskReplica).effs = []) ∧
    ((HandleRecoverPieceTask recoverEnvShort schedFourDone recoverTaskBadIndex).task.Err
        = some .ErrRecoveryPieceIndex ∧
      (HandleRecoverPieceTask recoverEnvShort schedFourDone recoverTaskBadIndex).effs = []) ∧
    (HandleRecoverPieceTask recoverEnvShort schedFourDone recoverTaskPrimary).effs.head?
      = some .listSPs :=
  have h1 := (HandleRecoverPieceTask_gates recoverEnvShort schedFourDone recoverTaskReplica
    { objectE5 with RedundancyType := .REDUNDANCY_REPLICA_TYPE } paramsE4 rfl rfl).1 (by decide)
  have h2 := (HandleRecoverPieceTask_gates recoverEnvShort schedFourDone recoverTaskBadIndex
    objectE5 paramsE4 rfl rfl).2.1 rfl (by decide) (Or.inr (by decide))
  have h3 := (HandleRecoverPieceTask_gates recoverEnvShort schedFourDone recoverTaskPrimary
    objectE5 paramsE4 rfl rfl).2.2 rfl (by decide) (by decide) (by decide)
  ⟨⟨h1.1, h1.2.1⟩, ⟨h2.1, h2.2.1⟩, h3⟩

theorem fanOutLoop_ne_pieceLength (dataShards : Nat) (segmentSize : Int)
    (events : List FanOutEvent) : ∀ doneTaskNum, doneTaskNum < dataShards →
    fanOutLoop dataShards dataShards segmentSize events doneTaskNum ≠ .pieceLength := by
  induction events with
  | nil => intro doneTaskNum _; simp [fanOutLoop]
  | cons event events ih =>
    intro doneTaskNum hlt
    cases event with
    | done =>
      unfold fanOutLoop
      split
      · simp
      · exact ih (doneTaskNum + 1) (by omega)
    | quit downLoadPieceSize =>
      unfold fanOutLoop
      simp [hlt]

/-- C17 (evaluation at the failing input): primary recovery of a 100-byte
segment with 4 data and 2 parity shards, every secondary answering with a
one-byte piece, so `downloadedPieceSize * dataShards = 4` lies outside
`[100, 104]`. When the main goroutine receives four values from `doneCh` it
leaves the loop without the length check and calls `DecodeRawSegment`; the
task fails with `RecoveryDecode`. When it receives from `quitCh` after three
values it fails with `RecoveryPieceNotEnough`. The length check sits behind
`doneTaskNum < minRecoveryPieces` in the `quitCh` case, which always holds
there for `dataShards >= 1`: no sequence of events leaves the loop with
`RecoveryPieceLength`. -/
theorem HandleRecoverPieceTask_skips_length_check :
    recoverEnvShort.GetPieceFromECChunks "ep1" = .ok [1] ∧
    recoverEnvShort.SegmentPieceSize objectE5.PayloadSize 0 paramsE4.MaxSegmentSize = 100 ∧
    (HandleRecoverPieceTask recoverEnvShort schedFourDone recoverTaskPrimary).outcome
      = .returned ∧
    (HandleRecoverPieceTask recoverEnvShort schedFourDone recoverTaskPrimary).task.Err
      = some .ErrRecoveryDecode ∧
    RecoverEff.decodeRawSegment
        [some [1], some [1], some [1], some [1], some [1], some [1]] 100
      ∈ (HandleRecoverPieceTask recoverEnvShort schedFourDone recoverTaskPrimary).effs ∧
    (HandleRecoverPieceTask recoverEnvShort schedQuitEarly recoverTaskPrimary).task.Err
      = some .ErrRecoveryPieceNotEnough ∧
    (∀ (dataShards : Nat) (segmentSize : Int) (events : List FanOutEvent), 1 ≤ dataShards →
      fanOutLoop dataShards dataShards segmentSize events 0 ≠ .pieceLength) := by
  refine ⟨rfl, rfl, by decide, by decide, by decide, by decide, ?_⟩
  intro dataShards segmentSize events h
  exact fanOutLoop_ne_pieceLength dataShards segmentSize events 0 (by omega)

theorem doRecoveryPiece_task (env : RecoverEnv) (task : RecoveryPieceTask) (endpoint : String) :
    (doRecoveryPiece env task endpoint).2.1.Recovered = task.Recovered ∧
    (doRecoveryPiece env task endpoint).2.1.SegmentIdx = task.SegmentIdx ∧
    (doRecoveryPiece env task endpoint).2.1.Err = task.Err := by
  unfold doRecoveryPiece
  split
  · exact ⟨rfl, rfl, rfl⟩
  · split <;> exact ⟨rfl, rfl, rfl⟩

theorem launchFanOut_task (env : RecoverEnv) (endpoints : List String) :
    ∀ task : RecoveryPieceTask,
    (launchFanOut env task endpoints).1.Recovered = task.Recovered ∧
    (launchFanOut env task endpoints).1.SegmentIdx = task.SegmentIdx ∧
    (launchFanOut env task endpoints).1.Err = task.Err := by
  induction endpoints with
  | nil => intro task; exact ⟨rfl, rfl, rfl⟩
  | cons endpoint endpoints ih =>
    intro task
    obtain ⟨h1, h2, h3⟩ := ih (doRecoveryPiece env task endpoint).2.1
    obtain ⟨g1, g2, g3⟩ := doRecoveryPiece_task env task endpoint
    exact ⟨h1.trans g1, h2.trans g2, h3.trans g3⟩

theorem checkRecoveryCheckSum_recovered (env : RecoverEnv) (task : RecoveryPieceTask)
    (objectInfo : ObjectInfo) (recoveryChecksum : List Nat) :
    (checkRecoveryCheckSum env task objectInfo recoveryChecksum).2.1.Recovered
      = task.Recovered := by
  unfold checkRecoveryCheckSum
  split
  · rfl
  · split
    · rfl
    · split <;> rfl

theorem checkRecoveryCheckSum_passed (env : RecoverEnv) (task : RecoveryPieceTask)
    (objectInfo : ObjectInfo) (recoveryChecksum : List Nat)
    (h : (checkRecoveryCheckSum env task objectInfo recoveryChecksum).1 = .passed) :
    ∃ integrityMeta, env.GetObjectIntegrity objectInfo.Id = .ok integrityMeta ∧
      integrityMeta.PieceChecksumList[task.SegmentIdx]? = some recoveryChecksum := by
  unfold checkRecoveryCheckSum at h
  split at h
  · simp at h
  · rename_i integrityMeta hmeta
    split at h
    · simp at h
    · rename_i expectedHash hexp
      split at h
      · simp at h
      · rename_i hne
        exact ⟨integrityMeta, hmeta, by rw [hexp, not_not.mp hne]⟩

theorem recoverSecondarySP_done (env : RecoverEnv) (task : RecoveryPieceTask)
    (objectInfo : ObjectInfo) (ecIndex : Int) :
    (recoverSecondarySP env task objectInfo ecIndex).task.Recovered = task.Recovered ∧
    ((recoverSecondarySP env task objectInfo ecIndex).finishRecovery = true →
      ∃ data integrityMeta,
        env.GetObjectIntegrity objectInfo.Id = .ok integrityMeta ∧
        integrityMeta.PieceChecksumList[task.SegmentIdx]? = some (env.GenerateChecksum data) ∧
        env.PutPiece (ECPieceKey objectInfo.Id task.SegmentIdx ecIndex.toNat) data = none ∧
        RecoverEff.putPiece (ECPieceKey objectInfo.Id task.SegmentIdx ecIndex.toNat) data none
          ∈ (recoverSecondarySP env task objectInfo ecIndex).effs) := by
  unfold recoverSecondarySP
  dsimp only
  split
  · exact ⟨rfl, by simp⟩
  · rename_i primarySPEndpoint _
    have hf := doRecoveryPiece_task env task primarySPEndpoint
    split
    · exact ⟨hf.1, by simp⟩
    · rename_i pieceData _
      have hc := checkRecoveryCheckSum_recovered env
        (doRecoveryPiece env task primarySPEndpoint).2.1 objectInfo
        (env.GenerateChecksum pieceData)
      split
      · exact ⟨hc.trans hf.1, by simp⟩
      · exact ⟨hc.trans hf.1, by simp⟩
      · rename_i hpassed
        obtain ⟨integrityMeta, hmeta, hsum⟩ := checkRecoveryCheckSum_passed env _ _ _ hpassed
        rw [hf.2.1] at hsum
        split
        · exact ⟨hc.trans hf.1, by simp⟩
        · rename_i hput
          refine ⟨hc.trans hf.1, fun _ => ⟨pieceData, integrityMeta, hmeta, hsum, hput, ?_⟩⟩
          simp

theorem recoverPrimarySP_done (env : RecoverEnv) (sched : FanOutSchedule)
    (task : RecoveryPieceTask) (objectInfo : ObjectInfo)
    (dataShards parityShards maxSegmentSize : Nat) :
    (recoverPrimarySP env sched task objectInfo dataShards parityShards
        maxSegmentSize).task.Recovered = task.Recovered ∧
    ((recoverPrimarySP env sched task objectInfo dataShards parityShards
        maxSegmentSize).finishRecovery = true →
      ∃ data integrityMeta,
        env.GetObjectIntegrity objectInfo.Id = .ok integrityMeta ∧
        integrityMeta.PieceChecksumList[task.SegmentIdx]? = some (env.GenerateChecksum data) ∧
        env.PutPiece (SegmentPieceKey objectInfo.Id task.SegmentIdx) data = none ∧
        RecoverEff.putPiece (SegmentPieceKey objectInfo.Id task.SegmentIdx) data none
          ∈ (recoverPrimarySP env sched task objectInfo dataShards parityShards
              maxSegmentSize).effs) := by
  unfold recoverPrimarySP
  dsimp only
  split
  · exact ⟨rfl, by simp⟩
  · rename_i secondaryEndpoints _
    have hl := launchFanOut_task env
      (secondaryEndpoints.take (addUint32 dataShards parityShards)) task
    split
    · exact ⟨hl.1, by simp⟩
    · split
      · exact ⟨hl.1, by simp⟩
      · exact ⟨hl.1, by simp⟩
      · exact ⟨hl.1, by simp⟩
      · split
        · exact ⟨hl.1, by simp⟩
        · rename_i recoverySegData _
          have hc := checkRecoveryCheckSum_recovered env
            (launchFanOut env task
              (secondaryEndpoints.take (addUint32 dataShards parityShards))).1
            objectInfo (env.GenerateChecksum recoverySegData)
          split
          · exact ⟨hc.trans hl.1, by simp⟩
          · exact ⟨hc.trans hl.1, by simp⟩
          · rename_i hpassed
            obtain ⟨integrityMeta, hmeta, hsum⟩ :=
              checkRecoveryCheckSum_passed env _ _ _ hpassed
            rw [hl.2.1] at hsum
            split
            · exact ⟨hc.trans hl.1, by simp⟩
            · rename_i hput
              refine ⟨hc.trans hl.1,
                fun _ => ⟨recoverySegData, integrityMeta, hmeta, hsum, hput, ?_⟩⟩
              simp

theorem recoverDeferred_recovered (body : RecoverBody)
    (h : (recoverDeferred body).task.Recovered = true) :
    body.finishRecovery = true ∨ body.task.Recovered = true := by
  unfold recoverDeferred at h
  dsimp only at h
  by_cases hf : body.finishRecovery = true
  · exact Or.inl hf
  · right
    rw [if_neg hf] at h
    split at h
    · exact h
    · exact h

/-- C18: if a run of `HandleRecoverPieceTask` ends with `RecoverDone` set and
the task did not arrive with it, then the recovered data's checksum equals
the entry `PieceChecksumList[SegmentIdx]` of the object's integrity meta and
the `PutPiece` of that data succeeded and was made under
`ECPieceKey(objID, segIdx, ecIdx)` when `EcIdx >= 0`, under
`SegmentPieceKey(objID, segIdx)` when `EcIdx = -1`. -/
theorem HandleRecoverPieceTask_recover_done (env : RecoverEnv) (sched : FanOutSchedule)
    (task : RecoveryPieceTask)
    (hdone : (HandleRecoverPieceTask env sched task).task.Recovered = true) :
    task.Recovered = true ∨
    ∃ objectInfo data integrityMeta,
      task.ObjectInfo = some objectInfo ∧
      env.GetObjectIntegrity objectInfo.Id = .ok integrityMeta ∧
      integrityMeta.PieceChecksumList[task.SegmentIdx]? = some (env.GenerateChecksum data) ∧
      ((0 ≤ task.EcIdx ∧
          env.PutPiece (ECPieceKey objectInfo.Id task.SegmentIdx task.EcIdx.toNat) data = none ∧
          RecoverEff.putPiece (ECPieceKey objectInfo.Id task.SegmentIdx task.EcIdx.toNat) data
            none ∈ (HandleRecoverPieceTask env sched task).effs) ∨
       (task.EcIdx = -1 ∧
          env.PutPiece (SegmentPieceKey objectInfo.Id task.SegmentIdx) data = none ∧
          RecoverEff.putPiece (SegmentPieceKey objectInfo.Id task.SegmentIdx) data none
            ∈ (HandleRecoverPieceTask env sched task).effs)) := by
  unfold HandleRecoverPieceTask at hdone ⊢
  cases hparams : task.StorageParams with
  | none =>
    rw [hparams] at hdone
    exact Or.inl hdone
  | some params =>
    rw [hparams] at hdone
    dsimp only at hdone ⊢
    cases hobj : task.ObjectInfo with
    | none =>
      rw [hobj] at hdone
      rcases recoverDeferred_recovered _ hdone with h | h
      · simp [recoverGate] at h
      · exact Or.inl h
    | some objectInfo =>
      rw [hobj] at hdone
      dsimp only at hdone ⊢
      by_cases hrt : objectInfo.RedundancyType ≠ .REDUNDANCY_EC_TYPE
      · rw [if_pos hrt] at hdone
        rcases recoverDeferred_recovered _ hdone with h | h
        · simp [recoverGate] at h
        · exact Or.inl h
      · rw [if_neg hrt] at hdone ⊢
        by_cases hgate : task.EcIdx < -1 ∨ task.EcIdx >
            wrapInt32 (int32OfUint32 (addUint32 params.RedundantDataChunkNum
              params.RedundantParityChunkNum) - 1)
        · rw [if_pos hgate] at hdone
          rcases recoverDeferred_recovered _ hdone with h | h
          · simp [recoverGate] at h
          · exact Or.inl h
        · rw [if_neg hgate] at hdone ⊢
          by_cases hsec : task.EcIdx ≥ 0
          · rw [if_pos hsec] at hdone ⊢
            obtain ⟨hr, hfin⟩ := recoverSecondarySP_done env task objectInfo task.EcIdx
            rcases recoverDeferred_recovered _ hdone with h | h
            · obtain ⟨data, integrityMeta, h1, h2, h3, h4⟩ := hfin h
              exact Or.inr ⟨objectInfo, data, integrityMeta, rfl, h1, h2,
                Or.inl ⟨hsec, h3, h4⟩⟩
            · exact Or.inl (hr ▸ h)
          · rw [if_neg hsec] at hdone ⊢
            obtain ⟨hr, hfin⟩ := recoverPrimarySP_done env sched task objectInfo
              params.RedundantDataChunkNum params.RedundantParityChunkNum params.MaxSegmentSize
            rcases recoverDeferred_recovered _ hdone with h | h
            · obtain ⟨data, integrityMeta, h1, h2, h3, h4⟩ := hfin h
              exact Or.inr ⟨objectInfo, data, integrityMeta, rfl, h1, h2,
                Or.inr ⟨by omega, h3, h4⟩⟩
            · exact Or.inl (hr ▸ h)

/-- C18 on the secondary recovery of EC chunk 2 of segment 0: the primary
answers with `[1]`, which matches the integrity row, and the write under
`ECPieceKey(9, 0, 2)` succeeds, so `RecoverDone` is set. -/
theorem HandleRecoverPieceTask_recover_done_witness :
    (HandleRecoverPieceTask recoverEnvShort schedFourDone recoverTaskSecondary).task.Recovered
      = true ∧
    RecoverEff.putPiece (ECPieceKey 9 0 2) [1] none
      ∈ (HandleRecoverPieceTask recoverEnvShort schedFourDone recoverTaskSecondary).effs ∧
    (recoverTaskSecondary.Recovered = true ∨
      ∃ objectInfo data integrityMeta,
        recoverTaskSecondary.ObjectInfo = some objectInfo ∧
        recoverEnvShort.GetObjectIntegrity objectInfo.Id = .ok integrityMeta ∧
        integrityMeta.PieceChecksumList[recoverTaskSecondary.SegmentIdx]?
          = some (recoverEnvShort.GenerateChecksum data) ∧
        ((0 ≤ recoverTaskSecondary.EcIdx ∧
            recoverEnvShort.PutPiece (ECPieceKey objectInfo.Id recoverTaskSecondary.SegmentIdx
              recoverTaskSecondary.EcIdx.toNat) data = none ∧
            RecoverEff.putPiece (ECPieceKey objectInfo.Id recoverTaskSecondary.SegmentIdx
              recoverTaskSecondary.EcIdx.toNat) data none
              ∈ (HandleRecoverPieceTask recoverEnvShort schedFourDone
                  recoverTaskSecondary).effs) ∨
         (recoverTaskSecondary.EcIdx = -1 ∧
            recoverEnvShort.PutPiece (SegmentPieceKey objectInfo.Id
              recoverTaskSecondary.SegmentIdx) data = none ∧
            RecoverEff.putPiece (SegmentPieceKey objectInfo.Id
              recoverTaskSecondary.SegmentIdx) data none
              ∈ (HandleRecoverPieceTask recoverEnvShort schedFourDone
                  recoverTaskSecondary).effs))) :=
  ⟨by decide, by decide,
   HandleRecoverPieceTask_recover_done recoverEnvShort schedFourDone recoverTaskSecondary
     (by decide)⟩

/-! ### Resource spans and `AskTask` -/

/-- C19 (evaluation at the failing input): the manager hands out a GC object
task and the reservation of its resources is refused. `AskTask` returns the
reservation error before the deferred `ReportTask` is installed: the task
obtained from the manager is not reported, and no handler runs that could
report it. -/
theorem AskTask_reserve_failure_not_reported :
    (AskTask askEnvRefused countersIdle).err = some (GfSpError.other 429) ∧
    (AskTask askEnvRefused countersIdle).effs =
      [.remainingResource, .askTask 8, .rcmgr (.beginSpan 1),
       .rcmgr (.reserveResources 1 (some (.other 429)))] ∧
    AskEff.reportTask { Key := "gc-100-199", variant := .GfSpGCObjectTask }
      ∉ (AskTask askEnvRefused countersIdle).effs := by
  decide

/-- After a successful reservation the deferred `e.ReportTask(ctx, askTask)` of
`AskTask` runs on every exit, for every variant, for an unsupported variant
and when the handler panics, and `AskTask` itself reports no other task.
After a failed reservation `AskTask` returns the error and its deferred
report is not installed. -/
theorem AskTask_deferred_report (env : AskEnv) (c : ExecutorCounters) (limit : Nat)
    (askTask : AskedTask)
    (hlimit : env.scope.RemainingResource = .ok limit)
    (hask : env.AskTask = .ok (some askTask)) :
    (∀ span, (ExecuteModular.ReserveResource env.scope).1 = .ok span →
      AskEff.reportTask askTask ∈ (AskTask env c).effs ∧
      ∀ t, AskEff.reportTask t ∈ (AskTask env c).effs → t = askTask) ∧
    (∀ err, (ExecuteModular.ReserveResource env.scope).1 = .error err →
      (AskTask env c).err = some err ∧
      ∀ t, AskEff.reportTask t ∉ (AskTask env c).effs) := by
  have hrr : ∀ eff ∈ (ExecuteModular.ReserveResource env.scope).2.map AskEff.rcmgr,
      ∀ t, eff ≠ AskEff.reportTask t := by
    intro eff heff t
    simp only [List.mem_map] at heff
    obtain ⟨r, _, rfl⟩ := heff
    simp
  constructor
  · intro span hspan
    simp only [AskTask, hlimit, hask, hspan, ReleaseResource]
    constructor
    · simp
    · intro t ht
      cases hv : askTask.variant <;>
        simp only [hv, List.mem_append, List.mem_cons, List.mem_map, List.mem_singleton,
          List.not_mem_nil, or_false, false_or, reduceCtorEq, AskEff.reportTask.injEq,
          and_false, exists_false] at ht <;>
        exact ht
  · intro err herr
    simp only [AskTask, hlimit, hask, herr, true_and]
    intro t ht
    simp only [List.mem_append, List.mem_cons, List.mem_singleton, List.not_mem_nil, or_false,
      reduceCtorEq, false_or] at ht
    exact hrr _ ht t rfl

/-- With the reservation granted, a seal task whose handler panics and a task
of an unsupported variant each get the deferred report of `AskTask`. -/
theorem AskTask_deferred_report_examples :
    (AskTask askEnvPanics countersIdle).panicked = true ∧
    AskEff.reportTask { Key := "seal-7", variant := .GfSpSealObjectTask }
      ∈ (AskTask askEnvPanics countersIdle).effs ∧
    AskEff.reportTask { Key := "upload-7", variant := .unsupported }
      ∈ (AskTask askEnvUnsupported countersIdle).effs :=
  ⟨by decide,
   ((AskTask_deferred_report askEnvPanics countersIdle 8 _ rfl rfl).1 1 rfl).1,
   ((AskTask_deferred_report askEnvUnsupported countersIdle 8 _ rfl rfl).1 1 rfl).1⟩

theorem ReserveResource_ok (scope : ScopeEnv) (span : Nat)
    (h : (ExecuteModular.ReserveResource scope).1 = .ok span) :
    (ExecuteModular.ReserveResource scope).2
      = [.beginSpan span, .reserveResources span none] := by
  unfold ExecuteModular.ReserveResource at h ⊢
  cases hb : scope.BeginSpan with
  | error err => simp [hb] at h
  | ok span1 =>
    simp only [hb] at h ⊢
    cases hr : scope.ReserveResources span1 with
    | some err => simp [hr] at h
    | none =>
      simp only [hr, Except.ok.injEq] at h ⊢
      subst h
      rfl

/-- C20 (evaluation at the failing input): on a scope that opens span 1 and
refuses the reservation, `ReserveResource` of the executor, the manager and
the receiver each return the error after `BeginSpan` and `ReserveResources`
without calling `Done`: span 1 is neither handed to the caller nor released,
and it is still open when `AskTask` returns. A span that `ReserveResource`
does hand to `AskTask` is released with `Done` before `AskTask` is left,
whatever the variant of the task and also when the handler panics. -/
theorem ReserveResource_failed_reservation_leaves_span_open :
    (ExecuteModular.ReserveResource scopeRefusing).1 = .error (.other 429) ∧
    (ExecuteModular.ReserveResource scopeRefusing).2
      = [.beginSpan 1, .reserveResources 1 (some (.other 429))] ∧
    openSpans (ExecuteModular.ReserveResource scopeRefusing).2 = [1] ∧
    (ManageModular.ReserveResource scopeRefusing).1 = .error (.other 429) ∧
    openSpans (ManageModular.ReserveResource scopeRefusing).2 = [1] ∧
    (ReceiveModular.ReserveResource scopeRefusing).1 = .error (.other 429) ∧
    openSpans (ReceiveModular.ReserveResource scopeRefusing).2 = [1] ∧
    openSpans (spanCalls (AskTask askEnvRefused countersIdle).effs) = [1] ∧
    (∀ (env : AskEnv) (c : ExecutorCounters) (limit : Nat) (askTask : AskedTask) (span : Nat),
      env.scope.RemainingResource = .ok limit →
      env.AskTask = .ok (some askTask) →
      (ExecuteModular.ReserveResource env.scope).1 = .ok span →
      RcmgrEff.done span ∈ spanCalls (AskTask env c).effs ∧
      openSpans (spanCalls (AskTask env c).effs) = []) := by
  refine ⟨rfl, rfl, by decide, rfl, by decide, rfl, by decide, by decide, ?_⟩
  intro env c limit askTask span hlimit hask hspan
  have heffs := ReserveResource_ok env.scope span hspan
  simp only [AskTask, hlimit, hask, hspan, heffs, ReleaseResource]
  cases askTask.variant <;> simp [spanCalls, openSpans]

/-! ### Executor: the submissions of `sealObject` -/

theorem submitCount_cons (eff : SealEff) (effs : List SealEff) :
    submitCount (eff :: effs) =
      submitCount effs + (match eff with
        | .sealObject _ => 1
        | _ => 0) := by
  cases eff <;> simp [submitCount, List.countP_cons]

theorem submitCount_append (a b : List SealEff) :
    submitCount (a ++ b) = submitCount a + submitCount b := by
  simp [submitCount, List.countP_append]

theorem submitCount_listenSealObjectLoop (e : ExecuteModular)
    (listen : Nat → Bool × Option GfSpError) (objectID : Nat) (n : Nat) : ∀ retry err,
    submitCount (listenSealObjectLoop e listen objectID n retry err).2 = 0 := by
  induction n with
  | zero => intro retry err; rfl
  | succ n ih =>
    intro retry err
    unfold listenSealObjectLoop
    rcases hl : listen retry with ⟨isSealed, innerErr⟩
    cases innerErr with
    | some innerErr => simp [submitCount_cons, ih]
    | none =>
      cases isSealed with
      | false => simp [submitCount_cons, ih]
      | true => simp [submitCount_cons, submitCount]

theorem submitCount_sealObjectSubmitLoop_le (e : ExecuteModular)
    (submit : Nat → Option GfSpError) (objectID : Nat) (sealMsg : MsgSealObject) (n : Nat) :
    ∀ retry, submitCount (sealObjectSubmitLoop e submit objectID sealMsg n retry) ≤ n := by
  induction n with
  | zero => intro retry; simp [sealObjectSubmitLoop, submitCount]
  | succ n ih =>
    intro retry
    unfold sealObjectSubmitLoop
    cases submit retry with
    | none => simp [submitCount_cons, submitCount]
    | some err =>
      have := ih (retry + 1)
      simp only [submitCount_cons]
      omega

theorem submitCount_sealObjectSubmitLoop_success (e : ExecuteModular)
    (submit : Nat → Option GfSpError) (objectID : Nat) (sealMsg : MsgSealObject) (n : Nat) :
    ∀ retry k, retry ≤ k → submit k = none →
      submitCount (sealObjectSubmitLoop e submit objectID sealMsg n retry) ≤ k + 1 - retry := by
  induction n with
  | zero => intro retry k _ _; simp [sealObjectSubmitLoop, submitCount]
  | succ n ih =>
    intro retry k hk hs
    unfold sealObjectSubmitLoop
    cases hr : submit retry with
    | none =>
      have hone : submitCount
          [SealEff.insertUploadEvent objectID .ExecutorBeginSealTx, .sealObject sealMsg,
           .insertUploadEvent objectID .ExecutorEndSealTx] = 1 := by
        simp [submitCount]
      rw [hone]
      omega
    | some err =>
      have hne : retry ≠ k := by
        intro h
        rw [h, hs] at hr
        cases hr
      have := ih (retry + 1) k (by omega) hs
      simp only [submitCount_cons]
      omega

theorem submitCount_sealObjectSubmitLoop_first (e : ExecuteModular)
    (submit : Nat → Option GfSpError) (objectID : Nat) (sealMsg : MsgSealObject) (n : Nat) :
    ∀ retry k, retry ≤ k → k < retry + n → submit k = none →
      (∀ j, retry ≤ j → j < k → submit j ≠ none) →
      submitCount (sealObjectSubmitLoop e submit objectID sealMsg n retry) = k - retry + 1 := by
  induction n with
  | zero => intro retry k h1 h2; omega
  | succ n ih =>
    intro retry k h1 h2 hs hfirst
    unfold sealObjectSubmitLoop
    by_cases hk : retry = k
    · subst hk
      rw [hs]
      have hone : submitCount
          [SealEff.insertUploadEvent objectID .ExecutorBeginSealTx, .sealObject sealMsg,
           .insertUploadEvent objectID .ExecutorEndSealTx] = 1 := by
        simp [submitCount]
      simp only [hone]
      omega
    · cases hr : submit retry with
      | none => exact absurd hr (hfirst retry (le_refl _) (by omega))
      | some err =>
        have := ih (retry + 1) k (by omega) (by omega) hs
          (fun j hj1 hj2 => hfirst j (by omega) hj2)
        simp only [submitCount_cons]
        omega

theorem submitCount_sealObjectSubmitLoop_all_fail (e : ExecuteModular)
    (submit : Nat → Option GfSpError) (objectID : Nat) (sealMsg : MsgSealObject) (n : Nat) :
    ∀ retry, (∀ j, retry ≤ j → j < retry + n → submit j ≠ none) →
      submitCount (sealObjectSubmitLoop e submit objectID sealMsg n retry) = n := by
  induction n with
  | zero => intro retry _; simp [sealObjectSubmitLoop, submitCount]
  | succ n ih =>
    intro retry hfail
    unfold sealObjectSubmitLoop
    cases hr : submit retry with
    | none => exact absurd hr (hfail retry (le_refl _) (by omega))
    | some err =>
      have := ih (retry + 1) (fun j hj1 hj2 => hfail j (by omega) (by omega))
      simp only [submitCount_cons]
      omega

/-- C21: for an object task with object info, `sealObject` submits
`MsgSealObject` until the first success and at most `MaxRetry + 1` times:
when submission `k` (counted from 0, `k <= MaxRetry`) is the first to succeed
it makes exactly `k + 1` submissions, and when all of the first
`MaxRetry + 1` fail it makes exactly `MaxRetry + 1` (none when `MaxRetry` is
negative). Whatever the submissions returned, the calls of `listenSealObject`
follow the submissions in the trace, no listen call is made before and no
submission after, and the error `sealObject` returns is the one
`listenSealObject` returns. -/
theorem sealObject_submits_then_listens (e : ExecuteModular) (env : SealEnv) (task : ObjectTask)
    (objectInfo : ObjectInfo) (sealMsg : MsgSealObject) :
    (submitCount (sealObject e env task objectInfo sealMsg).2 : Int) ≤ max (task.MaxRetry + 1) 0 ∧
    (∀ k, env.SealObject k = none →
      submitCount (sealObject e env task objectInfo sealMsg).2 ≤ k + 1) ∧
    (∀ k : Nat, (k : Int) ≤ task.MaxRetry → env.SealObject k = none →
      (∀ j, j < k → env.SealObject j ≠ none) →
      submitCount (sealObject e env task objectInfo sealMsg).2 = k + 1) ∧
    ((∀ j : Nat, (j : Int) ≤ task.MaxRetry → env.SealObject j ≠ none) →
      (submitCount (sealObject e env task objectInfo sealMsg).2 : Int) =
        max (task.MaxRetry + 1) 0) ∧
    (∃ submitted,
      (sealObject e env task objectInfo sealMsg).2 =
        submitted ++ (listenSealObject e env.ListenObjectSeal objectInfo).2 ∧
      listenCount submitted = 0 ∧
      submitCount (listenSealObject e env.ListenObjectSeal objectInfo).2 = 0) ∧
    (sealObject e env task objectInfo sealMsg).1 =
      (listenSealObject e env.ListenObjectSeal objectInfo).1 := by
  have hlisten : submitCount (listenSealObject e env.ListenObjectSeal objectInfo).2 = 0 :=
    submitCount_listenSealObjectLoop e env.ListenObjectSeal objectInfo.Id _ 0 none
  have heq : submitCount (sealObject e env task objectInfo sealMsg).2 =
      submitCount (sealObjectSubmitLoop e env.SealObject objectInfo.Id sealMsg
        (task.MaxRetry + 1).toNat 0) := by
    simp only [sealObject, submitCount_append, hlisten, Nat.add_zero]
  refine ⟨?_, ?_, ?_, ?_, ?_, rfl⟩
  · have := submitCount_sealObjectSubmitLoop_le e env.SealObject objectInfo.Id sealMsg
      (task.MaxRetry + 1).toNat 0
    rw [heq]
    omega
  · intro k hk
    have := submitCount_sealObjectSubmitLoop_success e env.SealObject objectInfo.Id sealMsg
      (task.MaxRetry + 1).toNat 0 k (Nat.zero_le _) hk
    rw [heq]
    omega
  · intro k hk hs hfirst
    have := submitCount_sealObjectSubmitLoop_first e env.SealObject objectInfo.Id sealMsg
      (task.MaxRetry + 1).toNat 0 k (Nat.zero_le _) (by omega) hs
      (fun j _ hj => hfirst j hj)
    rw [heq, this]
    omega
  · intro hfail
    have := submitCount_sealObjectSubmitLoop_all_fail e env.SealObject objectInfo.Id sealMsg
      (task.MaxRetry + 1).toNat 0 (fun j _ hj => hfail j (by omega))
    rw [heq, this]
    omega
  · exact ⟨_, rfl, listenCount_sealObjectSubmitLoop e env.SealObject objectInfo.Id sealMsg _ 0,
      hlisten⟩

/-- C21 at scenario E2 (`MaxRetry = 2`): when every submission fails,
`sealObject` submits three times; when the second submission succeeds, it
submits twice. In both runs the listen calls follow. -/
theorem sealObject_submits_then_listens_witness :
    submitCount (sealObject executorE2 sealEnvE2 sealTaskE2.toObjectTask objectE2
      sealMsgE2).2 = 3 ∧
    listenCount (sealObject executorE2 sealEnvE2 sealTaskE2.toObjectTask objectE2
      sealMsgE2).2 = 3 ∧
    submitCount (sealObject executorE2 sealEnvSecondSubmit sealTaskE2.toObjectTask objectE2
      sealMsgE2).2 = 2 :=
  ⟨by
    have h := (sealObject_submits_then_listens executorE2 sealEnvE2 sealTaskE2.toObjectTask
      objectE2 sealMsgE2).2.2.2.1 (fun _ _ => by simp [sealEnvE2])
    have hmax : max (sealTaskE2.toObjectTask.MaxRetry + 1) 0 = 3 := by decide
    rw [hmax] at h
    exact_mod_cast h,
   by decide,
   (sealObject_submits_then_listens executorE2 sealEnvSecondSubmit sealTaskE2.toObjectTask
      objectE2 sealMsgE2).2.2.1 1 (by decide) rfl
      (by
        intro j hj
        have hj0 : j = 0 := by omega
        subst hj0
        simp [sealEnvSecondSubmit])⟩

/-! ### Manager: `ResetGCObjectTask` and the weighted pick -/

/-- C23 (evaluation at the failing input): with two candidates of priority 1
the total is 2 and the draw is 0 or 1; the walk returns the first sorted
task for both draws, because its running sum 1 is `>=` either draw, so the
other task is returned for no draw, in whichever order the two are given. -/
theorem PickUpTask_starves_equal_priority_task :
    totalPriority [unitTaskA, unitTaskB] = 2 ∧
    0 < unitTaskA.GetPriority ∧ 0 < unitTaskB.GetPriority ∧
    PickUpTask [unitTaskA, unitTaskB] 0 = .task unitTaskA ∧
    PickUpTask [unitTaskA, unitTaskB] 1 = .task unitTaskA ∧
    drawsReturning [unitTaskA, unitTaskB] unitTaskB = [] ∧
    drawsReturning [unitTaskB, unitTaskA] unitTaskA = [] := by
  decide

/-- C30 (evaluation at the failing input): with two candidates of priority 0
the sum of the priorities is 0, so `r.Intn(totalPriority)` is called with the
empty range `[0, 0)` and panics: `PickUpTask` returns none of the given
tasks, whatever value a draw could have. -/
theorem PickUpTask_zero_priorities_panics (randPriority : Nat) :
    totalPriority (sortTasks [zeroTaskA, zeroTaskB]) = 0 ∧
    PickUpTask [zeroTaskA, zeroTaskB] randPriority = .intnPanic := by
  refine ⟨by decide, ?_⟩
  simp [PickUpTask, show totalPriority (sortTasks [zeroTaskA, zeroTaskB]) = 0 by decide]

/-! ### Chain access: `ListenRejectUnSealObject` -/

theorem ListenRejectUnSealObjectLoop_true_iff (query : Nat → Except QueryError ObjectInfo)
    (objectID : Nat) (n : Nat) : ∀ (i : Nat) (err : Option QueryError),
    (ListenRejectUnSealObjectLoop query objectID n i err).1 = (true, none) ↔
      ∃ j, i ≤ j ∧ j < i + n ∧ noSuchObjectAt query j = true := by
  induction n with
  | zero =>
    intro i err
    cases err <;> simp [ListenRejectUnSealObjectLoop]
    all_goals intro j hj; omega
  | succ n ih =>
    intro i err
    unfold ListenRejectUnSealObjectLoop
    cases hq : query i with
    | ok objectInfo =>
      simp only
      rw [ih]
      constructor
      · rintro ⟨j, h1, h2, h3⟩
        exact ⟨j, by omega, by omega, h3⟩
      · rintro ⟨j, h1, h2, h3⟩
        have hne : j ≠ i := by
          rintro rfl
          simp [noSuchObjectAt, hq] at h3
        exact ⟨j, by omega, by omega, h3⟩
    | error e =>
      by_cases hs : stringsContains e.Error "No such object" = true
      · simp only [hs, if_true, true_iff]
        exact ⟨i, le_refl _, by omega, by simp [noSuchObjectAt, hq, hs]⟩
      · simp only [if_neg hs]
        rw [ih]
        constructor
        · rintro ⟨j, h1, h2, h3⟩
          exact ⟨j, by omega, by omega, h3⟩
        · rintro ⟨j, h1, h2, h3⟩
          have hne : j ≠ i := by
            rintro rfl
            simp [noSuchObjectAt, hq, hs] at h3
          exact ⟨j, by omega, by omega, h3⟩

theorem ListenRejectUnSealObjectLoop_queryCount_le (query : Nat → Except QueryError ObjectInfo)
    (objectID : Nat) (n : Nat) : ∀ (i : Nat) (err : Option QueryError),
    queryCount (ListenRejectUnSealObjectLoop query objectID n i err).2 ≤ n := by
  induction n with
  | zero => intro i err; cases err <;> simp [ListenRejectUnSealObjectLoop, queryCount]
  | succ n ih =>
    intro i err
    unfold ListenRejectUnSealObjectLoop
    cases hq : query i with
    | ok objectInfo =>
      have := ih (i + 1) none
      simp only [queryCount, List.countP_cons] at this ⊢
      simp only [if_true, Bool.false_eq_true, if_false]
      omega
    | error e =>
      by_cases hs : stringsContains e.Error "No such object" = true
      · simp [hs, queryCount]
      · have := ih (i + 1) (some e)
        simp only [if_neg hs, queryCount, List.countP_cons] at this ⊢
        simp only [if_true, Bool.false_eq_true, if_false]
        omega

theorem ListenRejectUnSealObjectLoop_first (query : Nat → Except QueryError ObjectInfo)
    (objectID : Nat) (n : Nat) : ∀ (i j : Nat) (err : Option QueryError),
    i ≤ j → j < i + n → noSuchObjectAt query j = true →
    (∀ k, i ≤ k → k < j → noSuchObjectAt query k = false) →
    queryCount (ListenRejectUnSealObjectLoop query objectID n i err).2 = j - i + 1 := by
  induction n with
  | zero => intro i j err h1 h2; omega
  | succ n ih =>
    intro i j err h1 h2 h3 h4
    unfold ListenRejectUnSealObjectLoop
    by_cases hij : i = j
    · subst hij
      cases hq : query i with
      | ok objectInfo => simp [noSuchObjectAt, hq] at h3
      | error e =>
        have hs : stringsContains e.Error "No such object" = true := by
          simpa [noSuchObjectAt, hq] using h3
        simp [hs, queryCount]
    · have hi := h4 i (le_refl _) (by omega)
      have hrec : ∀ e,
          queryCount (ListenRejectUnSealObjectLoop query objectID n (i + 1) e).2 =
            j - (i + 1) + 1 :=
        fun e => ih (i + 1) j e (by omega) (by omega) h3 (fun k hk1 hk2 => h4 k (by omega) hk2)
      cases hq : query i with
      | ok objectInfo =>
        have r2 := hrec none
        simp only [queryCount, List.countP_cons] at r2 ⊢
        simp only [if_true, Bool.false_eq_true, if_false]
        omega
      | error e =>
        have hs : ¬ stringsContains e.Error "No such object" = true := by
          simpa [noSuchObjectAt, hq] using hi
        have r2 := hrec (some e)
        simp only [if_neg hs, queryCount, List.countP_cons] at r2 ⊢
        simp only [if_true, Bool.false_eq_true, if_false]
        omega

theorem ListenRejectUnSealObjectLoop_not_rejected (query : Nat → Except QueryError ObjectInfo)
    (objectID : Nat) (n : Nat) : ∀ (i : Nat) (err : Option QueryError),
    (∀ j, i ≤ j → j < i + (n + 1) → noSuchObjectAt query j = false) →
    (ListenRejectUnSealObjectLoop query objectID (n + 1) i err).1 =
      (false, some (match query (i + n) with
        | .error e => ListenRejectError.queryError e
        | .ok _ => ListenRejectError.ErrRejectUnSealTimeout)) := by
  induction n with
  | zero =>
    intro i err h
    have hi := h i (le_refl _) (by omega)
    unfold ListenRejectUnSealObjectLoop
    cases hq : query i with
    | ok objectInfo => simp [ListenRejectUnSealObjectLoop, hq]
    | error e =>
      have hs : ¬ stringsContains e.Error "No such object" = true := by
        simpa [noSuchObjectAt, hq] using hi
      simp [ListenRejectUnSealObjectLoop, hq, hs]
  | succ n ih =>
    intro i err h
    have hi := h i (le_refl _) (by omega)
    have hrec : ∀ e, (ListenRejectUnSealObjectLoop query objectID (n + 1) (i + 1) e).1 =
        (false, some (match query (i + 1 + n) with
          | .error e => ListenRejectError.queryError e
          | .ok _ => ListenRejectError.ErrRejectUnSealTimeout)) :=
      fun e => ih (i + 1) e (fun j h1 h2 => h j (by omega) (by omega))
    have hidx : i + (n + 1) = i + 1 + n := by omega
    rw [hidx]
    conv_lhs => unfold ListenRejectUnSealObjectLoop
    cases hq : query i with
    | ok objectInfo => simpa using hrec none
    | error e =>
      have hs : ¬ stringsContains e.Error "No such object" = true := by
        simpa [noSuchObjectAt, hq] using hi
      simpa [hs] using hrec (some e)

/-- C24: `Gnfd.ListenRejectUnSealObject` returns `(true, nil)` exactly when one
of the first `timeoutHeight` queries fails with an error whose text contains
"No such object". When none does and the last query is query `n`
(`timeoutHeight = n + 1`), it returns false with `ErrRejectUnSealTimeout` if
that query succeeded and with that query's error if it failed; with a
non-positive `timeoutHeight` it makes no query and returns false with
`ErrRejectUnSealTimeout`. It issues at most `timeoutHeight` queries, and
exactly `i + 1` when query `i` is the first whose error contains the text. -/
theorem ListenRejectUnSealObject_rejected_iff (query : Nat → Except QueryError ObjectInfo)
    (objectID : Nat) (timeoutHeight : Int) :
    ((ListenRejectUnSealObject query objectID timeoutHeight).1 = (true, none) ↔
      ∃ i : Nat, (i : Int) < timeoutHeight ∧ noSuchObjectAt query i = true) ∧
    ((¬ ∃ i : Nat, (i : Int) < timeoutHeight ∧ noSuchObjectAt query i = true) →
      (∀ n : Nat, timeoutHeight = (n : Int) + 1 →
        (∀ objectInfo, query n = .ok objectInfo →
          (ListenRejectUnSealObject query objectID timeoutHeight).1 =
            (false, some .ErrRejectUnSealTimeout)) ∧
        (∀ e, query n = .error e →
          (ListenRejectUnSealObject query objectID timeoutHeight).1 =
            (false, some (.queryError e)))) ∧
      (timeoutHeight ≤ 0 →
        ListenRejectUnSealObject query objectID timeoutHeight =
          ((false, some .ErrRejectUnSealTimeout), []))) ∧
    queryCount (ListenRejectUnSealObject query objectID timeoutHeight).2 ≤ timeoutHeight.toNat ∧
    (∀ i : Nat, (i : Int) < timeoutHeight → noSuchObjectAt query i = true →
      (∀ k, k < i → noSuchObjectAt query k = false) →
      queryCount (ListenRejectUnSealObject query objectID timeoutHeight).2 = i + 1) := by
  refine ⟨?_, ?_, ?_, ?_⟩
  · unfold ListenRejectUnSealObject
    rw [ListenRejectUnSealObjectLoop_true_iff]
    constructor
    · rintro ⟨j, _, h2, h3⟩
      exact ⟨j, by omega, h3⟩
    · rintro ⟨j, h2, h3⟩
      exact ⟨j, Nat.zero_le _, by omega, h3⟩
  · intro hex
    refine ⟨?_, ?_⟩
    · intro n hn
      have hT : timeoutHeight.toNat = n + 1 := by omega
      have hno : ∀ j, 0 ≤ j → j < 0 + (n + 1) → noSuchObjectAt query j = false := by
        intro j _ hj
        by_contra hc
        exact hex ⟨j, by omega, by simpa using hc⟩
      have hres := ListenRejectUnSealObjectLoop_not_rejected query objectID n 0 none hno
      unfold ListenRejectUnSealObject
      rw [hT, hres]
      refine ⟨?_, ?_⟩
      · intro objectInfo hq
        simp [hq]
      · intro e hq
        simp [hq]
    · intro hle
      have hT : timeoutHeight.toNat = 0 := by omega
      simp [ListenRejectUnSealObject, hT, ListenRejectUnSealObjectLoop]
  · exact ListenRejectUnSealObjectLoop_queryCount_le query objectID _ 0 none
  · intro i hi hs hfirst
    have := ListenRejectUnSealObjectLoop_first query objectID timeoutHeight.toNat 0 i none
      (Nat.zero_le _) (by omega) hs (fun k _ hk => hfirst k hk)
    simpa [ListenRejectUnSealObject] using this

/-- C24 on a chain whose first query finds the object, whose second query fails
with a transient error and whose third query fails with "No such object":
with a budget of 10 queries the call returns `(true, nil)` after exactly
3 queries. -/
theorem ListenRejectUnSealObject_rejected_iff_witness :
    (ListenRejectUnSealObject rejectedOnThirdQuery 7 10).1 = (true, none) ∧
    queryCount (ListenRejectUnSealObject rejectedOnThirdQuery 7 10).2 = 3 :=
  ⟨(ListenRejectUnSealObject_rejected_iff rejectedOnThirdQuery 7 10).1.mpr
      ⟨2, by decide, by decide⟩,
   (ListenRejectUnSealObject_rejected_iff rejectedOnThirdQuery 7 10).2.2.2 2 (by decide)
      (by decide) (by decide)⟩

/-! ### Executor: monotone progress of garbage collection -/

theorem reportedBlockNumbers_append (a b : List GCEff) :
    reportedBlockNumbers (a ++ b) = reportedBlockNumbers a ++ reportedBlockNumbers b := by
  simp [reportedBlockNumbers, List.filterMap_append]

theorem reportedBlockNumbers_gcDeleteObject (e : ExecuteModular) (env : GCEnv)
    (objectInfo : ObjectInfo) (segmentCount : Nat) :
    reportedBlockNumbers (gcDeleteObject e env objectInfo segmentCount) = [] := by
  unfold reportedBlockNumbers
  rw [List.filterMap_eq_nil_iff]
  intro eff heff
  simp only [gcDeleteObject, List.mem_append, List.mem_map, List.mem_flatMap,
    List.mem_singleton] at heff
  rcases heff with (⟨_, _, rfl⟩ | ⟨⟨rIdx, address⟩, _, hin⟩) | rfl
  · rfl
  · split at hin
    · simp only [List.mem_map] at hin
      obtain ⟨_, _, rfl⟩ := hin
      rfl
    · simp at hin
  · rfl

/-- Inside the loop every reported block number lies between the task's value
at loop entry and its value at loop exit, the reported values never
decrease, and the value at loop exit is bounded by the largest `DeleteAt`. -/
theorem gcObjectLoop_progress (e : ExecuteModular) (env : GCEnv) (bound : Nat)
    (objs : List Object) :
    (∀ o ∈ objs, uint64OfInt64 o.DeleteAt ≤ bound) →
    ∀ (queries reports : Nat) (task : GCObjectTask),
    List.Pairwise (· ≤ ·)
      (reportedBlockNumbers (gcObjectLoop e env objs queries reports task).effs) ∧
    (∀ v ∈ reportedBlockNumbers (gcObjectLoop e env objs queries reports task).effs,
      task.CurrentBlockNumber ≤ v ∧
      v ≤ (gcObjectLoop e env objs queries reports task).task.CurrentBlockNumber) ∧
    task.CurrentBlockNumber ≤
      (gcObjectLoop e env objs queries reports task).task.CurrentBlockNumber ∧
    (gcObjectLoop e env objs queries reports task).task.CurrentBlockNumber ≤
      max task.CurrentBlockNumber bound := by
  induction objs with
  | nil =>
    intro _ queries reports task
    simp [gcObjectLoop, reportedBlockNumbers]
  | cons object rest ih =>
    intro hbound queries reports task
    have hobj : uint64OfInt64 object.DeleteAt ≤ bound := hbound object (List.mem_cons_self _ _)
    have hrest : ∀ o ∈ rest, uint64OfInt64 o.DeleteAt ≤ bound :=
      fun o ho => hbound o (List.mem_cons_of_mem _ ho)
    unfold gcObjectLoop
    cases env.QueryStorageParamsByTimestamp queries object.ObjectInfo.CreateAt with
    | error err => simp [reportedBlockNumbers]
    | ok storageParams =>
      simp only
      split
      · have := ih hrest (queries + 1) reports task
        simpa [reportedBlockNumbers] using this
      · rename_i hskip
        have hle : task.CurrentBlockNumber ≤ uint64OfInt64 object.DeleteAt := by omega
        have hcur : ((task.SetCurrentBlockNumber
            (uint64OfInt64 object.DeleteAt)).SetLastDeletedObjectId
              object.ObjectInfo.Id).CurrentBlockNumber = uint64OfInt64 object.DeleteAt := rfl
        have hhere : reportedBlockNumbers
            (GCEff.queryStorageParams object.ObjectInfo.CreateAt ::
              (gcDeleteObject e env object.ObjectInfo
                  (SegmentPieceCount object.ObjectInfo.PayloadSize
                    storageParams.MaxSegmentSize) ++
                [GCEff.reportTask
                  ((task.SetCurrentBlockNumber
                    (uint64OfInt64 object.DeleteAt)).SetLastDeletedObjectId
                      object.ObjectInfo.Id)])) = [uint64OfInt64 object.DeleteAt] := by
          have hcons : ∀ l : List GCEff,
              reportedBlockNumbers
                (GCEff.queryStorageParams object.ObjectInfo.CreateAt :: l) =
                reportedBlockNumbers l := fun l => by simp [reportedBlockNumbers]
          rw [hcons, reportedBlockNumbers_append, reportedBlockNumbers_gcDeleteObject]
          simp [reportedBlockNumbers, GCObjectTask.SetCurrentBlockNumber,
            GCObjectTask.SetLastDeletedObjectId]
        split
        · simp only [hhere, hcur]
          refine ⟨List.pairwise_singleton _ _, ?_, hle, ?_⟩
          · intro v hv
            simp only [List.mem_singleton] at hv
            subst hv
            exact ⟨hle, le_refl _⟩
          · omega
        · obtain ⟨h1, h2, h3, h4⟩ := ih hrest (queries + 1) (reports + 1)
            ((task.SetCurrentBlockNumber (uint64OfInt64 object.DeleteAt)).SetLastDeletedObjectId
              object.ObjectInfo.Id)
          rw [hcur] at h2 h3 h4
          simp only [reportedBlockNumbers_append, hhere, List.singleton_append]
          refine ⟨?_, ?_, ?_, ?_⟩
          · rw [List.pairwise_cons]
            exact ⟨fun v hv => (h2 v hv).1, h1⟩
          · intro v hv
            rcases List.mem_cons.mp hv with rfl | hv
            · exact ⟨hle, h3⟩
            · exact ⟨le_trans hle (h2 v hv).1, (h2 v hv).2⟩
          · exact le_trans hle h3
          · omega

theorem uint64OfInt64_le (x : Int) (n : Nat) (h0 : 0 ≤ x) (h : x ≤ (n : Int)) :
    uint64OfInt64 x ≤ n := by
  unfold uint64OfInt64
  omega

theorem reportedBlockNumbers_gcObjectDeferred (task : GCObjectTask) (err : Option GfSpError)
    (succeeded : Bool) :
    reportedBlockNumbers (gcObjectDeferred task err succeeded).2 =
      [(gcObjectDeferred task err succeeded).1.CurrentBlockNumber] ∧
    ((gcObjectDeferred task err succeeded).1.CurrentBlockNumber = task.CurrentBlockNumber ∨
      (gcObjectDeferred task err succeeded).1.CurrentBlockNumber =
        addUint64 task.EndBlockNumber 1) := by
  unfold gcObjectDeferred
  split
  · exact ⟨rfl, Or.inr rfl⟩
  · exact ⟨rfl, Or.inl rfl⟩

/-- The trace of a run: the reported values of the loop followed by the
report of the deferred function. -/
theorem chain_reported_loop_then_deferred (start final : Nat) (loopValues : List Nat)
    (loopExit : Nat)
    (hpair : List.Pairwise (· ≤ ·) loopValues)
    (hmem : ∀ v ∈ loopValues, start ≤ v ∧ v ≤ loopExit)
    (h1 : start ≤ loopExit) (h2 : loopExit ≤ final) :
    List.Chain (· ≤ ·) start (loopValues ++ [final]) := by
  rw [List.chain_iff_pairwise, List.pairwise_cons, List.pairwise_append]
  refine ⟨?_, hpair, List.pairwise_singleton _ _, ?_⟩
  · intro v hv
    rcases List.mem_append.mp hv with hv | hv
    · exact (hmem v hv).1
    · simp only [List.mem_singleton] at hv
      omega
  · intro a ha b hb
    simp only [List.mem_singleton] at hb
    have := (hmem a ha).2
    omega

/-- C25 (counterexample): a task for `[0, 2^64 - 1]` starting at block 0, one
listed object deleted at block 5. The conditions of the claim hold, the
handler assigns 5 to `CurrentBlockNumber` for the object and then the
`uint64` sum `End + 1 = 0`: the second assignment is below the first. -/
theorem HandleGCObjectTask_progress_wraps :
    gcEnvLast.ListDeletedObjectsByBlockNumberRange gcTaskLast.StartBlockNumber
      gcTaskLast.EndBlockNumber = .ok ([gcObjectEarly], 18446744073709551615) ∧
    ((gcTaskLast.StartBlockNumber : Int) ≤ gcObjectEarly.DeleteAt ∧
      gcObjectEarly.DeleteAt ≤ (gcTaskLast.EndBlockNumber : Int)) ∧
    gcTaskLast.CurrentBlockNumber ≤ gcTaskLast.EndBlockNumber + 1 ∧
    reportedBlockNumbers (HandleGCObjectTask executorE2 gcEnvLast gcTaskLast).2 = [5, 0] ∧
    ¬ List.Chain (· ≤ ·) gcTaskLast.CurrentBlockNumber
      (reportedBlockNumbers (HandleGCObjectTask executorE2 gcEnvLast gcTaskLast).2) := by
  refine ⟨rfl, by decide, by decide, by decide, ?_⟩
  rw [show reportedBlockNumbers (HandleGCObjectTask executorE2 gcEnvLast gcTaskLast).2 = [5, 0]
    by decide]
  intro h
  rw [List.chain_cons, List.chain_cons] at h
  exact absurd h.2.1 (by decide)

/-- C25 (amended): within one run of `HandleGCObjectTask`, when every listed
object has `DeleteAt` in `[Start, End]`, the task starts with
`CurrentBlockNumber <= End + 1` and `End + 1` stays within the `uint64` range,
the values assigned to `CurrentBlockNumber`, read off the progress reports
that follow each assignment, never decrease from the value the task started
with: each is greater than or equal to the one before. The task ends with a
value between its starting value and `End + 1`. -/
theorem HandleGCObjectTask_progress_monotone (e : ExecuteModular) (env : GCEnv)
    (task : GCObjectTask)
    (hrange : ∀ objs responseEndBlockID,
      env.ListDeletedObjectsByBlockNumberRange task.StartBlockNumber task.EndBlockNumber =
        .ok (objs, responseEndBlockID) →
      ∀ o ∈ objs, (task.StartBlockNumber : Int) ≤ o.DeleteAt ∧
        o.DeleteAt ≤ (task.EndBlockNumber : Int))
    (hstart : task.CurrentBlockNumber ≤ task.EndBlockNumber + 1)
    (hbound : task.EndBlockNumber + 1 < 2 ^ 64) :
    List.Chain (· ≤ ·) task.CurrentBlockNumber
      (reportedBlockNumbers (HandleGCObjectTask e env task).2) ∧
    task.CurrentBlockNumber ≤ (HandleGCObjectTask e env task).1.CurrentBlockNumber ∧
    (HandleGCObjectTask e env task).1.CurrentBlockNumber ≤ task.EndBlockNumber + 1 := by
  have hsum : addUint64 task.EndBlockNumber 1 = task.EndBlockNumber + 1 :=
    addUint64_eq _ _ hbound
  have hlisted : ∀ l : List GCEff,
      reportedBlockNumbers
        (GCEff.listDeletedObjects task.StartBlockNumber task.EndBlockNumber :: l) =
        reportedBlockNumbers l := fun l => by simp [reportedBlockNumbers]
  have hshort : ∀ (err : Option GfSpError) (succeeded : Bool),
      List.Chain (· ≤ ·) task.CurrentBlockNumber
        (reportedBlockNumbers (gcObjectDeferred task err succeeded).2) ∧
      task.CurrentBlockNumber ≤ (gcObjectDeferred task err succeeded).1.CurrentBlockNumber ∧
      (gcObjectDeferred task err succeeded).1.CurrentBlockNumber ≤
        task.EndBlockNumber + 1 := by
    intro err succeeded
    obtain ⟨hrep, hval⟩ := reportedBlockNumbers_gcObjectDeferred task err succeeded
    rw [hsum] at hval
    rw [hrep]
    refine ⟨?_, ?_, ?_⟩
    · rw [List.chain_iff_pairwise]
      simp only [List.pairwise_cons, List.mem_singleton, forall_eq, List.not_mem_nil,
        false_implies, implies_true, List.Pairwise.nil, and_true]
      omega
    · omega
    · omega
  unfold HandleGCObjectTask
  cases hl : env.ListDeletedObjectsByBlockNumberRange task.StartBlockNumber
      task.EndBlockNumber with
  | error err =>
    simp only [hlisted]
    exact hshort (some err) false
  | ok listed =>
    obtain ⟨waitingGCObjects, responseEndBlockID⟩ := listed
    simp only
    split
    · simp only [hlisted]
      exact hshort none false
    · split
      · simp only [hlisted]
        exact hshort none true
      · have hbound : ∀ o ∈ waitingGCObjects, uint64OfInt64 o.DeleteAt ≤ task.EndBlockNumber := by
          intro o ho
          have := hrange waitingGCObjects responseEndBlockID hl o ho
          exact uint64OfInt64_le _ _ (by omega) this.2
        obtain ⟨h1, h2, h3, h4⟩ :=
          gcObjectLoop_progress e env task.EndBlockNumber waitingGCObjects hbound 0 0 task
        have hend := (gcObjectLoop_range e env waitingGCObjects 0 0 task).2.1
        have hfinal : ∀ (err : Option GfSpError) (succeeded : Bool),
            List.Chain (· ≤ ·) task.CurrentBlockNumber
              (reportedBlockNumbers
                (GCEff.listDeletedObjects task.StartBlockNumber task.EndBlockNumber ::
                  ((gcObjectLoop e env waitingGCObjects 0 0 task).effs ++
                    (gcObjectDeferred (gcObjectLoop e env waitingGCObjects 0 0 task).task
                      err succeeded).2))) ∧
            task.CurrentBlockNumber ≤
              (gcObjectDeferred (gcObjectLoop e env waitingGCObjects 0 0 task).task
                err succeeded).1.CurrentBlockNumber ∧
            (gcObjectDeferred (gcObjectLoop e env waitingGCObjects 0 0 task).task
                err succeeded).1.CurrentBlockNumber ≤ task.EndBlockNumber + 1 := by
          intro err succeeded
          obtain ⟨hrep, hval⟩ := reportedBlockNumbers_gcObjectDeferred
            (gcObjectLoop e env waitingGCObjects 0 0 task).task err succeeded
          rw [hend, hsum] at hval
          rw [hlisted, reportedBlockNumbers_append, hrep]
          refine ⟨chain_reported_loop_then_deferred _ _ _ _ h1 h2 h3 (by omega), by omega,
            by omega⟩
        cases hexit : (gcObjectLoop e env waitingGCObjects 0 0 task).exit with
        | finished => exact hfinal none true
        | queryFailed err => exact hfinal (some err) false
        | canceled => exact hfinal none false

/-- C25 (amended) at scenario E4: objects deleted at blocks 150 and 160 in the range
`[100, 199]`, the task starting at block 100; the reported block numbers are
150, 160 and 200. -/
theorem HandleGCObjectTask_progress_monotone_witness :
    List.Chain (· ≤ ·) gcTaskE4.CurrentBlockNumber
      (reportedBlockNumbers (HandleGCObjectTask executorE2 gcEnvE4 gcTaskE4).2) ∧
    reportedBlockNumbers (HandleGCObjectTask executorE2 gcEnvE4 gcTaskE4).2 = [150, 160, 200] :=
  ⟨(HandleGCObjectTask_progress_monotone executorE2 gcEnvE4 gcTaskE4
      (by
        intro objs responseEndBlockID h o ho
        have hobjs : objs = [gcObjectA, gcObjectB] := by
          simp only [gcEnvE4, Except.ok.injEq, Prod.mk.injEq] at h
          exact h.1.symm
        subst hobjs
        simp only [List.mem_cons, List.mem_singleton, List.not_mem_nil, or_false] at ho
        rcases ho with rfl | rfl <;> decide)
      (by decide) (by decide)).1,
   by decide⟩

/-! ### Manager: `RejectUnSealObject` -/

/-- C26 (evaluation at the failing input): when all three submissions of
`MsgRejectSealObject` succeed and every `ListenRejectUnSealObject` call ends
with `(false, ErrRejectUnSealTimeout)`, no attempt confirmed the rejection,
yet `RejectUnSealObject` returns nil after its three attempts: the error of
the listen call lives in a variable of the `else` block, and the function's
`err` still holds the nil of the last submission. The same happens when only
the last submission succeeds and its listen call returns `(false, nil)`. -/
theorem RejectUnSealObject_unconfirmed_returns_nil :
    (RejectUnSealObject rejectEnvNeverConfirmed objectE2).1 = none ∧
    rejectSubmitCount (RejectUnSealObject rejectEnvNeverConfirmed objectE2).2 = 3 ∧
    confirmedCount (RejectUnSealObject rejectEnvNeverConfirmed objectE2).2 = 0 ∧
    (RejectUnSealObject rejectEnvLastUnconfirmed objectE2).1 = none ∧
    rejectSubmitCount (RejectUnSealObject rejectEnvLastUnconfirmed objectE2).2 = 3 ∧
    confirmedCount (RejectUnSealObject rejectEnvLastUnconfirmed objectE2).2 = 0 := by
  decide

theorem RejectUnSealObjectLoop_rejectSubmitCount_le (env : RejectEnv) (object : ObjectInfo)
    (msg : MsgRejectSealObject) (n : Nat) : ∀ (i listens : Nat) (err : Option GfSpError),
    rejectSubmitCount (RejectUnSealObjectLoop env object msg n i listens err).2 ≤ n := by
  induction n with
  | zero => intro i listens err; simp [RejectUnSealObjectLoop, rejectSubmitCount]
  | succ n ih =>
    intro i listens err
    unfold RejectUnSealObjectLoop
    cases env.RejectUnSealObject i with
    | some submitErr =>
      have := ih (i + 1) listens (some submitErr)
      simp only [rejectSubmitCount, List.countP_cons] at this ⊢
      simp only [if_true, Bool.false_eq_true, if_false]
      omega
    | none =>
      rcases env.ListenRejectUnSealObject listens with ⟨rejected, listenErr⟩
      cases listenErr with
      | some listenErr =>
        have := ih (i + 1) (listens + 1) none
        simp only [rejectSubmitCount, List.countP_cons] at this ⊢
        simp only [if_true, Bool.false_eq_true, if_false]
        omega
      | none =>
        cases rejected with
        | false =>
          have := ih (i + 1) (listens + 1) none
          simp only [rejectSubmitCount, List.countP_cons] at this ⊢
          simp only [if_true, Bool.false_eq_true, if_false]
          omega
        | true => simp [rejectSubmitCount]

/-- `RejectUnSealObject` makes at most `RejectUnSealObjectRetry = 3` submissions. -/
theorem RejectUnSealObject_rejectSubmitCount_le (env : RejectEnv) (object : ObjectInfo) :
    rejectSubmitCount (RejectUnSealObject env object).2 ≤ 3 :=
  RejectUnSealObjectLoop_rejectSubmitCount_le env object _ 3 0 0 none

/-! ### The counters of `AskTask` -/

/-- C27 (evaluation at the failing input): after `AskTask` has handled a
recovery task and returned, `doingRecoveryPieceTaskCnt` is 2 above its value
before the call, whatever the counters were: the case adds 1 before the
handler and its deferred call adds 1 again. `executingNum` and the other
counters are back at their values, and for a seal task all counters are. -/
theorem AskTask_recovery_counter_not_restored (c : ExecutorCounters) :
    (AskTask askEnvRecover c).panicked = false ∧
    (AskTask askEnvRecover c).err = none ∧
    (AskTask askEnvRecover c).counters =
      { c with doingRecoveryPieceTaskCnt := c.doingRecoveryPieceTaskCnt + 2 } ∧
    (AskTask askEnvRecover c).counters ≠ c ∧
    (AskTask askEnvSeal c).counters = c := by
  have h1 : (AskTask askEnvRecover c).counters =
      { c with doingRecoveryPieceTaskCnt := c.doingRecoveryPieceTaskCnt + 2 } := by
    cases c
    simp only [AskTask, askEnvRecover, scopeGranting, ExecuteModular.ReserveResource, addDoing,
      deferredDelta, leaveAskTask, ExecutorCounters.mk.injEq, true_and, and_true]
    constructor <;> omega
  have h2 : (AskTask askEnvSeal c).counters = c := by
    cases c
    simp only [AskTask, askEnvSeal, scopeGranting, ExecuteModular.ReserveResource, addDoing,
      deferredDelta, leaveAskTask, ExecutorCounters.mk.injEq, true_and, and_true]
    constructor <;> omega
  refine ⟨rfl, rfl, h1, ?_, h2⟩
  rw [h1]
  intro h
  have := congrArg ExecutorCounters.doingRecoveryPieceTaskCnt h
  simp only at this
  omega

/-! ### Recovery: errors and indices -/

/-- C28 (evaluation at the failing input): a primary recovery whose
`getObjectSecondaryEndpoints` fails (`ListSPs` returns an error) returns with
`RecoverDone` unset and with no error on the task, and so does a primary
recovery whose `PutPiece` of the decoded and verified segment fails: both
errors are assigned to the `err` of the `else` block, which the deferred
function does not read. -/
theorem HandleRecoverPieceTask_primary_errors_dropped :
    (HandleRecoverPieceTask recoverEnvNoSPs schedFourDone recoverTaskPrimary).outcome
      = .returned ∧
    (HandleRecoverPieceTask recoverEnvNoSPs schedFourDone recoverTaskPrimary).task.Recovered
      = false ∧
    (HandleRecoverPieceTask recoverEnvNoSPs schedFourDone recoverTaskPrimary).task.Err = none ∧
    (HandleRecoverPieceTask recoverEnvWriteFails schedFourDone recoverTaskPrimary).outcome
      = .returned ∧
    RecoverEff.putPiece (SegmentPieceKey 9 0) [1] (some (.other 507)) ∈
      (HandleRecoverPieceTask recoverEnvWriteFails schedFourDone recoverTaskPrimary).effs ∧
    (HandleRecoverPieceTask recoverEnvWriteFails schedFourDone recoverTaskPrimary).task.Recovered
      = false ∧
    (HandleRecoverPieceTask recoverEnvWriteFails schedFourDone recoverTaskPrimary).task.Err
      = none := by
  decide

/-- C29 (evaluation at the failing input): a recovery task that passes the
redundancy and `EcIdx` gates ends in an index-out-of-range panic when the
stored integrity row has no checksum at `SegmentIdx` (an empty
`PieceChecksumList`, in the secondary and in the primary recovery), and when
the object has three secondaries on chain while the storage params count
4 + 2 shards, so that the fan-out indexes the three-element slices at 3. -/
theorem HandleRecoverPieceTask_index_out_of_range :
    (HandleRecoverPieceTask recoverEnvNoChecksums schedFourDone recoverTaskSecondary).outcome
      = .panicked ∧
    (HandleRecoverPieceTask recoverEnvNoChecksums schedFourDone recoverTaskPrimary).outcome
      = .panicked ∧
    (getObjectSecondaryEndpoints recoverEnvShort objectE3).1 = .ok ["ep1", "ep2", "ep3"] ∧
    (HandleRecoverPieceTask recoverEnvShort schedFourDone recoverTaskFewSecondaries).outcome
      = .panicked := by
  refine ⟨by decide, by decide, rfl, by decide⟩

/-! ### Manager: the weighted pick on a positive total -/

theorem insertTask_perm (t : Task) (l : List Task) : (insertTask t l).Perm (t :: l) := by
  induction l with
  | nil => exact List.Perm.refl _
  | cons x xs ih =>
    unfold insertTask
    split
    · exact List.Perm.refl _
    · exact (List.Perm.cons x ih).trans (List.Perm.swap t x xs)

theorem foldl_insertTask_perm (l : List Task) : ∀ acc : List Task,
    (l.foldl (fun acc t => insertTask t acc) acc).Perm (l ++ acc) := by
  induction l with
  | nil => intro acc; exact List.Perm.refl _
  | cons t ts ih =>
    intro acc
    simp only [List.foldl_cons, List.cons_append]
    exact (ih (insertTask t acc)).trans
      ((List.Perm.append_left ts (insertTask_perm t acc)).trans List.perm_middle)

theorem sortTasks_perm (tasks : List Task) : (sortTasks tasks).Perm tasks := by
  have := foldl_insertTask_perm tasks []
  simpa [sortTasks] using this

theorem foldl_priority_eq_sum (l : List Task) : ∀ acc : Nat,
    l.foldl (fun acc t => acc + t.GetPriority) acc = acc + (l.map Task.GetPriority).sum := by
  induction l with
  | nil => intro acc; simp
  | cons t ts ih =>
    intro acc
    simp only [List.foldl_cons, List.map_cons, List.sum_cons, ih]
    omega

theorem totalPriority_eq_sum (l : List Task) :
    totalPriority l = (l.map Task.GetPriority).sum := by
  simp [totalPriority, foldl_priority_eq_sum]

theorem totalPriority_sortTasks (tasks : List Task) :
    totalPriority (sortTasks tasks) = totalPriority tasks := by
  rw [totalPriority_eq_sum, totalPriority_eq_sum]
  exact ((sortTasks_perm tasks).map _).sum_eq

theorem walkTasks_some (randPriority : Nat) (l : List Task) : ∀ acc : Nat,
    l ≠ [] → randPriority ≤ acc + (l.map Task.GetPriority).sum →
    ∃ t ∈ l, walkTasks randPriority acc l = some t := by
  induction l with
  | nil => intro acc h; exact absurd rfl h
  | cons t ts ih =>
    intro acc _ hle
    unfold walkTasks
    split
    · exact ⟨t, List.mem_cons_self _ _, rfl⟩
    · rename_i hlt
      simp only [List.map_cons, List.sum_cons] at hle
      have hne : ts ≠ [] := by
        rintro rfl
        simp only [List.map_nil, List.sum_nil] at hle
        omega
      obtain ⟨u, hu, hw⟩ := ih (acc + t.GetPriority) hne (by omega)
      exact ⟨u, List.mem_cons_of_mem _ hu, hw⟩

/-- On a non-empty candidate list whose priorities sum to a positive total,
`PickUpTask` returns one of the given tasks for every draw below the total;
a single candidate is returned whatever the draw. -/
theorem PickUpTask_returns_candidate (tasks : List Task) (randPriority : Nat)
    (hne : tasks ≠ [])
    (hdraw : tasks.length = 1 ∨ randPriority < totalPriority tasks) :
    ∃ t ∈ tasks, PickUpTask tasks randPriority = .task t := by
  match tasks, hne, hdraw with
  | [t], _, _ => exact ⟨t, List.mem_singleton.mpr rfl, rfl⟩
  | t1 :: t2 :: rest, _, hdraw =>
    have hr : randPriority < totalPriority (t1 :: t2 :: rest) := by
      rcases hdraw with h | h
      · simp at h
      · exact h
    have htot := totalPriority_sortTasks (t1 :: t2 :: rest)
    have hsne : sortTasks (t1 :: t2 :: rest) ≠ [] := by
      intro h
      have := (sortTasks_perm (t1 :: t2 :: rest)).length_eq
      rw [h] at this
      simp at this
    obtain ⟨u, hu, hw⟩ := walkTasks_some randPriority (sortTasks (t1 :: t2 :: rest)) 0 hsne
      (by rw [← totalPriority_eq_sum, htot]; omega)
    refine ⟨u, (sortTasks_perm (t1 :: t2 :: rest)).mem_iff.mp hu, ?_⟩
    have hpos : totalPriority (sortTasks (t1 :: t2 :: rest)) ≠ 0 := by omega
    simp only [PickUpTask, hpos, if_false, hw]

end Gfsp
